import Mathlib

/-!
# WorkerThreadableLoader: the cross-thread loading bridge

Shallow embedding of
`third_party/WebKit/Source/core/loader/WorkerThreadableLoader.cpp`.

The worker ("origin") thread and the main ("privileged" / loader) thread only
talk through posted tasks.  Effects on external collaborators are recorded as
traces:

* tasks posted with `postTaskToLoader` / `postTaskToWorkerGlobalScope` are
  appended to the queues of `WorkerLoaderProxy`;
* calls made on the privileged `DocumentThreadableLoader` are appended to its
  call log;
* `performTask` calls made by the worker thread are appended to `performed`.

Assertions abort: a function that can hit one returns `Run`, whose error case
carries the kind of failure together with the state at the point of the abort.
-/

set_option linter.dupNamespace false

namespace WorkerThreadableLoader

/-! ## Payload types -/

/-- Call site captured by `BLINK_FROM_HERE`: the enclosing function. -/
structure WebTraceLocation where
  function_name : String
  deriving DecidableEq, Repr

/-- The `BLINK_FROM_HERE` of the function called `fn`. -/
def BLINK_FROM_HERE (fn : String) : WebTraceLocation := ⟨fn⟩

/-- A `ResourceError` (platform/network/ResourceError.h): the four constructor
arguments and the cancellation mark. -/
structure ResourceError where
  m_domain : String
  m_errorCode : Int
  m_failingURL : String
  m_localizedDescription : String
  m_isCancellation : Bool
  deriving DecidableEq, Repr

/-- `ResourceError(domain, errorCode, failingURL, localizedDescription)`. -/
def ResourceError.create (domain : String) (errorCode : Int) (failingURL : String)
    (localizedDescription : String) : ResourceError :=
  ⟨domain, errorCode, failingURL, localizedDescription, false⟩

/-- `ResourceError::setIsCancellation`. -/
def ResourceError.setIsCancellation (e : ResourceError) (isCancellation : Bool) :
    ResourceError :=
  { e with m_isCancellation := isCancellation }

/-- `ResourceError::isCancellation`. -/
def ResourceError.isCancellation (e : ResourceError) : Bool := e.m_isCancellation

/-- Referrer policies (`ReferrerPolicy`), kept as an enumeration tag. -/
inductive ReferrerPolicy where
  | ReferrerPolicyAlways
  | ReferrerPolicyDefault
  | ReferrerPolicyNoReferrerWhenDowngrade
  | ReferrerPolicyNever
  | ReferrerPolicyOrigin
  | ReferrerPolicyOriginWhenCrossOrigin
  deriving DecidableEq, Repr

/-- A `Referrer`: the referrer string and the policy it was generated under. -/
structure Referrer where
  referrer : String
  referrerPolicy : ReferrerPolicy
  deriving DecidableEq, Repr

/-- The parts of a `ResourceRequest` the loader reads or writes; every other
field travels inside `m_rest`. -/
structure ResourceRequest where
  m_url : String
  m_httpReferrer : String
  m_referrerPolicy : ReferrerPolicy
  m_didSetHTTPReferrer : Bool
  m_rest : List (String × String)
  deriving DecidableEq, Repr

/-- `ResourceRequest::url`. -/
def ResourceRequest.url (r : ResourceRequest) : String := r.m_url

/-- `ResourceRequest::didSetHTTPReferrer`. -/
def ResourceRequest.didSetHTTPReferrer (r : ResourceRequest) : Bool := r.m_didSetHTTPReferrer

/-- `ResourceRequest::setHTTPReferrer`. -/
def ResourceRequest.setHTTPReferrer (r : ResourceRequest) (ref : Referrer) : ResourceRequest :=
  { r with m_httpReferrer := ref.referrer, m_referrerPolicy := ref.referrerPolicy,
           m_didSetHTTPReferrer := true }

/-- A `ResourceResponse`, carried unchanged from the loader to the client. -/
structure ResourceResponse where
  m_url : String
  m_httpStatusCode : Int
  deriving DecidableEq, Repr

/-- A `ResourceTimingInfo`, carried unchanged from the loader to the client. -/
structure ResourceTimingInfo where
  m_type : String
  m_initialTime : Nat
  deriving DecidableEq, Repr

/-- A `WebDataConsumerHandle`, identified by a number. -/
structure WebDataConsumerHandle where
  id : Nat
  deriving DecidableEq, Repr

/-- `ThreadableLoaderOptions`, carried unchanged to the privileged loader. -/
structure ThreadableLoaderOptions where
  timeoutMilliseconds : Nat
  rest : List (String × String)
  deriving DecidableEq, Repr

/-- Values of `ResourceLoaderOptions::requestInitiatorContext`. -/
inductive RequestInitiatorContext where
  | DocumentContext
  | WorkerContext
  deriving DecidableEq, Repr

/-- `ResourceLoaderOptions`: the field the bridge overwrites and the rest. -/
structure ResourceLoaderOptions where
  requestInitiatorContext : RequestInitiatorContext
  rest : List (String × String)
  deriving DecidableEq, Repr

/-- `createVectorFromMemoryRegion(data, dataLength)`: a fresh buffer holding
the first `dataLength` bytes of the region that starts at `data`. -/
def createVectorFromMemoryRegion (data : List Char) (dataLength : Nat) : List Char :=
  data.take dataLength

/-- Conversion of an `int` argument to the `unsigned` parameter of
`createVectorFromMemoryRegion` (32-bit, wrapping). -/
def intToUnsigned (n : Int) : Nat := (n % 4294967296).toNat

/-! ## Client callbacks and the tasks that carry them -/

/-- One call of a `ThreadableLoaderClientWrapper` method with its arguments.
A `finishTime` (a `double`) is only passed along and is kept as its bit
pattern. -/
inductive ClientCallback where
  | didSendData (bytesSent totalBytesToBeSent : Nat)
  | didReceiveResponse (identifier : Nat) (response : ResourceResponse)
      (handle : Option WebDataConsumerHandle)
  | didReceiveData (data : List Char)
  | didDownloadData (dataLength : Int)
  | didReceiveCachedMetadata (data : List Char)
  | didFinishLoading (identifier : Nat) (finishTime : Nat)
  | didFail (error : ResourceError)
  | didFailAccessControlCheck (error : ResourceError)
  | didFailRedirectCheck
  | didReceiveResourceTiming (info : ResourceTimingInfo)
  deriving DecidableEq, Repr

/-- The four terminal client callbacks. -/
def ClientCallback.isTerminal : ClientCallback → Bool
  | .didFinishLoading _ _ => true
  | .didFail _ => true
  | .didFailAccessControlCheck _ => true
  | .didFailRedirectCheck => true
  | _ => false

/-- The closure built by `createCrossThreadTask(&ThreadableLoaderClientWrapper::m,
m_workerClientWrapper, args...)`: a wrapper method bound to its arguments. -/
abbrev ExecutionContextTask := ClientCallback

/-- `MainThreadSyncBridge::ClientTask`. -/
structure ClientTask where
  m_location : WebTraceLocation
  m_task : ExecutionContextTask
  deriving DecidableEq, Repr

/-! ## The client wrapper -/

/-- Modelled from the spec: `ThreadableLoaderClientWrapper`, whose definition
(core/loader/ThreadableLoaderClientWrapper.h) is not among the sources.  The
spec gives it the states active and done, makes every delivery a no-op once it
is done or its client is cleared, moves it to done on a terminal callback or
on explicit cancellation, and never moves it back.  `received` logs every
callback method called on the wrapper, `delivered` the calls it passed on to
the client. -/
structure ThreadableLoaderClientWrapper where
  m_done : Bool
  m_client : Bool
  received : List ClientCallback
  delivered : List ClientCallback
  deriving DecidableEq, Repr

/-- Modelled from the spec: a wrapper freshly constructed around a client is
active and has delivered nothing. -/
def ThreadableLoaderClientWrapper.create : ThreadableLoaderClientWrapper :=
  ⟨false, true, [], []⟩

/-- Modelled from the spec: `ThreadableLoaderClientWrapper::done`. -/
def ThreadableLoaderClientWrapper.done (w : ThreadableLoaderClientWrapper) : Bool := w.m_done

/-- Modelled from the spec: `ThreadableLoaderClientWrapper::clearClient`; no
further client delivery is permitted afterwards. -/
def ThreadableLoaderClientWrapper.clearClient (w : ThreadableLoaderClientWrapper) :
    ThreadableLoaderClientWrapper :=
  { w with m_done := true, m_client := false }

/-- Modelled from the spec: whether the wrapper still passes calls on to its
client (it is active and the client has not been cleared). -/
def ThreadableLoaderClientWrapper.delivers (w : ThreadableLoaderClientWrapper) : Bool :=
  !w.m_done && w.m_client

/-- Modelled from the spec: a non-terminal wrapper method; delivered to the
client unless the wrapper is done or its client is cleared. -/
def ThreadableLoaderClientWrapper.forward (w : ThreadableLoaderClientWrapper)
    (c : ClientCallback) : ThreadableLoaderClientWrapper :=
  if w.delivers then
    { w with received := w.received ++ [c], delivered := w.delivered ++ [c] }
  else
    { w with received := w.received ++ [c] }

/-- Modelled from the spec: a terminal wrapper method; delivered like a
non-terminal one, and the wrapper is done afterwards. -/
def ThreadableLoaderClientWrapper.forwardTerminal (w : ThreadableLoaderClientWrapper)
    (c : ClientCallback) : ThreadableLoaderClientWrapper :=
  { w.forward c with m_done := true }

/-- Modelled from the spec: a call of the wrapper method named by `c`; the
terminal methods are finish, fail, access-control-fail and redirect-fail. -/
def ThreadableLoaderClientWrapper.call (w : ThreadableLoaderClientWrapper)
    (c : ClientCallback) : ThreadableLoaderClientWrapper :=
  if c.isTerminal then w.forwardTerminal c else w.forward c

/-- `ExecutionContextTask::performTask` for a client task: calls the bound
wrapper method with the bound arguments. -/
def performTask (task : ExecutionContextTask) (w : ThreadableLoaderClientWrapper) :
    ThreadableLoaderClientWrapper :=
  w.call task

/-- Modelled from the spec: `ThreadableLoaderClientWrapper::didFail`. -/
def ThreadableLoaderClientWrapper.didFail (w : ThreadableLoaderClientWrapper)
    (error : ResourceError) : ThreadableLoaderClientWrapper :=
  w.call (.didFail error)

/-! ## The loader proxy and the privileged loader -/

/-- The tasks `MainThreadBridgeBase` posts to the loader (main) thread. -/
inductive LoaderTask where
  | mainThreadCreateLoader (options : ThreadableLoaderOptions)
      (resourceLoaderOptions : ResourceLoaderOptions)
  | mainThreadStart (request : ResourceRequest)
  | mainThreadOverrideTimeout (timeoutMilliseconds : Nat)
  | mainThreadCancel
  | mainThreadDestroy
  deriving DecidableEq, Repr

/-- A task as handed to `postTaskToLoader`. -/
structure PostedLoaderTask where
  m_location : WebTraceLocation
  m_task : LoaderTask
  deriving DecidableEq, Repr

/-- `WorkerLoaderProxy`: both task queues, in post order. -/
structure WorkerLoaderProxy where
  loaderTasks : List PostedLoaderTask
  workerTasks : List ClientTask
  deriving DecidableEq, Repr

/-- `WorkerLoaderProxy::postTaskToLoader`. -/
def WorkerLoaderProxy.postTaskToLoader (p : WorkerLoaderProxy) (loc : WebTraceLocation)
    (task : LoaderTask) : WorkerLoaderProxy :=
  { p with loaderTasks := p.loaderTasks ++ [⟨loc, task⟩] }

/-- `WorkerLoaderProxy::postTaskToWorkerGlobalScope`. -/
def WorkerLoaderProxy.postTaskToWorkerGlobalScope (p : WorkerLoaderProxy)
    (loc : WebTraceLocation) (task : ExecutionContextTask) : WorkerLoaderProxy :=
  { p with workerTasks := p.workerTasks ++ [⟨loc, task⟩] }

/-- The privileged `DocumentThreadableLoader` as the bridge sees it: what it
was created with and the calls it has received. -/
structure DocumentThreadableLoader where
  options : ThreadableLoaderOptions
  resourceLoaderOptions : ResourceLoaderOptions
  started : List ResourceRequest
  timeouts : List Nat
  cancels : Nat
  deriving DecidableEq, Repr

/-- `DocumentThreadableLoader::create`. -/
def DocumentThreadableLoader.create (options : ThreadableLoaderOptions)
    (resourceLoaderOptions : ResourceLoaderOptions) : DocumentThreadableLoader :=
  ⟨options, resourceLoaderOptions, [], [], 0⟩

/-- `DocumentThreadableLoader::start`. -/
def DocumentThreadableLoader.start (l : DocumentThreadableLoader) (request : ResourceRequest) :
    DocumentThreadableLoader :=
  { l with started := l.started ++ [request] }

/-- `DocumentThreadableLoader::overrideTimeout`. -/
def DocumentThreadableLoader.overrideTimeout (l : DocumentThreadableLoader)
    (timeoutMilliseconds : Nat) : DocumentThreadableLoader :=
  { l with timeouts := l.timeouts ++ [timeoutMilliseconds] }

/-- `DocumentThreadableLoader::cancel`. -/
def DocumentThreadableLoader.cancel (l : DocumentThreadableLoader) : DocumentThreadableLoader :=
  { l with cancels := l.cancels + 1 }

/-! ## Aborting computations -/

/-- The ways a step can abort. -/
inductive Fatal where
  | ASSERT
  | RELEASE_ASSERT
  | DCHECK
  | nullDereference
  deriving DecidableEq, Repr

/-- A step on a state `σ`: the new state, or the failure and the state at the
point of the abort. -/
abbrev Run (σ : Type) := Except (Fatal × σ) σ

/-- The state a step ended in, whether it returned or aborted. -/
def Run.state {σ : Type} : Run σ → σ
  | .ok s => s
  | .error (_, s) => s

/-- The failure a step aborted with, if it did. -/
def Run.failure {σ : Type} : Run σ → Option Fatal
  | .ok _ => none
  | .error (f, _) => some f

/-! ## MainThreadBridgeBase -/

/-- `WorkerThreadableLoader::MainThreadBridgeBase`.  `m_mainThreadLoader` is
null until `mainThreadCreateLoader` has run and again after
`mainThreadCancel`. -/
structure MainThreadBridgeBase where
  m_workerClientWrapper : ThreadableLoaderClientWrapper
  m_loaderProxy : WorkerLoaderProxy
  m_mainThreadLoader : Option DocumentThreadableLoader
  deriving DecidableEq, Repr

namespace MainThreadBridgeBase

/-- The constructor `MainThreadBridgeBase(workerClientWrapper, loaderProxy)`. -/
def create (workerClientWrapper : ThreadableLoaderClientWrapper)
    (loaderProxy : WorkerLoaderProxy) : MainThreadBridgeBase :=
  ⟨workerClientWrapper, loaderProxy, none⟩

/-- `mainThreadCreateLoader`, run on the main thread. -/
def mainThreadCreateLoader (b : MainThreadBridgeBase) (options : ThreadableLoaderOptions)
    (resourceLoaderOptions : ResourceLoaderOptions) : MainThreadBridgeBase :=
  let resourceLoaderOptions :=
    { resourceLoaderOptions with requestInitiatorContext := RequestInitiatorContext.WorkerContext }
  { b with m_mainThreadLoader := some (DocumentThreadableLoader.create options resourceLoaderOptions) }

/-- `mainThreadStart`, run on the main thread: `ASSERT(m_mainThreadLoader)`,
then `m_mainThreadLoader->start(request)`. -/
def mainThreadStart (b : MainThreadBridgeBase) (requestData : ResourceRequest) :
    Run MainThreadBridgeBase :=
  match b.m_mainThreadLoader with
  | none => .error (Fatal.ASSERT, b)
  | some loader => .ok { b with m_mainThreadLoader := some (loader.start requestData) }

/-- `createLoaderInMainThread`. -/
def createLoaderInMainThread (b : MainThreadBridgeBase) (options : ThreadableLoaderOptions)
    (resourceLoaderOptions : ResourceLoaderOptions) : MainThreadBridgeBase :=
  { b with m_loaderProxy :=
      (b.m_loaderProxy.postTaskToLoader (BLINK_FROM_HERE "createLoaderInMainThread")
        (.mainThreadCreateLoader options resourceLoaderOptions)) }

/-- `startInMainThread`. -/
def startInMainThread (b : MainThreadBridgeBase) (request : ResourceRequest) :
    MainThreadBridgeBase :=
  { b with m_loaderProxy :=
      (b.m_loaderProxy.postTaskToLoader (BLINK_FROM_HERE "startInMainThread")
        (.mainThreadStart request)) }

/-- `destroy`: clear the client, then post the self-deletion. -/
def destroy (b : MainThreadBridgeBase) : MainThreadBridgeBase :=
  let b1 := { b with m_workerClientWrapper := b.m_workerClientWrapper.clearClient }
  { b1 with m_loaderProxy :=
      (b1.m_loaderProxy.postTaskToLoader (BLINK_FROM_HERE "destroy")
        .mainThreadDestroy) }

/-- `mainThreadOverrideTimeout`, run on the main thread. -/
def mainThreadOverrideTimeout (b : MainThreadBridgeBase) (timeoutMilliseconds : Nat) :
    MainThreadBridgeBase :=
  match b.m_mainThreadLoader with
  | none => b
  | some loader =>
      { b with m_mainThreadLoader := some (loader.overrideTimeout timeoutMilliseconds) }

/-- `overrideTimeout`. -/
def overrideTimeout (b : MainThreadBridgeBase) (timeoutMilliseconds : Nat) :
    MainThreadBridgeBase :=
  { b with m_loaderProxy :=
      (b.m_loaderProxy.postTaskToLoader (BLINK_FROM_HERE "overrideTimeout")
        (.mainThreadOverrideTimeout timeoutMilliseconds)) }

/-- `mainThreadCancel`, run on the main thread.  The second component is the
loader after its `cancel()`, which the bridge then lets go of. -/
def mainThreadCancel (b : MainThreadBridgeBase) :
    MainThreadBridgeBase × Option DocumentThreadableLoader :=
  match b.m_mainThreadLoader with
  | none => (b, none)
  | some loader => ({ b with m_mainThreadLoader := none }, some loader.cancel)

/-- The error `cancel` builds: `ResourceError error(String(), 0, String(),
String()); error.setIsCancellation(true);`. -/
def cancellationError : ResourceError :=
  (ResourceError.create "" 0 "" "").setIsCancellation true

/-- `cancel`, run on the worker thread. -/
def cancel (b : MainThreadBridgeBase) : MainThreadBridgeBase :=
  let b1 := { b with m_loaderProxy :=
      (b.m_loaderProxy.postTaskToLoader (BLINK_FROM_HERE "cancel")
        .mainThreadCancel) }
  let clientWrapper := b1.m_workerClientWrapper
  let clientWrapper :=
    if !clientWrapper.done then clientWrapper.didFail cancellationError else clientWrapper
  { b1 with m_workerClientWrapper := clientWrapper.clearClient }

end MainThreadBridgeBase

/-! ## The callback sink -/

/-- Which of the two virtual forwarding methods a sink method calls. -/
inductive ForwardKind where
  | forwardTaskToWorker
  | forwardTaskToWorkerOnLoaderDone
  deriving DecidableEq, Repr

/-- A call `forwardTaskToWorker(location, task)` or
`forwardTaskToWorkerOnLoaderDone(location, task)` made by a sink method. -/
structure ForwardCall where
  via : ForwardKind
  m_location : WebTraceLocation
  m_task : ExecutionContextTask
  deriving DecidableEq, Repr

/-- The client task a forwarding call carries. -/
def ForwardCall.clientTask (f : ForwardCall) : ClientTask := ⟨f.m_location, f.m_task⟩

namespace MainThreadBridgeBase

/-- `MainThreadBridgeBase::didSendData`. -/
def didSendData (bytesSent totalBytesToBeSent : Nat) : ForwardCall :=
  ⟨.forwardTaskToWorker, BLINK_FROM_HERE "didSendData",
    .didSendData bytesSent totalBytesToBeSent⟩

/-- `MainThreadBridgeBase::didReceiveResponse`. -/
def didReceiveResponse (identifier : Nat) (response : ResourceResponse)
    (handle : Option WebDataConsumerHandle) : ForwardCall :=
  ⟨.forwardTaskToWorker, BLINK_FROM_HERE "didReceiveResponse",
    .didReceiveResponse identifier response handle⟩

/-- `MainThreadBridgeBase::didReceiveData`. -/
def didReceiveData (data : List Char) (dataLength : Nat) : ForwardCall :=
  ⟨.forwardTaskToWorker, BLINK_FROM_HERE "didReceiveData",
    .didReceiveData (createVectorFromMemoryRegion data dataLength)⟩

/-- `MainThreadBridgeBase::didDownloadData`. -/
def didDownloadData (dataLength : Int) : ForwardCall :=
  ⟨.forwardTaskToWorker, BLINK_FROM_HERE "didDownloadData", .didDownloadData dataLength⟩

/-- `MainThreadBridgeBase::didReceiveCachedMetadata`. -/
def didReceiveCachedMetadata (data : List Char) (dataLength : Int) : ForwardCall :=
  ⟨.forwardTaskToWorker, BLINK_FROM_HERE "didReceiveCachedMetadata",
    .didReceiveCachedMetadata (createVectorFromMemoryRegion data (intToUnsigned dataLength))⟩

/-- `MainThreadBridgeBase::didFinishLoading`. -/
def didFinishLoading (identifier : Nat) (finishTime : Nat) : ForwardCall :=
  ⟨.forwardTaskToWorkerOnLoaderDone, BLINK_FROM_HERE "didFinishLoading",
    .didFinishLoading identifier finishTime⟩

/-- `MainThreadBridgeBase::didFail`. -/
def didFail (error : ResourceError) : ForwardCall :=
  ⟨.forwardTaskToWorkerOnLoaderDone, BLINK_FROM_HERE "didFail", .didFail error⟩

/-- `MainThreadBridgeBase::didFailAccessControlCheck`. -/
def didFailAccessControlCheck (error : ResourceError) : ForwardCall :=
  ⟨.forwardTaskToWorkerOnLoaderDone, BLINK_FROM_HERE "didFailAccessControlCheck",
    .didFailAccessControlCheck error⟩

/-- `MainThreadBridgeBase::didFailRedirectCheck`. -/
def didFailRedirectCheck : ForwardCall :=
  ⟨.forwardTaskToWorkerOnLoaderDone, BLINK_FROM_HERE "didFailRedirectCheck",
    .didFailRedirectCheck⟩

/-- `MainThreadBridgeBase::didReceiveResourceTiming`. -/
def didReceiveResourceTiming (info : ResourceTimingInfo) : ForwardCall :=
  ⟨.forwardTaskToWorker, BLINK_FROM_HERE "didReceiveResourceTiming",
    .didReceiveResourceTiming info⟩

end MainThreadBridgeBase

/-- One call made by the privileged loader on the bridge, which is its
`ThreadableLoaderClient`: the sink method and its arguments. -/
inductive SinkCallback where
  | didSendData (bytesSent totalBytesToBeSent : Nat)
  | didReceiveResponse (identifier : Nat) (response : ResourceResponse)
      (handle : Option WebDataConsumerHandle)
  | didReceiveData (data : List Char) (dataLength : Nat)
  | didDownloadData (dataLength : Int)
  | didReceiveCachedMetadata (data : List Char) (dataLength : Int)
  | didFinishLoading (identifier : Nat) (finishTime : Nat)
  | didFail (error : ResourceError)
  | didFailAccessControlCheck (error : ResourceError)
  | didFailRedirectCheck
  | didReceiveResourceTiming (info : ResourceTimingInfo)
  deriving DecidableEq, Repr

/-- The body of the sink method a callback names. -/
def MainThreadBridgeBase.sink : SinkCallback → ForwardCall
  | .didSendData bytesSent totalBytesToBeSent =>
      MainThreadBridgeBase.didSendData bytesSent totalBytesToBeSent
  | .didReceiveResponse identifier response handle =>
      MainThreadBridgeBase.didReceiveResponse identifier response handle
  | .didReceiveData data dataLength => MainThreadBridgeBase.didReceiveData data dataLength
  | .didDownloadData dataLength => MainThreadBridgeBase.didDownloadData dataLength
  | .didReceiveCachedMetadata data dataLength =>
      MainThreadBridgeBase.didReceiveCachedMetadata data dataLength
  | .didFinishLoading identifier finishTime =>
      MainThreadBridgeBase.didFinishLoading identifier finishTime
  | .didFail error => MainThreadBridgeBase.didFail error
  | .didFailAccessControlCheck error => MainThreadBridgeBase.didFailAccessControlCheck error
  | .didFailRedirectCheck => MainThreadBridgeBase.didFailRedirectCheck
  | .didReceiveResourceTiming info => MainThreadBridgeBase.didReceiveResourceTiming info

/-! ## MainThreadAsyncBridge -/

/-- `WorkerThreadableLoader::MainThreadAsyncBridge`. -/
structure MainThreadAsyncBridge extends MainThreadBridgeBase where
  deriving DecidableEq, Repr

namespace MainThreadAsyncBridge

/-- The constructor: the base constructor, then `createLoaderInMainThread`. -/
def create (loaderProxy : WorkerLoaderProxy)
    (workerClientWrapper : ThreadableLoaderClientWrapper) (options : ThreadableLoaderOptions)
    (resourceLoaderOptions : ResourceLoaderOptions) : MainThreadAsyncBridge :=
  ⟨(MainThreadBridgeBase.create workerClientWrapper loaderProxy).createLoaderInMainThread
    options resourceLoaderOptions⟩

/-- `MainThreadAsyncBridge::start`. -/
def start (b : MainThreadAsyncBridge) (request : ResourceRequest) : MainThreadAsyncBridge :=
  ⟨b.toMainThreadBridgeBase.startInMainThread request⟩

/-- `MainThreadAsyncBridge::forwardTaskToWorker`. -/
def forwardTaskToWorker (b : MainThreadAsyncBridge) (loc : WebTraceLocation)
    (task : ExecutionContextTask) : MainThreadAsyncBridge :=
  { b with m_loaderProxy := (b.m_loaderProxy.postTaskToWorkerGlobalScope loc task) }

/-- `MainThreadAsyncBridge::forwardTaskToWorkerOnLoaderDone`. -/
def forwardTaskToWorkerOnLoaderDone (b : MainThreadAsyncBridge) (loc : WebTraceLocation)
    (task : ExecutionContextTask) : MainThreadAsyncBridge :=
  { b with m_loaderProxy := (b.m_loaderProxy.postTaskToWorkerGlobalScope loc task) }

/-- A sink method called on an async bridge: the base-class body with the
virtual forwarding call resolved to this class. -/
def sink (b : MainThreadAsyncBridge) (cb : SinkCallback) : MainThreadAsyncBridge :=
  let f := MainThreadBridgeBase.sink cb
  match f.via with
  | .forwardTaskToWorker => b.forwardTaskToWorker f.m_location f.m_task
  | .forwardTaskToWorkerOnLoaderDone => b.forwardTaskToWorkerOnLoaderDone f.m_location f.m_task

/-- A sequence of sink calls, in order. -/
def sinkAll (b : MainThreadAsyncBridge) (cbs : List SinkCallback) : MainThreadAsyncBridge :=
  cbs.foldl sink b

end MainThreadAsyncBridge

/-! ## MainThreadSyncBridge -/

/-- A `WaitableEvent`, with the number of `signal()` calls it has received; it
is signalled when that number is positive. -/
structure WaitableEvent where
  signals : Nat
  deriving DecidableEq, Repr

/-- `new WaitableEvent()`. -/
def WaitableEvent.create : WaitableEvent := ⟨0⟩

/-- `WaitableEvent::signal`. -/
def WaitableEvent.signal (e : WaitableEvent) : WaitableEvent := ⟨e.signals + 1⟩

/-- `WorkerThreadableLoader::MainThreadSyncBridge`.  `m_loaderDoneEvent` is
null until `start` creates it.  `performed` is the trace of the `performTask`
calls `start` has made. -/
structure MainThreadSyncBridge extends MainThreadBridgeBase where
  m_done : Bool
  m_loaderDoneEvent : Option WaitableEvent
  m_clientTasks : List ClientTask
  performed : List ClientTask
  deriving DecidableEq, Repr

namespace MainThreadSyncBridge

/-- The constructor: the base constructor, `m_done(false)`, then
`createLoaderInMainThread`. -/
def create (loaderProxy : WorkerLoaderProxy)
    (workerClientWrapper : ThreadableLoaderClientWrapper) (options : ThreadableLoaderOptions)
    (resourceLoaderOptions : ResourceLoaderOptions) : MainThreadSyncBridge :=
  { toMainThreadBridgeBase :=
      (MainThreadBridgeBase.create workerClientWrapper loaderProxy).createLoaderInMainThread
        options resourceLoaderOptions
    m_done := false
    m_loaderDoneEvent := none
    m_clientTasks := []
    performed := [] }

/-- `MainThreadSyncBridge::forwardTaskToWorker`. -/
def forwardTaskToWorker (b : MainThreadSyncBridge) (loc : WebTraceLocation)
    (task : ExecutionContextTask) : Run MainThreadSyncBridge :=
  if b.m_done then .error (Fatal.RELEASE_ASSERT, b)
  else .ok { b with m_clientTasks := b.m_clientTasks ++ [ClientTask.mk loc task] }

/-- `MainThreadSyncBridge::forwardTaskToWorkerOnLoaderDone`. -/
def forwardTaskToWorkerOnLoaderDone (b : MainThreadSyncBridge) (loc : WebTraceLocation)
    (task : ExecutionContextTask) : Run MainThreadSyncBridge :=
  if b.m_done then .error (Fatal.RELEASE_ASSERT, b)
  else
    let b1 := { b with m_clientTasks := b.m_clientTasks ++ [ClientTask.mk loc task] }
    let b2 := { b1 with m_done := true }
    match b2.m_loaderDoneEvent with
    | none => .error (Fatal.nullDereference, b2)
    | some event => .ok { b2 with m_loaderDoneEvent := some event.signal }

/-- A sink method called on a sync bridge: the base-class body with the
virtual forwarding call resolved to this class. -/
def sink (b : MainThreadSyncBridge) (cb : SinkCallback) : Run MainThreadSyncBridge :=
  let f := MainThreadBridgeBase.sink cb
  match f.via with
  | .forwardTaskToWorker => b.forwardTaskToWorker f.m_location f.m_task
  | .forwardTaskToWorkerOnLoaderDone => b.forwardTaskToWorkerOnLoaderDone f.m_location f.m_task

/-- A sequence of sink calls, in order, up to the first one that aborts. -/
def sinkAll (b : MainThreadSyncBridge) : List SinkCallback → Run MainThreadSyncBridge
  | [] => .ok b
  | cb :: cbs =>
      match b.sink cb with
      | .ok b1 => sinkAll b1 cbs
      | .error e => .error e

/-- `cancel`, inherited from the base class. -/
def cancel (b : MainThreadSyncBridge) : MainThreadSyncBridge :=
  { b with toMainThreadBridgeBase := b.toMainThreadBridgeBase.cancel }

/-- One iteration of the loop in `start`: `task.m_task->performTask(nullptr)`. -/
def performClientTask (b : MainThreadSyncBridge) (task : ClientTask) : MainThreadSyncBridge :=
  { b with
    m_workerClientWrapper := performTask task.m_task b.m_workerClientWrapper
    performed := b.performed ++ [task] }

/-- `MainThreadSyncBridge::start`.  The worker thread blocks in
`WaitableEvent::waitMultiple`; `arrivals` are the sink calls the main thread
makes on the bridge before the worker thread wakes up, and `signaledIndex` is
what the wait returns (0 for the termination event, 1 for
`m_loaderDoneEvent`). -/
def start (b : MainThreadSyncBridge) (request : ResourceRequest)
    (arrivals : List SinkCallback) (signaledIndex : Nat) : Run MainThreadSyncBridge :=
  let b1 := { b with m_loaderDoneEvent := some WaitableEvent.create }
  let b2 := { b1 with toMainThreadBridgeBase := b1.toMainThreadBridgeBase.startInMainThread request }
  match b2.sinkAll arrivals with
  | .error e => .error e
  | .ok b3 =>
      if signaledIndex = 0 then .ok b3.cancel
      else if !b3.m_done then .error (Fatal.ASSERT, b3)
      else
        let tasks := b3.m_clientTasks
        let b4 := { b3 with m_clientTasks := [] }
        .ok (tasks.foldl performClientTask b4)

end MainThreadSyncBridge

/-! ## Traces, worker steps and sample inputs -/

/-- The client task a sink callback is turned into. -/
def SinkCallback.clientTask (cb : SinkCallback) : ClientTask :=
  (MainThreadBridgeBase.sink cb).clientTask

/-- Whether a sink callback is routed through `forwardTaskToWorkerOnLoaderDone`. -/
def SinkCallback.onLoaderDone (cb : SinkCallback) : Bool :=
  decide ((MainThreadBridgeBase.sink cb).via = ForwardKind.forwardTaskToWorkerOnLoaderDone)

/-- What the worker thread can do to the client wrapper of a bridge: run a
client task that reached it, or call `cancel()`. -/
inductive WorkerStep where
  | performTask (task : ExecutionContextTask)
  | cancel
  deriving DecidableEq, Repr

/-- One worker-thread step on a bridge. -/
def MainThreadBridgeBase.workerStep (b : MainThreadBridgeBase) : WorkerStep → MainThreadBridgeBase
  | .performTask task =>
      { b with m_workerClientWrapper := performTask task b.m_workerClientWrapper }
  | .cancel => b.cancel

/-- A sequence of worker-thread steps, in order. -/
def MainThreadBridgeBase.workerRun (b : MainThreadBridgeBase) (steps : List WorkerStep) :
    MainThreadBridgeBase :=
  steps.foldl MainThreadBridgeBase.workerStep b

/-- Number of terminal callbacks in a trace of client callbacks. -/
def terminalCount (trace : List ClientCallback) : Nat :=
  (trace.filter ClientCallback.isTerminal).length

/-! ### Sample inputs -/

/-- A request for `http://example.test/a` without a referrer. -/
def sampleRequest : ResourceRequest :=
  ⟨"http://example.test/a", "", ReferrerPolicy.ReferrerPolicyDefault, false, []⟩

/-- A sync bridge as its constructor leaves it, around a fresh wrapper. -/
def sampleSyncBridge : MainThreadSyncBridge :=
  MainThreadSyncBridge.create ⟨[], []⟩ ThreadableLoaderClientWrapper.create ⟨0, []⟩
    ⟨RequestInitiatorContext.DocumentContext, []⟩

/-- The sample sync bridge once `start` has created its loader-done event. -/
def sampleWaitingSyncBridge : MainThreadSyncBridge :=
  { sampleSyncBridge with m_loaderDoneEvent := some WaitableEvent.create }

/-- A bridge base whose privileged loader has not been created. -/
def sampleBridgeBase : MainThreadBridgeBase :=
  MainThreadBridgeBase.create ThreadableLoaderClientWrapper.create ⟨[], []⟩

/-- A response with status 200. -/
def sampleResponse : ResourceResponse := ⟨"http://example.test/a", 200⟩

/-! ## WorkerThreadableLoader -/

/-- `BlockingBehavior`. -/
inductive BlockingBehavior where
  | LoadSynchronously
  | LoadAsynchronously
  deriving DecidableEq, Repr

/-- The parts of a `WorkerGlobalScope` the loader reads: `getReferrerPolicy()`,
`outgoingReferrer()` and `thread()->workerLoaderProxy()`. -/
structure WorkerGlobalScope where
  m_referrerPolicy : ReferrerPolicy
  m_outgoingReferrer : String
  m_workerLoaderProxy : WorkerLoaderProxy
  deriving DecidableEq, Repr

/-- `WorkerGlobalScope::getReferrerPolicy`. -/
def WorkerGlobalScope.getReferrerPolicy (scope : WorkerGlobalScope) : ReferrerPolicy :=
  scope.m_referrerPolicy

/-- `WorkerGlobalScope::outgoingReferrer`. -/
def WorkerGlobalScope.outgoingReferrer (scope : WorkerGlobalScope) : String :=
  scope.m_outgoingReferrer

/-- The object behind the `MainThreadBridgeBase*` of a loader: an instance of
one of the two subclasses. -/
inductive Bridge where
  | async (b : MainThreadAsyncBridge)
  | sync (b : MainThreadSyncBridge)
  deriving DecidableEq, Repr

namespace Bridge

/-- The base-class part of a bridge. -/
def base : Bridge → MainThreadBridgeBase
  | .async b => b.toMainThreadBridgeBase
  | .sync b => b.toMainThreadBridgeBase

/-- Runs a base-class method on a bridge. -/
def onBase (f : MainThreadBridgeBase → MainThreadBridgeBase) : Bridge → Bridge
  | .async b => .async { b with toMainThreadBridgeBase := f b.toMainThreadBridgeBase }
  | .sync b => .sync { b with toMainThreadBridgeBase := f b.toMainThreadBridgeBase }

/-- The virtual `start`.  An async bridge returns at once, so no sink call has
arrived yet; a sync bridge blocks as described at `MainThreadSyncBridge.start`. -/
def start (bridge : Bridge) (request : ResourceRequest) (arrivals : List SinkCallback)
    (signaledIndex : Nat) : Run Bridge :=
  match bridge with
  | .async b => .ok (.async (b.start request))
  | .sync b =>
      match b.start request arrivals signaledIndex with
      | .ok r => .ok (.sync r)
      | .error (f, r) => .error (f, .sync r)

/-- `destroy`, inherited from the base class. -/
def destroy (bridge : Bridge) : Bridge := bridge.onBase MainThreadBridgeBase.destroy

/-- `cancel`, inherited from the base class. -/
def cancel (bridge : Bridge) : Bridge := bridge.onBase MainThreadBridgeBase.cancel

/-- `overrideTimeout`, inherited from the base class. -/
def overrideTimeout (bridge : Bridge) (timeoutMilliseconds : Nat) : Bridge :=
  bridge.onBase (fun b => b.overrideTimeout timeoutMilliseconds)

end Bridge

/-- A `WorkerThreadableLoader`.  `bridge` is the bridge object its constructor
allocated, which lives until the main thread deletes it; `m_bridge` tells
whether the loader's pointer to it is still set.  `m_workerClientWrapper`
points to the wrapper the bridge holds. -/
structure WorkerThreadableLoader where
  m_workerGlobalScope : WorkerGlobalScope
  bridge : Bridge
  m_bridge : Bool
  deriving DecidableEq, Repr

/-- Signature of `SecurityPolicy::generateReferrer(referrerPolicy, url,
referrer)`, which is not among the sources. -/
abbrev GenerateReferrer := ReferrerPolicy → String → String → Referrer

namespace WorkerThreadableLoader

/-- The wrapper `m_workerClientWrapper` points to. -/
def m_workerClientWrapper (l : WorkerThreadableLoader) : ThreadableLoaderClientWrapper :=
  l.bridge.base.m_workerClientWrapper

/-- The constructor: a new wrapper around the client, then an async or a sync
bridge according to `blockingBehavior`. -/
def create (workerGlobalScope : WorkerGlobalScope) (options : ThreadableLoaderOptions)
    (resourceLoaderOptions : ResourceLoaderOptions) (blockingBehavior : BlockingBehavior) :
    WorkerThreadableLoader :=
  let workerClientWrapper := ThreadableLoaderClientWrapper.create
  if blockingBehavior = BlockingBehavior.LoadAsynchronously then
    { m_workerGlobalScope := workerGlobalScope
      bridge := Bridge.async (MainThreadAsyncBridge.create workerGlobalScope.m_workerLoaderProxy
        workerClientWrapper options resourceLoaderOptions)
      m_bridge := true }
  else
    { m_workerGlobalScope := workerGlobalScope
      bridge := Bridge.sync (MainThreadSyncBridge.create workerGlobalScope.m_workerLoaderProxy
        workerClientWrapper options resourceLoaderOptions)
      m_bridge := true }

/-- The destructor: `DCHECK(m_workerClientWrapper->done())`, then
`m_bridge->destroy()` and `m_bridge = nullptr`. -/
def destructor (l : WorkerThreadableLoader) : Run WorkerThreadableLoader :=
  if !l.m_workerClientWrapper.done then .error (Fatal.DCHECK, l)
  else .ok { l with bridge := l.bridge.destroy, m_bridge := false }

/-- The local `requestToPass` of `start`: a copy of the request, given a
generated referrer if none was set. -/
def requestToPass (generateReferrer : GenerateReferrer) (l : WorkerThreadableLoader)
    (request : ResourceRequest) : ResourceRequest :=
  let requestToPass := request
  if !requestToPass.didSetHTTPReferrer then
    requestToPass.setHTTPReferrer
      (generateReferrer l.m_workerGlobalScope.getReferrerPolicy request.url
        l.m_workerGlobalScope.outgoingReferrer)
  else requestToPass

/-- `WorkerThreadableLoader::start`. -/
def start (generateReferrer : GenerateReferrer) (l : WorkerThreadableLoader)
    (request : ResourceRequest) (arrivals : List SinkCallback) (signaledIndex : Nat) :
    Run WorkerThreadableLoader :=
  match l.bridge.start (l.requestToPass generateReferrer request) arrivals signaledIndex with
  | .ok bridge => .ok { l with bridge := bridge }
  | .error (f, bridge) => .error (f, { l with bridge := bridge })

/-- `WorkerThreadableLoader::overrideTimeout`. -/
def overrideTimeout (l : WorkerThreadableLoader) (timeoutMilliseconds : Nat) :
    Run WorkerThreadableLoader :=
  if !l.m_bridge then .error (Fatal.ASSERT, l)
  else .ok { l with bridge := l.bridge.overrideTimeout timeoutMilliseconds }

/-- `WorkerThreadableLoader::cancel`. -/
def cancel (l : WorkerThreadableLoader) : Run WorkerThreadableLoader :=
  if !l.m_bridge then .error (Fatal.ASSERT, l)
  else .ok { l with bridge := l.bridge.cancel }

/-- `WorkerThreadableLoader::loadResourceSynchronously`: a loader with
`LoadSynchronously`, `start`, and the destructor when the `unique_ptr` goes out
of scope. -/
def loadResourceSynchronously (generateReferrer : GenerateReferrer)
    (workerGlobalScope : WorkerGlobalScope) (request : ResourceRequest)
    (options : ThreadableLoaderOptions) (resourceLoaderOptions : ResourceLoaderOptions)
    (arrivals : List SinkCallback) (signaledIndex : Nat) : Run WorkerThreadableLoader :=
  let loader := create workerGlobalScope options resourceLoaderOptions
    BlockingBehavior.LoadSynchronously
  match loader.start generateReferrer request arrivals signaledIndex with
  | .ok loader => loader.destructor
  | .error e => .error e

end WorkerThreadableLoader

/-- A worker global scope with an empty loader proxy. -/
def sampleWorkerGlobalScope : WorkerGlobalScope :=
  ⟨ReferrerPolicy.ReferrerPolicyDefault, "http://example.test/worker.js", ⟨[], []⟩⟩

/-- A referrer generator that hands back the outgoing referrer under the given
policy. -/
def sampleGenerateReferrer : GenerateReferrer :=
  fun referrerPolicy _ referrer => ⟨referrer, referrerPolicy⟩

/-- The sink calls of a short complete load: a response, three bytes of data
and the finish. -/
def sampleLoad : List SinkCallback :=
  [SinkCallback.didReceiveResponse 1 sampleResponse none,
    SinkCallback.didReceiveData ['a', 'b', 'c'] 3,
    SinkCallback.didFinishLoading 1 7]

end WorkerThreadableLoader

/-!
# autofill::data_util: splitting and matching names

Shallow embedding of `components/autofill/core/browser/autofill_data_util.cc`.
A `base::string16` is a list of UTF-16 code units and a `std::vector` a list.
The `base` string helpers the file calls are not among the sources; they are
written out here after their documented behaviour.  The two character
classifiers (`uscript_getScript` of ICU and `base::IsUnicodeWhitespace`) are
parameters.
-/

namespace autofill

namespace data_util

/-! ## Strings -/

/-- A `base::char16`: one UTF-16 code unit. -/
abbrev char16 := Nat

/-- A `base::string16`. -/
abbrev string16 := List char16

/-- The UTF-16 code units of one code point. -/
def UTF16Units (c : Char) : string16 :=
  if c.toNat < 65536 then [c.toNat]
  else [55296 + (c.toNat - 65536) / 1024, 56320 + (c.toNat - 65536) % 1024]

/-- `base::UTF8ToUTF16` on a C string literal. -/
def UTF8ToUTF16 (s : String) : string16 := s.toList.flatMap UTF16Units

/-- `base::ASCIIToUTF16` on an ASCII literal. -/
def ASCIIToUTF16 (s : String) : string16 := s.toList.map Char.toNat

/-- `base::IsStringASCII`. -/
def IsStringASCII (str : string16) : Bool := str.all (fun c => c < 128)

/-- `base::TrimString(input, trim_chars, &output)`: `input` without the
characters of `trim_chars` at either end. -/
def TrimString (input trim_chars : string16) : string16 :=
  ((input.dropWhile (fun c => trim_chars.contains c)).reverse.dropWhile
    (fun c => trim_chars.contains c)).reverse

/-- `base::ToLowerASCII` on one character. -/
def ToLowerASCII (c : char16) : char16 := if 65 ≤ c ∧ c ≤ 90 then c + 32 else c

/-- `base::LowerCaseEqualsASCII(str, lowercase_ascii)`: whether `str`, with its
ASCII capitals made small, is `lowercase_ascii`. -/
def LowerCaseEqualsASCII (str : string16) (lowercase_ascii : String) : Bool :=
  str.map ToLowerASCII == ASCIIToUTF16 lowercase_ascii

/-- `base::SplitString(input, separators, base::KEEP_WHITESPACE,
base::SPLIT_WANT_NONEMPTY)`, with the piece read so far in `piece`: the pieces
of `input` between characters of `separators`, the empty ones left out. -/
def SplitStringFrom (separators : string16) : string16 → string16 → List string16
  | [], piece => if piece.isEmpty then [] else [piece]
  | c :: rest, piece =>
      if separators.contains c then
        if piece.isEmpty then SplitStringFrom separators rest []
        else piece :: SplitStringFrom separators rest []
      else SplitStringFrom separators rest (piece ++ [c])

/-- `base::SplitString(input, separators, base::KEEP_WHITESPACE,
base::SPLIT_WANT_NONEMPTY)`. -/
def SplitString (input separators : string16) : List string16 :=
  SplitStringFrom separators input []

/-- `base::JoinString(parts, separator)`. -/
def JoinString (parts : List string16) (separator : string16) : string16 :=
  separator.intercalate parts

/-- `base::StartsWith(str, search_for, base::CompareCase::SENSITIVE)`. -/
def StartsWith (str search_for : string16) : Bool := search_for.isPrefixOf str

/-- `base::string16::compare`: negative, zero or positive as `a` comes before,
equals or comes after `b`. -/
def compare : string16 → string16 → Int
  | [], [] => 0
  | [], _ :: _ => -1
  | _ :: _, [] => 1
  | x :: xs, y :: ys => if x < y then -1 else if y < x then 1 else compare xs ys

/-- `std::vector::back` on a vector of strings. -/
def back (v : List string16) : string16 := v.getLastD []

/-- `std::vector::pop_back`. -/
def pop_back (v : List string16) : List string16 := v.dropLast

/-! ## The tables -/

/-- The array `name_prefixes`. -/
def name_prefixes : List String :=
  ["1lt", "1st", "2lt", "2nd", "3rd", "admiral", "capt",
   "captain", "col", "cpt", "dr", "gen", "general", "lcdr",
   "lt", "ltc", "ltg", "ltjg", "maj", "major", "mg",
   "mr", "mrs", "ms", "pastor", "prof", "rep", "reverend",
   "rev", "sen", "st"]

/-- The array `name_suffixes`. -/
def name_suffixes : List String :=
  ["b.a", "ba", "d.d.s", "dds", "i", "ii",
   "iii", "iv", "ix", "jr", "m.a", "m.d",
   "ma", "md", "ms", "ph.d", "phd", "sr",
   "v", "vi", "vii", "viii", "x"]

/-- The array `family_name_prefixes`. -/
def family_name_prefixes : List String :=
  ["d'", "de", "del", "der", "di",
   "la", "le", "mc", "san", "st",
   "ter", "van", "von"]

/-- The array `common_cjk_multi_char_surnames`. -/
def common_cjk_multi_char_surnames : List String :=
  ["남궁", "사공", "서문", "선우", "제갈", "황보", "독고", "망절",
   "欧阳", "令狐", "皇甫", "上官", "司徒", "诸葛", "司马", "宇文", "呼延", "端木",
   "張簡", "歐陽", "諸葛", "申屠", "尉遲", "司馬", "軒轅", "夏侯"]

/-- The array `korean_multi_char_surnames`. -/
def korean_multi_char_surnames : List String :=
  ["강전", "남궁", "독고", "동방", "망절", "사공", "서문", "선우",
   "소봉", "어금", "장곡", "제갈", "황목", "황보"]

/-! ## Helpers of the anonymous namespace -/

/-- `ContainsString(set, set_size, element)`. -/
def ContainsString (set : List String) (element : string16) : Bool :=
  if !IsStringASCII element then false
  else
    let trimmed_element := TrimString element (ASCIIToUTF16 ".")
    set.any (fun entry => LowerCaseEqualsASCII trimmed_element entry)

/-- `StripPrefixes`: the tokens from the first one that is not a name prefix
on. -/
def StripPrefixes : List string16 → List string16
  | [] => []
  | token :: rest =>
      if !ContainsString name_prefixes token then token :: rest else StripPrefixes rest

/-- The loop of `StripSuffixes`, run for at most `fuel` rounds. -/
def StripSuffixesLoop : Nat → List string16 → List string16
  | 0, name_tokens => name_tokens
  | fuel + 1, name_tokens =>
      if name_tokens.isEmpty then name_tokens
      else if !ContainsString name_suffixes (back name_tokens) then name_tokens
      else StripSuffixesLoop fuel (pop_back name_tokens)

/-- `StripSuffixes`; every round pops a token, so one round per token is
enough. -/
def StripSuffixes (name_tokens : List string16) : List string16 :=
  StripSuffixesLoop name_tokens.length name_tokens

/-- `StartsWithAny(name, prefixes, prefix_count)`. -/
def StartsWithAny (name : string16) : List String → Nat
  | [] => 0
  | entry :: rest =>
      let buffer := UTF8ToUTF16 entry
      if StartsWith name buffer then buffer.length else StartsWithAny name rest

/-- The script codes of ICU that the file names; every other code is `other`. -/
inductive UScriptCode where
  | USCRIPT_HAN
  | USCRIPT_HANGUL
  | USCRIPT_KATAKANA
  | USCRIPT_HIRAGANA
  | USCRIPT_BOPOMOFO
  | other
  deriving DecidableEq, Repr

/-- The character classifiers the file takes from outside: `uscript_getScript`
of ICU and `base::IsUnicodeWhitespace`. -/
structure UnicodeData where
  uscript_getScript : char16 → UScriptCode
  IsUnicodeWhitespace : char16 → Bool

/-- The set `kCjkScripts`. -/
def kCjkScripts : List UScriptCode :=
  [UScriptCode.USCRIPT_HAN, UScriptCode.USCRIPT_HANGUL, UScriptCode.USCRIPT_KATAKANA,
   UScriptCode.USCRIPT_HIRAGANA, UScriptCode.USCRIPT_BOPOMOFO]

/-- `IsCJK`. -/
def IsCJK (u : UnicodeData) (c : char16) : Bool :=
  kCjkScripts.contains (u.uscript_getScript c)

/-- `IsCJKName`. -/
def IsCJKName (u : UnicodeData) (name : string16) : Bool :=
  name.all (fun c => !(!IsCJK u c && !u.IsUnicodeWhitespace c))

/-- `IsHangul`. -/
def IsHangul (u : UnicodeData) (c : char16) : Bool :=
  u.uscript_getScript c == UScriptCode.USCRIPT_HANGUL

/-- `IsHangulName`. -/
def IsHangulName (u : UnicodeData) (name : string16) : Bool :=
  name.all (fun c => !(!IsHangul u c && !u.IsUnicodeWhitespace c))

/-- `NameParts`. -/
structure NameParts where
  given : string16
  middle : string16
  family : string16
  deriving DecidableEq, Repr

/-- `SplitCJKName(name_tokens, parts)`: the parts as written on success, `none`
when it returns false. -/
def SplitCJKName (u : UnicodeData) (name_tokens : List string16) (parts : NameParts) :
    Option NameParts :=
  match name_tokens with
  | [name] =>
      let is_korean := IsHangulName u name
      let surname_length :=
        if is_korean && decide (name.length > 3) then
          max 1 (StartsWithAny name korean_multi_char_surnames)
        else
          max 1 (StartsWithAny name common_cjk_multi_char_surnames)
      some { parts with family := name.take surname_length, given := name.drop surname_length }
  | [family, given] => some { parts with family := family, given := given }
  | _ => none

/-- The loop of `SplitName` that moves family-name prefixes from the back of
`name_tokens` to `reverse_family_tokens`, run for at most `fuel` rounds. -/
def FamilyTokensLoop : Nat → List string16 → List string16 → List string16 × List string16
  | 0, name_tokens, reverse_family_tokens => (name_tokens, reverse_family_tokens)
  | fuel + 1, name_tokens, reverse_family_tokens =>
      if decide (name_tokens.length ≥ 1) &&
          ContainsString family_name_prefixes (back name_tokens) then
        FamilyTokensLoop fuel (pop_back name_tokens)
          (reverse_family_tokens ++ [back name_tokens])
      else (name_tokens, reverse_family_tokens)

/-! ## SplitName and ProfileMatchesFullName -/

/-- `SplitName`. -/
def SplitName (u : UnicodeData) (name : string16) : NameParts :=
  let name_tokens := SplitString name (ASCIIToUTF16 " ,")
  let name_tokens := StripPrefixes name_tokens
  let parts : NameParts := ⟨[], [], []⟩
  match (if IsCJKName u name then SplitCJKName u name_tokens parts else none) with
  | some parts => parts
  | none =>
      let name_tokens :=
        if name_tokens.length > 2 then StripSuffixes name_tokens else name_tokens
      if name_tokens.isEmpty then { parts with given := name }
      else if name_tokens.length = 1 then { parts with given := name_tokens.headD [] }
      else
        let reverse_family_tokens := [back name_tokens]
        let name_tokens := pop_back name_tokens
        let (name_tokens, reverse_family_tokens) :=
          FamilyTokensLoop name_tokens.length name_tokens reverse_family_tokens
        let family_tokens := reverse_family_tokens.reverse
        let parts := { parts with family := JoinString family_tokens (ASCIIToUTF16 " ") }
        let (parts, name_tokens) :=
          if name_tokens.length ≥ 2 then
            ({ parts with middle := back name_tokens }, pop_back name_tokens)
          else (parts, name_tokens)
        { parts with given := JoinString name_tokens (ASCIIToUTF16 " ") }

/-- The field types `ProfileMatchesFullName` asks for. -/
inductive ServerFieldType where
  | NAME_FIRST
  | NAME_MIDDLE
  | NAME_LAST
  | NAME_MIDDLE_INITIAL
  deriving DecidableEq, Repr

/-- An `AutofillProfile`, as far as `GetRawInfo` shows it. -/
structure AutofillProfile where
  GetRawInfo : ServerFieldType → string16

/-- `ProfileMatchesFullName`. -/
def ProfileMatchesFullName (full_name : string16) (profile : AutofillProfile) : Bool :=
  let kSpace := ASCIIToUTF16 " "
  let kPeriodSpace := ASCIIToUTF16 ". "
  let candidate := profile.GetRawInfo ServerFieldType.NAME_FIRST ++ kSpace ++
    profile.GetRawInfo ServerFieldType.NAME_LAST
  if compare full_name candidate == 0 then true
  else
    let candidate := profile.GetRawInfo ServerFieldType.NAME_FIRST ++ kSpace ++
      profile.GetRawInfo ServerFieldType.NAME_MIDDLE ++ kSpace ++
      profile.GetRawInfo ServerFieldType.NAME_LAST
    if compare full_name candidate == 0 then true
    else
      let candidate := profile.GetRawInfo ServerFieldType.NAME_FIRST ++ kSpace ++
        profile.GetRawInfo ServerFieldType.NAME_MIDDLE_INITIAL ++ kSpace ++
        profile.GetRawInfo ServerFieldType.NAME_LAST
      if compare full_name candidate == 0 then true
      else
        let candidate := profile.GetRawInfo ServerFieldType.NAME_FIRST ++ kSpace ++
          profile.GetRawInfo ServerFieldType.NAME_MIDDLE_INITIAL ++ kPeriodSpace ++
          profile.GetRawInfo ServerFieldType.NAME_LAST
        if compare full_name candidate == 0 then true
        else false

/-! ### Sample inputs -/

/-- Character data for the samples: Han for U+4E00 to U+9FFF, Hangul for U+AC00
to U+D7A3, every other character of another script; space, tab, line feed and
the ideographic space are whitespace. -/
def sampleUnicodeData : UnicodeData where
  uscript_getScript := fun c =>
    if 19968 ≤ c ∧ c ≤ 40959 then UScriptCode.USCRIPT_HAN
    else if 44032 ≤ c ∧ c ≤ 55203 then UScriptCode.USCRIPT_HANGUL
    else UScriptCode.other
  IsUnicodeWhitespace := fun c => c == 32 || c == 9 || c == 10 || c == 12288

/-- A profile for George Walker Bush. -/
def sampleProfile : AutofillProfile where
  GetRawInfo := fun field =>
    match field with
    | ServerFieldType.NAME_FIRST => ASCIIToUTF16 "George"
    | ServerFieldType.NAME_MIDDLE => ASCIIToUTF16 "Walker"
    | ServerFieldType.NAME_LAST => ASCIIToUTF16 "Bush"
    | ServerFieldType.NAME_MIDDLE_INITIAL => ASCIIToUTF16 "W"

/-! ### SplitName for names not treated as CJK, as described -/

/-- The tokens of a name as described: the non-empty pieces between spaces and
commas, without the leading name prefixes and, if more than two tokens are
left then, without the trailing name suffixes. -/
def describedTokens (name : string16) : List string16 :=
  let pieces := (name.splitOnP (fun c => c == 32 || c == 44)).filter (fun piece => !piece.isEmpty)
  let stripped := pieces.dropWhile (ContainsString name_prefixes)
  if stripped.length > 2 then stripped.rdropWhile (ContainsString name_suffixes) else stripped

/-- The parts of a name that is not treated as a CJK name, as described.  With
no token the whole name is the given name and with one token that token is.
Otherwise the family name is the last token preceded by the longest run of
family-name prefixes right before it; of the tokens before those the last is
the middle name if there are two or more, and the others are the given name.
Tokens are joined by single spaces. -/
def describedSplitName (name : string16) : NameParts :=
  match describedTokens name with
  | [] => ⟨name, [], []⟩
  | [token] => ⟨token, [], []⟩
  | tokens =>
      let familyPrefixes := tokens.dropLast.rtakeWhile (ContainsString family_name_prefixes)
      let remaining := tokens.dropLast.rdropWhile (ContainsString family_name_prefixes)
      { family := JoinString (familyPrefixes ++ [tokens.getLastD []]) [32]
        middle := if remaining.length ≥ 2 then remaining.getLastD [] else []
        given := JoinString (if remaining.length ≥ 2 then remaining.dropLast else remaining) [32] }

end data_util

end autofill

namespace WorkerThreadableLoader

/-! ## Cancel and timeout tasks on the main thread -/

/-- The two tasks of the bridge that reach the privileged loader after it has
been created. -/
inductive PrivilegedTask where
  | mainThreadCancel
  | mainThreadOverrideTimeout (timeoutMilliseconds : Nat)
  deriving DecidableEq, Repr

/-- The bridge on the main thread together with the loaders it has cancelled
and let go of, oldest first. -/
structure PrivilegedState where
  bridge : MainThreadBridgeBase
  released : List DocumentThreadableLoader
  deriving DecidableEq, Repr

namespace PrivilegedState

/-- Runs one task on the main thread. -/
def runTask (s : PrivilegedState) : PrivilegedTask → PrivilegedState
  | .mainThreadCancel =>
      match s.bridge.mainThreadCancel with
      | (bridge, some loader) => ⟨bridge, s.released ++ [loader]⟩
      | (bridge, none) => ⟨bridge, s.released⟩
  | .mainThreadOverrideTimeout timeoutMilliseconds =>
      { s with bridge := s.bridge.mainThreadOverrideTimeout timeoutMilliseconds }

/-- Runs tasks on the main thread, in order. -/
def runTasks (s : PrivilegedState) (tasks : List PrivilegedTask) : PrivilegedState :=
  tasks.foldl runTask s

/-- Number of `cancel()` calls the loaders have received, the one the bridge
holds and those it has let go of. -/
def cancelCalls (s : PrivilegedState) : Nat :=
  (match s.bridge.m_mainThreadLoader with
    | some loader => loader.cancels
    | none => 0) + (s.released.map (fun loader => loader.cancels)).sum

end PrivilegedState

/-! ## The body of `destroy`, statement by statement -/

/-- A statement of a worker-side method of the bridge: the call
`m_workerClientWrapper->clearClient()` or a call
`m_loaderProxy->postTaskToLoader(location, task)`. -/
inductive BridgeStatement where
  | clearClient
  | postTaskToLoader (location : WebTraceLocation) (task : LoaderTask)
  deriving DecidableEq, Repr

namespace MainThreadBridgeBase

/-- Runs one statement on the bridge. -/
def runStatement (b : MainThreadBridgeBase) : BridgeStatement → MainThreadBridgeBase
  | .clearClient => { b with m_workerClientWrapper := b.m_workerClientWrapper.clearClient }
  | .postTaskToLoader location task =>
      { b with m_loaderProxy := b.m_loaderProxy.postTaskToLoader location task }

/-- The states a body passes through: the bridge after each of its statements,
in program order. -/
def runStatements (b : MainThreadBridgeBase) :
    List BridgeStatement → List MainThreadBridgeBase
  | [] => []
  | statement :: rest =>
      b.runStatement statement :: (b.runStatement statement).runStatements rest

/-- The body of `destroy` (lines 155-167), its two calls in program order:
`m_workerClientWrapper->clearClient()`, then `postTaskToLoader` with the
`mainThreadDestroy` task. -/
def destroyStatements : List BridgeStatement :=
  [.clearClient, .postTaskToLoader (BLINK_FROM_HERE "destroy") .mainThreadDestroy]

end MainThreadBridgeBase

end WorkerThreadableLoader

namespace autofill

namespace data_util

/-! ### The surname length of a CJK name, as described -/

/-- The surname length as described: the length of the first entry of
`surnames` that `token` starts with, or 1 if it starts with none. -/
def describedSurnameLength (token : string16) (surnames : List String) : Nat :=
  match surnames.find? (fun entry => StartsWith token (UTF8ToUTF16 entry)) with
  | some entry => (UTF8ToUTF16 entry).length
  | none => 1

end data_util

end autofill

namespace autofill

namespace data_util

/-- The value of `name_tokens` in `SplitName` once prefixes and suffixes have
been stripped, where the function starts to assign the parts. -/
def strippedTokens (name : string16) : List string16 :=
  let name_tokens := SplitString name (ASCIIToUTF16 " ,")
  let name_tokens := StripPrefixes name_tokens
  if name_tokens.length > 2 then StripSuffixes name_tokens else name_tokens

end data_util

end autofill

/-!
# network_session_configurator: the QUIC parameters

Shallow embedding of the QUIC part of
`components/network_session_configurator/network_session_configurator.cc`.
A `std::string` is a `String`, the variation parameters are an association
list, and `params` is passed in and handed back.  Switch names are an
enumeration.  What the file calls in `base` and `net` without it being among
the sources (number parsing, QUIC versions and tags, host-port pairs, the
trimming split) is gathered in `NetLibrary` and taken as a parameter.  Doubles
and floats are kept as bit patterns.
-/

namespace network_session_configurator

/-- The switches of `switches.h` that the QUIC part of the file asks for. -/
inductive Switch where
  | kDisableQuic
  | kEnableQuic
  | kDisableQuicPortSelection
  | kEnableQuicPortSelection
  | kQuicConnectionOptions
  | kQuicHostWhitelist
  | kQuicMaxPacketLength
  | kQuicVersion
  | kOriginToForceQuicOn
  deriving DecidableEq, Repr

/-- A `base::CommandLine`, as far as `HasSwitch` and `GetSwitchValueASCII` show
it. -/
structure CommandLine where
  HasSwitch : Switch → Bool
  GetSwitchValueASCII : Switch → String

/-- `VariationParameters`: the map from parameter name to value. -/
abbrev VariationParameters := List (String × String)

/-- `kQuicFieldTrialEnabledGroupName`. -/
def kQuicFieldTrialEnabledGroupName : String := "Enabled"

/-- `kQuicFieldTrialHttpsEnabledGroupName`. -/
def kQuicFieldTrialHttpsEnabledGroupName : String := "HttpsEnabled"

/-- `base::StringPiece::starts_with`. -/
def starts_with (s x : String) : Bool := x.toList.isPrefixOf s.toList

/-- `base::ToLowerASCII` on one character. -/
def ToLowerASCII (c : Char) : Char :=
  if 65 ≤ c.toNat ∧ c.toNat ≤ 90 then Char.ofNat (c.toNat + 32) else c

/-- `base::LowerCaseEqualsASCII(str, lowercase_ascii)`. -/
def LowerCaseEqualsASCII (str lowercase_ascii : String) : Bool :=
  str.toList.map ToLowerASCII == lowercase_ascii.toList

/-- `GetVariationParam`: the value of `key` in `params`, or `""`. -/
def GetVariationParam (params : VariationParameters) (key : String) : String :=
  match params.lookup key with
  | none => ""
  | some value => value

/-- A `net::HostPortPair`. -/
structure HostPortPair where
  host : String
  port : Nat
  deriving DecidableEq, Repr

/-- `HostPortPair()`. -/
def HostPortPair.empty : HostPortPair := ⟨"", 0⟩

/-- `HostPortPair::IsEmpty`. -/
def HostPortPair.IsEmpty (p : HostPortPair) : Bool := p.host.isEmpty && p.port == 0

/-- A `net::QuicVersion`, as its number. -/
abbrev QuicVersion := Nat

/-- `net::QUIC_VERSION_UNSUPPORTED`. -/
def QUIC_VERSION_UNSUPPORTED : QuicVersion := 0

/-- What the file calls in `base` and `net`: `base::StringToInt`,
`base::StringToUint`, `base::StringToDouble` (`none` when they return false;
a double as its bit pattern), the conversion of a double to a float (bit
patterns), `net::QuicUtils::ParseQuicConnectionOptions`,
`net::QuicSupportedVersions`, `net::QuicVersionToString`,
`net::HostPortPair::FromString` and `base::SplitString(input, ",",
base::TRIM_WHITESPACE, base::SPLIT_WANT_ALL)`. -/
structure NetLibrary where
  StringToInt : String → Option Int
  StringToUint : String → Option Nat
  StringToDouble : String → Option Nat
  doubleToFloat : Nat → Nat
  ParseQuicConnectionOptions : String → List Nat
  QuicSupportedVersions : List QuicVersion
  QuicVersionToString : QuicVersion → String
  HostPortPairFromString : String → HostPortPair
  SplitStringOnComma : String → List String

/-- Whether a float, given by its bit pattern, compares unequal to 0: it is
neither of the two zeros. -/
def floatIsNonZero (bits : Nat) : Bool := bits % 2147483648 != 0

/-- `std::unordered_set::insert` and `std::set::insert`, on a set kept as a
list without repetition. -/
def setInsert {α : Type} [DecidableEq α] (set : List α) (x : α) : List α :=
  if x ∈ set then set else set ++ [x]

/-- The fields of `net::HttpNetworkSession::Params` that `ConfigureQuicParams`
writes. -/
structure Params where
  enable_quic : Bool
  disable_quic_on_timeout_with_open_streams : Bool
  enable_quic_alternative_service_with_different_host : Bool
  quic_always_require_handshake_confirmation : Bool
  quic_disable_connection_pooling : Bool
  quic_socket_receive_buffer_size : Int
  quic_delay_tcp_race : Bool
  quic_load_server_info_timeout_srtt_multiplier : Nat
  quic_enable_connection_racing : Bool
  quic_enable_non_blocking_io : Bool
  quic_disable_disk_cache : Bool
  quic_prefer_aes : Bool
  quic_force_hol_blocking : Bool
  quic_max_number_of_lossy_connections : Int
  quic_packet_loss_threshold : Nat
  enable_quic_port_selection : Bool
  quic_connection_options : List Nat
  quic_close_sessions_on_ip_change : Bool
  quic_idle_connection_timeout_seconds : Int
  quic_disable_preconnect_if_0rtt : Bool
  quic_host_whitelist : List String
  quic_migrate_sessions_on_network_change : Bool
  quic_migrate_sessions_early : Bool
  quic_allow_server_migration : Bool
  quic_max_packet_length : Nat
  quic_user_agent_id : String
  quic_supported_versions : List QuicVersion
  origins_to_force_quic_on : List HostPortPair
  deriving DecidableEq, Repr

/-- `ShouldEnableQuic`. -/
def ShouldEnableQuic (command_line : CommandLine) (quic_trial_group : String)
    (is_quic_allowed_by_policy : Bool) : Bool :=
  if command_line.HasSwitch Switch.kDisableQuic || !is_quic_allowed_by_policy then false
  else if command_line.HasSwitch Switch.kEnableQuic then true
  else
    starts_with quic_trial_group kQuicFieldTrialEnabledGroupName ||
      starts_with quic_trial_group kQuicFieldTrialHttpsEnabledGroupName

/-- `ShouldDisableQuicWhenConnectionTimesOutWithOpenStreams`. -/
def ShouldDisableQuicWhenConnectionTimesOutWithOpenStreams
    (quic_trial_params : VariationParameters) : Bool :=
  LowerCaseEqualsASCII
    (GetVariationParam quic_trial_params "disable_quic_on_timeout_with_open_streams") "true"

/-- `ShouldQuicDisableConnectionPooling`. -/
def ShouldQuicDisableConnectionPooling (quic_trial_params : VariationParameters) : Bool :=
  LowerCaseEqualsASCII (GetVariationParam quic_trial_params "disable_connection_pooling") "true"

/-- `ShouldQuicEnableAlternativeServicesForDifferentHost`. -/
def ShouldQuicEnableAlternativeServicesForDifferentHost (_command_line : CommandLine)
    (quic_trial_params : VariationParameters) : Bool :=
  !LowerCaseEqualsASCII
    (GetVariationParam quic_trial_params "enable_alternative_service_with_different_host")
    "false"

/-- `ShouldEnableQuicPortSelection`. -/
def ShouldEnableQuicPortSelection (command_line : CommandLine) : Bool :=
  if command_line.HasSwitch Switch.kDisableQuicPortSelection then false
  else if command_line.HasSwitch Switch.kEnableQuicPortSelection then true
  else false

/-- `GetQuicConnectionOptions`. -/
def GetQuicConnectionOptions (lib : NetLibrary) (command_line : CommandLine)
    (quic_trial_params : VariationParameters) : List Nat :=
  if command_line.HasSwitch Switch.kQuicConnectionOptions then
    lib.ParseQuicConnectionOptions
      (command_line.GetSwitchValueASCII Switch.kQuicConnectionOptions)
  else
    match quic_trial_params.lookup "connection_options" with
    | none => []
    | some value => lib.ParseQuicConnectionOptions value

/-- `ShouldQuicAlwaysRequireHandshakeConfirmation`. -/
def ShouldQuicAlwaysRequireHandshakeConfirmation (quic_trial_params : VariationParameters) :
    Bool :=
  LowerCaseEqualsASCII
    (GetVariationParam quic_trial_params "always_require_handshake_confirmation") "true"

/-- `GetQuicLoadServerInfoTimeoutSrttMultiplier`; `0.0f` has the bit pattern 0. -/
def GetQuicLoadServerInfoTimeoutSrttMultiplier (lib : NetLibrary)
    (quic_trial_params : VariationParameters) : Nat :=
  match lib.StringToDouble (GetVariationParam quic_trial_params "load_server_info_time_to_srtt")
  with
  | some value => lib.doubleToFloat value
  | none => 0

/-- `ShouldQuicEnableConnectionRacing`. -/
def ShouldQuicEnableConnectionRacing (quic_trial_params : VariationParameters) : Bool :=
  LowerCaseEqualsASCII (GetVariationParam quic_trial_params "enable_connection_racing") "true"

/-- `ShouldQuicEnableNonBlockingIO`. -/
def ShouldQuicEnableNonBlockingIO (quic_trial_params : VariationParameters) : Bool :=
  LowerCaseEqualsASCII (GetVariationParam quic_trial_params "enable_non_blocking_io") "true"

/-- `ShouldQuicDisableDiskCache`. -/
def ShouldQuicDisableDiskCache (quic_trial_params : VariationParameters) : Bool :=
  LowerCaseEqualsASCII (GetVariationParam quic_trial_params "disable_disk_cache") "true"

/-- `ShouldQuicPreferAes`. -/
def ShouldQuicPreferAes (quic_trial_params : VariationParameters) : Bool :=
  LowerCaseEqualsASCII (GetVariationParam quic_trial_params "prefer_aes") "true"

/-- `ShouldForceHolBlocking`. -/
def ShouldForceHolBlocking (quic_trial_params : VariationParameters) : Bool :=
  LowerCaseEqualsASCII (GetVariationParam quic_trial_params "force_hol_blocking") "true"

/-- `GetQuicMaxNumberOfLossyConnections`. -/
def GetQuicMaxNumberOfLossyConnections (lib : NetLibrary)
    (quic_trial_params : VariationParameters) : Int :=
  match lib.StringToInt (GetVariationParam quic_trial_params "max_number_of_lossy_connections")
  with
  | some value => value
  | none => 0

/-- `GetQuicPacketLossThreshold`. -/
def GetQuicPacketLossThreshold (lib : NetLibrary) (quic_trial_params : VariationParameters) :
    Nat :=
  match lib.StringToDouble (GetVariationParam quic_trial_params "packet_loss_threshold") with
  | some value => lib.doubleToFloat value
  | none => 0

/-- `GetQuicSocketReceiveBufferSize`. -/
def GetQuicSocketReceiveBufferSize (lib : NetLibrary)
    (quic_trial_params : VariationParameters) : Int :=
  match lib.StringToInt (GetVariationParam quic_trial_params "receive_buffer_size") with
  | some value => value
  | none => 0

/-- `ShouldQuicDelayTcpRace`. -/
def ShouldQuicDelayTcpRace (quic_trial_params : VariationParameters) : Bool :=
  !LowerCaseEqualsASCII (GetVariationParam quic_trial_params "disable_delay_tcp_race") "true"

/-- `ShouldQuicCloseSessionsOnIpChange`. -/
def ShouldQuicCloseSessionsOnIpChange (quic_trial_params : VariationParameters) : Bool :=
  LowerCaseEqualsASCII (GetVariationParam quic_trial_params "close_sessions_on_ip_change") "true"

/-- `GetQuicIdleConnectionTimeoutSeconds`. -/
def GetQuicIdleConnectionTimeoutSeconds (lib : NetLibrary)
    (quic_trial_params : VariationParameters) : Int :=
  match lib.StringToInt (GetVariationParam quic_trial_params "idle_connection_timeout_seconds")
  with
  | some value => value
  | none => 0

/-- `ShouldQuicDisablePreConnectIfZeroRtt`. -/
def ShouldQuicDisablePreConnectIfZeroRtt (quic_trial_params : VariationParameters) : Bool :=
  LowerCaseEqualsASCII (GetVariationParam quic_trial_params "disable_preconnect_if_0rtt") "true"

/-- `GetQuicHostWhitelist`. -/
def GetQuicHostWhitelist (lib : NetLibrary) (command_line : CommandLine)
    (quic_trial_params : VariationParameters) : List String :=
  let whitelist :=
    if command_line.HasSwitch Switch.kQuicHostWhitelist then
      command_line.GetSwitchValueASCII Switch.kQuicHostWhitelist
    else GetVariationParam quic_trial_params "quic_host_whitelist"
  (lib.SplitStringOnComma whitelist).foldl setInsert []

/-- `ShouldQuicMigrateSessionsOnNetworkChange`. -/
def ShouldQuicMigrateSessionsOnNetworkChange (quic_trial_params : VariationParameters) : Bool :=
  LowerCaseEqualsASCII
    (GetVariationParam quic_trial_params "migrate_sessions_on_network_change") "true"

/-- `ShouldQuicMigrateSessionsEarly`. -/
def ShouldQuicMigrateSessionsEarly (quic_trial_params : VariationParameters) : Bool :=
  LowerCaseEqualsASCII (GetVariationParam quic_trial_params "migrate_sessions_early") "true"

/-- `ShouldQuicAllowServerMigration`. -/
def ShouldQuicAllowServerMigration (quic_trial_params : VariationParameters) : Bool :=
  LowerCaseEqualsASCII (GetVariationParam quic_trial_params "allow_server_migration") "true"

/-- `GetQuicMaxPacketLength`. -/
def GetQuicMaxPacketLength (lib : NetLibrary) (command_line : CommandLine)
    (quic_trial_params : VariationParameters) : Nat :=
  if command_line.HasSwitch Switch.kQuicMaxPacketLength then
    match lib.StringToUint (command_line.GetSwitchValueASCII Switch.kQuicMaxPacketLength) with
    | none => 0
    | some value => value
  else
    match lib.StringToUint (GetVariationParam quic_trial_params "max_packet_length") with
    | some value => value
    | none => 0

/-- `ParseQuicVersion`: the first supported version whose name is
`quic_version`. -/
def ParseQuicVersion (lib : NetLibrary) (quic_version : String) : QuicVersion :=
  match lib.QuicSupportedVersions.find?
    (fun version => lib.QuicVersionToString version == quic_version) with
  | some version => version
  | none => QUIC_VERSION_UNSUPPORTED

/-- `GetQuicVersion`. -/
def GetQuicVersion (lib : NetLibrary) (command_line : CommandLine)
    (quic_trial_params : VariationParameters) : QuicVersion :=
  if command_line.HasSwitch Switch.kQuicVersion then
    ParseQuicVersion lib (command_line.GetSwitchValueASCII Switch.kQuicVersion)
  else ParseQuicVersion lib (GetVariationParam quic_trial_params "quic_version")

/-- The body of the loop over the origins to force QUIC on. -/
def insertOrigin (lib : NetLibrary) (origins : List HostPortPair) (host_port : String) :
    List HostPortPair :=
  let origins := if host_port == "*" then setInsert origins HostPortPair.empty else origins
  let quic_origin := lib.HostPortPairFromString host_port
  if !quic_origin.IsEmpty then setInsert origins quic_origin else origins

/-- The part of `ConfigureQuicParams` inside `if (params->enable_quic)`. -/
def ConfigureEnabledQuicParams (lib : NetLibrary) (command_line : CommandLine)
    (quic_trial_params : VariationParameters) (params : Params) : Params :=
  let params := { params with
    quic_always_require_handshake_confirmation :=
      ShouldQuicAlwaysRequireHandshakeConfirmation quic_trial_params
    quic_disable_connection_pooling := ShouldQuicDisableConnectionPooling quic_trial_params }
  let receive_buffer_size := GetQuicSocketReceiveBufferSize lib quic_trial_params
  let params :=
    if receive_buffer_size != 0 then
      { params with quic_socket_receive_buffer_size := receive_buffer_size }
    else params
  let params := { params with quic_delay_tcp_race := ShouldQuicDelayTcpRace quic_trial_params }
  let load_server_info_timeout_srtt_multiplier :=
    GetQuicLoadServerInfoTimeoutSrttMultiplier lib quic_trial_params
  let params :=
    if floatIsNonZero load_server_info_timeout_srtt_multiplier then
      { params with
        quic_load_server_info_timeout_srtt_multiplier :=
          load_server_info_timeout_srtt_multiplier }
    else params
  let params := { params with
    quic_enable_connection_racing := ShouldQuicEnableConnectionRacing quic_trial_params
    quic_enable_non_blocking_io := ShouldQuicEnableNonBlockingIO quic_trial_params
    quic_disable_disk_cache := ShouldQuicDisableDiskCache quic_trial_params
    quic_prefer_aes := ShouldQuicPreferAes quic_trial_params
    quic_force_hol_blocking := ShouldForceHolBlocking quic_trial_params }
  let max_number_of_lossy_connections :=
    GetQuicMaxNumberOfLossyConnections lib quic_trial_params
  let params :=
    if max_number_of_lossy_connections != 0 then
      { params with quic_max_number_of_lossy_connections := max_number_of_lossy_connections }
    else params
  let packet_loss_threshold := GetQuicPacketLossThreshold lib quic_trial_params
  let params :=
    if floatIsNonZero packet_loss_threshold then
      { params with quic_packet_loss_threshold := packet_loss_threshold }
    else params
  let params := { params with
    enable_quic_port_selection := ShouldEnableQuicPortSelection command_line
    quic_connection_options := GetQuicConnectionOptions lib command_line quic_trial_params
    quic_close_sessions_on_ip_change := ShouldQuicCloseSessionsOnIpChange quic_trial_params }
  let idle_connection_timeout_seconds :=
    GetQuicIdleConnectionTimeoutSeconds lib quic_trial_params
  let params :=
    if idle_connection_timeout_seconds != 0 then
      { params with quic_idle_connection_timeout_seconds := idle_connection_timeout_seconds }
    else params
  { params with
    quic_disable_preconnect_if_0rtt := ShouldQuicDisablePreConnectIfZeroRtt quic_trial_params
    quic_host_whitelist := GetQuicHostWhitelist lib command_line quic_trial_params
    quic_migrate_sessions_on_network_change :=
      ShouldQuicMigrateSessionsOnNetworkChange quic_trial_params
    quic_migrate_sessions_early := ShouldQuicMigrateSessionsEarly quic_trial_params
    quic_allow_server_migration := ShouldQuicAllowServerMigration quic_trial_params }

/-- `ConfigureQuicParams`. -/
def ConfigureQuicParams (lib : NetLibrary) (command_line : CommandLine)
    (quic_trial_group : String) (quic_trial_params : VariationParameters)
    (is_quic_allowed_by_policy : Bool) (quic_user_agent_id : String) (params : Params) :
    Params :=
  let params := { params with
    enable_quic := ShouldEnableQuic command_line quic_trial_group is_quic_allowed_by_policy
    disable_quic_on_timeout_with_open_streams :=
      ShouldDisableQuicWhenConnectionTimesOutWithOpenStreams quic_trial_params
    enable_quic_alternative_service_with_different_host :=
      ShouldQuicEnableAlternativeServicesForDifferentHost command_line quic_trial_params }
  let params :=
    if params.enable_quic then
      ConfigureEnabledQuicParams lib command_line quic_trial_params params
    else params
  let max_packet_length := GetQuicMaxPacketLength lib command_line quic_trial_params
  let params :=
    if max_packet_length != 0 then { params with quic_max_packet_length := max_packet_length }
    else params
  let params := { params with quic_user_agent_id := quic_user_agent_id }
  let version := GetQuicVersion lib command_line quic_trial_params
  let params :=
    if version != QUIC_VERSION_UNSUPPORTED then
      { params with quic_supported_versions := [version] }
    else params
  if command_line.HasSwitch Switch.kOriginToForceQuicOn then
    let origins := command_line.GetSwitchValueASCII Switch.kOriginToForceQuicOn
    { params with
      origins_to_force_quic_on :=
        (lib.SplitStringOnComma origins).foldl (insertOrigin lib)
          params.origins_to_force_quic_on }
  else params

end network_session_configurator

namespace WorkerThreadableLoader

/-! # Theorems -/

/-! ## Lemmas on the sync bridge -/

/-- A sink method calls one of the two forwarding methods. -/
theorem ForwardKind.eq_or (k : ForwardKind) :
    k = ForwardKind.forwardTaskToWorker ∨ k = ForwardKind.forwardTaskToWorkerOnLoaderDone := by
  cases k <;> simp

/-- Sink calls run one after the other, stopping at the first abort. -/
theorem MainThreadSyncBridge.sinkAll_append (b : MainThreadSyncBridge)
    (xs ys : List SinkCallback) :
    b.sinkAll (xs ++ ys) =
      match b.sinkAll xs with
      | .ok b1 => b1.sinkAll ys
      | .error e => .error e := by
  induction xs generalizing b with
  | nil => simp [MainThreadSyncBridge.sinkAll]
  | cons x xs ih =>
      simp only [List.cons_append, MainThreadSyncBridge.sinkAll]
      cases h : b.sink x with
      | ok b1 => simp [ih]
      | error e => simp

/-- A non-terminal sink call on a bridge that is not done appends its task. -/
theorem MainThreadSyncBridge.sink_nonterminal (b : MainThreadSyncBridge) (cb : SinkCallback)
    (hdone : b.m_done = false)
    (hcb : (MainThreadBridgeBase.sink cb).via = ForwardKind.forwardTaskToWorker) :
    b.sink cb = .ok { b with m_clientTasks := b.m_clientTasks ++ [cb.clientTask] } := by
  simp [MainThreadSyncBridge.sink, hcb, MainThreadSyncBridge.forwardTaskToWorker, hdone,
    SinkCallback.clientTask, ForwardCall.clientTask]

/-- Non-terminal sink calls on a bridge that is not done append their tasks in
call order and change nothing else. -/
theorem MainThreadSyncBridge.sinkAll_nonterminal (ns : List SinkCallback) :
    ∀ (b : MainThreadSyncBridge), b.m_done = false →
    (∀ c ∈ ns, (MainThreadBridgeBase.sink c).via = ForwardKind.forwardTaskToWorker) →
    b.sinkAll ns =
      .ok { b with m_clientTasks := b.m_clientTasks ++ ns.map SinkCallback.clientTask } := by
  induction ns with
  | nil => intro b _ _; simp [MainThreadSyncBridge.sinkAll]
  | cons c cs ih =>
      intro b hdone hns
      have hc := hns c (List.mem_cons_self _ _)
      have hcs : ∀ x ∈ cs, (MainThreadBridgeBase.sink x).via = ForwardKind.forwardTaskToWorker :=
        fun x hx => hns x (List.mem_cons_of_mem _ hx)
      simp only [MainThreadSyncBridge.sinkAll, MainThreadSyncBridge.sink_nonterminal b c hdone hc]
      rw [ih { b with m_clientTasks := b.m_clientTasks ++ [c.clientTask] } hdone hcs]
      simp

/-- The loop of `start` calls the bound wrapper methods in queue order and
records the tasks in that order. -/
theorem MainThreadSyncBridge.foldl_performClientTask (tasks : List ClientTask) :
    ∀ (b : MainThreadSyncBridge),
    tasks.foldl MainThreadSyncBridge.performClientTask b =
      { b with
        m_workerClientWrapper :=
          tasks.foldl (fun w task => performTask task.m_task w) b.m_workerClientWrapper
        performed := b.performed ++ tasks } := by
  induction tasks with
  | nil => intro b; simp
  | cons t ts ih =>
      intro b
      simp only [List.foldl_cons]
      rw [ih]
      simp [MainThreadSyncBridge.performClientTask]


/-- C1. When the loader-done event wins the wait, `start` performs exactly the
buffered client tasks, once each and in arrival order, before it returns: for
non-terminal sink callbacks `ns` followed by one terminal callback `t`, the
trace of performed tasks grows by the tasks already queued followed by the
tasks of `ns` and `t` in that order, the wrapper has had exactly those bound
methods called in that order, and the queue is left empty. -/
theorem MainThreadSyncBridge.start_loaderDone_performs_buffered_in_order
    (b : MainThreadSyncBridge) (request : ResourceRequest) (ns : List SinkCallback)
    (t : SinkCallback) (signaledIndex : Nat)
    (hdone : b.m_done = false)
    (hns : ∀ c ∈ ns, (MainThreadBridgeBase.sink c).via = ForwardKind.forwardTaskToWorker)
    (ht : (MainThreadBridgeBase.sink t).via = ForwardKind.forwardTaskToWorkerOnLoaderDone)
    (hidx : signaledIndex ≠ 0) :
    ∃ r, b.start request (ns ++ [t]) signaledIndex = .ok r ∧
      r.performed = b.performed ++ (b.m_clientTasks ++ (ns ++ [t]).map SinkCallback.clientTask) ∧
      r.m_workerClientWrapper =
        (b.m_clientTasks ++ (ns ++ [t]).map SinkCallback.clientTask).foldl
          (fun w task => performTask task.m_task w) b.m_workerClientWrapper ∧
      r.m_clientTasks = [] := by
  simp only [MainThreadSyncBridge.start, MainThreadSyncBridge.sinkAll_append]
  rw [MainThreadSyncBridge.sinkAll_nonterminal ns
    (MainThreadSyncBridge.mk (b.toMainThreadBridgeBase.startInMainThread request) b.m_done
      (some WaitableEvent.create) b.m_clientTasks b.performed) hdone hns]
  simp [MainThreadSyncBridge.sinkAll, MainThreadSyncBridge.sink, ht,
    MainThreadSyncBridge.forwardTaskToWorkerOnLoaderDone, hdone, hidx,
    MainThreadSyncBridge.foldl_performClientTask, SinkCallback.clientTask,
    ForwardCall.clientTask, MainThreadSyncBridge.performClientTask,
    MainThreadBridgeBase.startInMainThread]

/-- A terminal sink call on a bridge that is not done appends its task, sets
the done flag and signals the event. -/
theorem MainThreadSyncBridge.sink_terminal (b : MainThreadSyncBridge) (cb : SinkCallback)
    (event : WaitableEvent) (hdone : b.m_done = false)
    (hev : b.m_loaderDoneEvent = some event)
    (hcb : (MainThreadBridgeBase.sink cb).via = ForwardKind.forwardTaskToWorkerOnLoaderDone) :
    b.sink cb = .ok { b with m_clientTasks := b.m_clientTasks ++ [cb.clientTask]
                             m_done := true
                             m_loaderDoneEvent := some event.signal } := by
  simp [MainThreadSyncBridge.sink, hcb, MainThreadSyncBridge.forwardTaskToWorkerOnLoaderDone,
    hdone, hev, SinkCallback.clientTask, ForwardCall.clientTask]

/-- Every sink call on a bridge that is done aborts and leaves it as it was. -/
theorem MainThreadSyncBridge.sink_done (b : MainThreadSyncBridge) (cb : SinkCallback)
    (hdone : b.m_done = true) : b.sink cb = .error (Fatal.RELEASE_ASSERT, b) := by
  rcases ForwardKind.eq_or (MainThreadBridgeBase.sink cb).via with h | h <;>
    simp [MainThreadSyncBridge.sink, h, MainThreadSyncBridge.forwardTaskToWorker,
      MainThreadSyncBridge.forwardTaskToWorkerOnLoaderDone, hdone]

/-- The sink calls a sync bridge accepts: non-terminal ones, then at most one
more call of either kind. -/
theorem MainThreadSyncBridge.sinkAll_accepted (b : MainThreadSyncBridge)
    (ns tl : List SinkCallback) (event : WaitableEvent) (hdone : b.m_done = false)
    (hev : b.m_loaderDoneEvent = some event)
    (hns : ∀ c ∈ ns, (MainThreadBridgeBase.sink c).via = ForwardKind.forwardTaskToWorker)
    (htl : tl.length ≤ 1) :
    ∃ r, b.sinkAll (ns ++ tl) = .ok r ∧
      r.toMainThreadBridgeBase = b.toMainThreadBridgeBase ∧
      r.performed = b.performed ∧
      r.m_clientTasks = b.m_clientTasks ++ (ns ++ tl).map SinkCallback.clientTask := by
  rw [MainThreadSyncBridge.sinkAll_append, MainThreadSyncBridge.sinkAll_nonterminal ns b hdone hns]
  match tl, htl with
  | [], _ => simp [MainThreadSyncBridge.sinkAll]
  | [t], _ =>
      rcases ForwardKind.eq_or (MainThreadBridgeBase.sink t).via with h | h
      · simp [MainThreadSyncBridge.sinkAll, MainThreadSyncBridge.sink, h,
          MainThreadSyncBridge.forwardTaskToWorker, hdone, SinkCallback.clientTask,
          ForwardCall.clientTask]
      · simp [MainThreadSyncBridge.sinkAll, MainThreadSyncBridge.sink, h,
          MainThreadSyncBridge.forwardTaskToWorkerOnLoaderDone, hdone, hev,
          SinkCallback.clientTask, ForwardCall.clientTask]
  | _ :: _ :: _, h => simp at h

/-- C2. When the termination event wins the wait (`signaledIndex = 0`), `start`
performs none of the buffered client tasks, whatever the queue holds (the
tasks queued before, then those of the accepted sink calls `ns ++ tl`, all
still in the queue), and the tasks it has posted to the loader context are the
start task followed by one cancel task. -/
theorem MainThreadSyncBridge.start_termination_performs_nothing_and_posts_cancel
    (b : MainThreadSyncBridge) (request : ResourceRequest) (ns tl : List SinkCallback)
    (hdone : b.m_done = false)
    (hns : ∀ c ∈ ns, (MainThreadBridgeBase.sink c).via = ForwardKind.forwardTaskToWorker)
    (htl : tl.length ≤ 1) :
    ∃ r, b.start request (ns ++ tl) 0 = .ok r ∧
      r.performed = b.performed ∧
      r.m_clientTasks = b.m_clientTasks ++ (ns ++ tl).map SinkCallback.clientTask ∧
      r.m_loaderProxy.loaderTasks = b.m_loaderProxy.loaderTasks ++
        [⟨BLINK_FROM_HERE "startInMainThread", LoaderTask.mainThreadStart request⟩,
         ⟨BLINK_FROM_HERE "cancel", LoaderTask.mainThreadCancel⟩] ∧
      r.m_loaderProxy.workerTasks = b.m_loaderProxy.workerTasks := by
  obtain ⟨r, hr, hbase, hperf, htasks⟩ := MainThreadSyncBridge.sinkAll_accepted
    (MainThreadSyncBridge.mk (b.toMainThreadBridgeBase.startInMainThread request) b.m_done
      (some WaitableEvent.create) b.m_clientTasks b.performed)
    ns tl WaitableEvent.create hdone rfl hns htl
  refine ⟨r.cancel, ?_, ?_, ?_, ?_, ?_⟩
  · simp only [MainThreadSyncBridge.start]
    rw [hr]
    simp
  · simpa [MainThreadSyncBridge.cancel] using hperf
  · simpa [MainThreadSyncBridge.cancel] using htasks
  · simp [MainThreadSyncBridge.cancel, MainThreadBridgeBase.cancel, hbase,
      MainThreadBridgeBase.startInMainThread, WorkerLoaderProxy.postTaskToLoader]
  · simp [MainThreadSyncBridge.cancel, MainThreadBridgeBase.cancel, hbase,
      MainThreadBridgeBase.startInMainThread, WorkerLoaderProxy.postTaskToLoader]

/-- Witness for C1: a response and three of four bytes of data, then the
finish, with the loader-done event winning. -/
theorem MainThreadSyncBridge.start_loaderDone_performs_buffered_in_order_witness :
    ∃ r, sampleSyncBridge.start sampleRequest
        ([SinkCallback.didReceiveResponse 1 sampleResponse none,
          SinkCallback.didReceiveData ['a', 'b', 'c', 'd'] 3] ++
          [SinkCallback.didFinishLoading 1 7]) 1 = .ok r ∧
      r.performed = [] ++ ([] ++
        [⟨BLINK_FROM_HERE "didReceiveResponse", .didReceiveResponse 1 sampleResponse none⟩,
         ⟨BLINK_FROM_HERE "didReceiveData", .didReceiveData ['a', 'b', 'c']⟩,
         ⟨BLINK_FROM_HERE "didFinishLoading", .didFinishLoading 1 7⟩]) ∧
      r.m_workerClientWrapper =
        ([] ++
          [(⟨BLINK_FROM_HERE "didReceiveResponse", .didReceiveResponse 1 sampleResponse none⟩ :
              ClientTask),
           ⟨BLINK_FROM_HERE "didReceiveData", .didReceiveData ['a', 'b', 'c']⟩,
           ⟨BLINK_FROM_HERE "didFinishLoading", .didFinishLoading 1 7⟩]).foldl
          (fun w (task : ClientTask) => performTask task.m_task w)
          ThreadableLoaderClientWrapper.create ∧
      r.m_clientTasks = [] :=
  MainThreadSyncBridge.start_loaderDone_performs_buffered_in_order sampleSyncBridge
    sampleRequest
    [SinkCallback.didReceiveResponse 1 sampleResponse none,
      SinkCallback.didReceiveData ['a', 'b', 'c', 'd'] 3]
    (SinkCallback.didFinishLoading 1 7) 1 rfl (by decide) rfl (by decide)

/-- Witness for C2: the whole load has been buffered when the termination event
wins. -/
theorem MainThreadSyncBridge.start_termination_performs_nothing_and_posts_cancel_witness :
    ∃ r, sampleSyncBridge.start sampleRequest
        ([SinkCallback.didReceiveResponse 1 sampleResponse none] ++
          [SinkCallback.didFinishLoading 1 7]) 0 = .ok r ∧
      r.performed = [] ∧
      r.m_clientTasks = [] ++
        [⟨BLINK_FROM_HERE "didReceiveResponse", .didReceiveResponse 1 sampleResponse none⟩,
         ⟨BLINK_FROM_HERE "didFinishLoading", .didFinishLoading 1 7⟩] ∧
      r.m_loaderProxy.loaderTasks = sampleSyncBridge.m_loaderProxy.loaderTasks ++
        [⟨BLINK_FROM_HERE "startInMainThread", LoaderTask.mainThreadStart sampleRequest⟩,
         ⟨BLINK_FROM_HERE "cancel", LoaderTask.mainThreadCancel⟩] ∧
      r.m_loaderProxy.workerTasks = [] :=
  MainThreadSyncBridge.start_termination_performs_nothing_and_posts_cancel sampleSyncBridge
    sampleRequest [SinkCallback.didReceiveResponse 1 sampleResponse none]
    [SinkCallback.didFinishLoading 1 7] rfl (by decide) (by decide)

/-- Counterexample to C3.  On a freshly constructed sync bridge whose
termination event wins before any sink callback has arrived, `start` returns
with the client having received a callback: the cancellation `didFail` that
`cancel()` sends. -/
theorem MainThreadSyncBridge.start_termination_client_receives_didFail :
    (sampleSyncBridge.start sampleRequest [] 0).failure = none ∧
    (sampleSyncBridge.start sampleRequest [] 0).state.m_workerClientWrapper.delivered =
      [ClientCallback.didFail MainThreadBridgeBase.cancellationError] ∧
    (sampleSyncBridge.start sampleRequest [] 0).state.m_workerClientWrapper.delivered ≠ [] := by
  decide

/-- C3 (amended).  When the termination event wins before any sink callback has
arrived, `start` returns having performed no client task and having posted the
start task and then one cancel task to the loader context; a client wrapper
that was still delivering has passed exactly one callback on to the client,
the `didFail` of `cancel()` whose error is marked as a cancellation, and is
done with its client cleared. -/
theorem MainThreadSyncBridge.start_termination_before_any_callback
    (b : MainThreadSyncBridge) (request : ResourceRequest)
    (hactive : b.m_workerClientWrapper.delivers = true) :
    ∃ r, b.start request [] 0 = .ok r ∧
      r.performed = b.performed ∧
      r.m_workerClientWrapper.delivered =
        b.m_workerClientWrapper.delivered ++
          [ClientCallback.didFail MainThreadBridgeBase.cancellationError] ∧
      MainThreadBridgeBase.cancellationError.isCancellation = true ∧
      r.m_workerClientWrapper.done = true ∧
      r.m_workerClientWrapper.m_client = false ∧
      r.m_loaderProxy.loaderTasks = b.m_loaderProxy.loaderTasks ++
        [⟨BLINK_FROM_HERE "startInMainThread", LoaderTask.mainThreadStart request⟩,
         ⟨BLINK_FROM_HERE "cancel", LoaderTask.mainThreadCancel⟩] := by
  have hd : b.m_workerClientWrapper.m_done = false := by
    simp [ThreadableLoaderClientWrapper.delivers] at hactive
    exact hactive.1
  refine ⟨_, rfl, ?_, ?_, ?_, ?_, ?_, ?_⟩
  · simp [MainThreadSyncBridge.cancel]
  · simp [MainThreadSyncBridge.cancel, MainThreadBridgeBase.cancel,
      MainThreadBridgeBase.startInMainThread, ThreadableLoaderClientWrapper.done, hd,
      ThreadableLoaderClientWrapper.didFail, ThreadableLoaderClientWrapper.call,
      ClientCallback.isTerminal, ThreadableLoaderClientWrapper.forwardTerminal,
      ThreadableLoaderClientWrapper.forward, hactive, ThreadableLoaderClientWrapper.clearClient]
  · rfl
  · simp [MainThreadSyncBridge.cancel, MainThreadBridgeBase.cancel,
      ThreadableLoaderClientWrapper.done, ThreadableLoaderClientWrapper.clearClient]
  · simp [MainThreadSyncBridge.cancel, MainThreadBridgeBase.cancel,
      ThreadableLoaderClientWrapper.clearClient]
  · simp [MainThreadSyncBridge.cancel, MainThreadBridgeBase.cancel,
      MainThreadBridgeBase.startInMainThread, WorkerLoaderProxy.postTaskToLoader]

/-- Witness for C3 (amended), on the freshly constructed sample bridge. -/
theorem MainThreadSyncBridge.start_termination_before_any_callback_witness :
    ∃ r, sampleSyncBridge.start sampleRequest [] 0 = .ok r ∧
      r.performed = [] ∧
      r.m_workerClientWrapper.delivered =
        [] ++ [ClientCallback.didFail MainThreadBridgeBase.cancellationError] ∧
      MainThreadBridgeBase.cancellationError.isCancellation = true ∧
      r.m_workerClientWrapper.done = true ∧
      r.m_workerClientWrapper.m_client = false ∧
      r.m_loaderProxy.loaderTasks = sampleSyncBridge.m_loaderProxy.loaderTasks ++
        [⟨BLINK_FROM_HERE "startInMainThread", LoaderTask.mainThreadStart sampleRequest⟩,
         ⟨BLINK_FROM_HERE "cancel", LoaderTask.mainThreadCancel⟩] :=
  MainThreadSyncBridge.start_termination_before_any_callback sampleSyncBridge sampleRequest
    rfl

/-- C4.  On a sync bridge both forwarding methods hit their `RELEASE_ASSERT`
exactly when the bridge is already done, and then abort with the bridge, its
queue included, unmodified; on a bridge that is not done `forwardTaskToWorker`
returns with the task appended at the tail of the queue and nothing else
changed, and `forwardTaskToWorkerOnLoaderDone` leaves the queue with the task
appended at its tail and, when the loader-done event exists, does not abort. -/
theorem MainThreadSyncBridge.forward_fatal_iff_done (b : MainThreadSyncBridge)
    (loc : WebTraceLocation) (task : ExecutionContextTask) :
    ((b.forwardTaskToWorker loc task).failure = some Fatal.RELEASE_ASSERT ↔ b.m_done = true) ∧
    ((b.forwardTaskToWorker loc task).failure.isSome = true ↔ b.m_done = true) ∧
    ((b.forwardTaskToWorkerOnLoaderDone loc task).failure = some Fatal.RELEASE_ASSERT ↔
      b.m_done = true) ∧
    (b.m_loaderDoneEvent.isSome = true →
      ((b.forwardTaskToWorkerOnLoaderDone loc task).failure.isSome = true ↔ b.m_done = true)) ∧
    (b.m_done = true →
      b.forwardTaskToWorker loc task = .error (Fatal.RELEASE_ASSERT, b) ∧
      b.forwardTaskToWorkerOnLoaderDone loc task = .error (Fatal.RELEASE_ASSERT, b)) ∧
    (b.m_done = false →
      b.forwardTaskToWorker loc task =
        .ok { b with m_clientTasks := b.m_clientTasks ++ [ClientTask.mk loc task] } ∧
      (b.forwardTaskToWorkerOnLoaderDone loc task).state.m_clientTasks =
        b.m_clientTasks ++ [ClientTask.mk loc task]) := by
  cases hd : b.m_done <;> cases he : b.m_loaderDoneEvent <;>
    simp [MainThreadSyncBridge.forwardTaskToWorker,
      MainThreadSyncBridge.forwardTaskToWorkerOnLoaderDone, hd, he, Run.failure, Run.state]

/-- State of the done flag and of the loader-done event after any sequence of
sink calls, from any bridge whose event exists. -/
theorem MainThreadSyncBridge.sinkAll_done_and_signals (cs : List SinkCallback) :
    ∀ (b : MainThreadSyncBridge) (event : WaitableEvent),
    b.m_loaderDoneEvent = some event →
    (b.sinkAll cs).state.m_done = (b.m_done || cs.any SinkCallback.onLoaderDone) ∧
    (b.sinkAll cs).state.m_loaderDoneEvent =
      some ⟨event.signals + (if !b.m_done && cs.any SinkCallback.onLoaderDone then 1 else 0)⟩ := by
  induction cs with
  | nil => intro b event hev; simp [MainThreadSyncBridge.sinkAll, Run.state, hev]
  | cons c cs ih =>
      intro b event hev
      cases hd : b.m_done with
      | true =>
          simp [MainThreadSyncBridge.sinkAll, MainThreadSyncBridge.sink_done b c hd, Run.state,
            hd, hev]
      | false =>
          rcases ForwardKind.eq_or (MainThreadBridgeBase.sink c).via with h | h
          · have hc : c.onLoaderDone = false := by simp [SinkCallback.onLoaderDone, h]
            have := ih { b with m_clientTasks := b.m_clientTasks ++ [c.clientTask] } event hev
            simp only [MainThreadSyncBridge.sinkAll,
              MainThreadSyncBridge.sink_nonterminal b c hd h]
            simpa [hd, hc] using this
          · have hc : c.onLoaderDone = true := by simp [SinkCallback.onLoaderDone, h]
            have := ih { b with m_clientTasks := b.m_clientTasks ++ [c.clientTask]
                                m_done := true
                                m_loaderDoneEvent := some event.signal } event.signal rfl
            simp only [MainThreadSyncBridge.sinkAll,
              MainThreadSyncBridge.sink_terminal b c event hd hev h]
            simpa [hd, hc, WaitableEvent.signal] using this

/-- C5.  The constructor leaves the done flag false.  Over any sequence `cs` of
sink calls on a sync bridge that is not done and whose loader-done event has
just been created, the flag is true afterwards exactly when `cs` contains a
terminal callback (so it turns true at the first one), it stays true whatever
calls `more` follow, and the event has been signalled once if the flag is true
and not at all otherwise. -/
theorem MainThreadSyncBridge.done_once_and_signalled_once (b : MainThreadSyncBridge)
    (cs more : List SinkCallback) (hdone : b.m_done = false)
    (hev : b.m_loaderDoneEvent = some WaitableEvent.create) :
    (∀ loaderProxy workerClientWrapper options resourceLoaderOptions,
      (MainThreadSyncBridge.create loaderProxy workerClientWrapper options
        resourceLoaderOptions).m_done = false) ∧
    (b.sinkAll cs).state.m_done = cs.any SinkCallback.onLoaderDone ∧
    ((b.sinkAll cs).state.m_done = true → (b.sinkAll (cs ++ more)).state.m_done = true) ∧
    (b.sinkAll cs).state.m_loaderDoneEvent =
      some ⟨if (b.sinkAll cs).state.m_done then 1 else 0⟩ := by
  have h1 := MainThreadSyncBridge.sinkAll_done_and_signals cs b _ hev
  have h2 := MainThreadSyncBridge.sinkAll_done_and_signals (cs ++ more) b _ hev
  simp only [hdone, Bool.false_or, Bool.not_false, Bool.true_and] at h1 h2
  refine ⟨fun _ _ _ _ => rfl, h1.1, ?_, ?_⟩
  · intro h
    rw [h1.1] at h
    rw [h2.1]
    simp [h]
  · rw [h1.2, h1.1]
    simp [WaitableEvent.create]

/-- Witness for C5: a response, the finish, then a stray data call, on the
sample bridge waiting in `start`. -/
theorem MainThreadSyncBridge.done_once_and_signalled_once_witness :
    (∀ loaderProxy workerClientWrapper options resourceLoaderOptions,
      (MainThreadSyncBridge.create loaderProxy workerClientWrapper options
        resourceLoaderOptions).m_done = false) ∧
    (sampleWaitingSyncBridge.sinkAll
        [SinkCallback.didReceiveResponse 1 sampleResponse none,
          SinkCallback.didFinishLoading 1 7]).state.m_done =
      [SinkCallback.didReceiveResponse 1 sampleResponse none,
        SinkCallback.didFinishLoading 1 7].any SinkCallback.onLoaderDone ∧
    ((sampleWaitingSyncBridge.sinkAll
        [SinkCallback.didReceiveResponse 1 sampleResponse none,
          SinkCallback.didFinishLoading 1 7]).state.m_done = true →
      (sampleWaitingSyncBridge.sinkAll
        ([SinkCallback.didReceiveResponse 1 sampleResponse none,
          SinkCallback.didFinishLoading 1 7] ++
          [SinkCallback.didReceiveData ['a'] 1])).state.m_done = true) ∧
    (sampleWaitingSyncBridge.sinkAll
        [SinkCallback.didReceiveResponse 1 sampleResponse none,
          SinkCallback.didFinishLoading 1 7]).state.m_loaderDoneEvent =
      some ⟨if (sampleWaitingSyncBridge.sinkAll
        [SinkCallback.didReceiveResponse 1 sampleResponse none,
          SinkCallback.didFinishLoading 1 7]).state.m_done then 1 else 0⟩ :=
  MainThreadSyncBridge.done_once_and_signalled_once sampleWaitingSyncBridge
    [SinkCallback.didReceiveResponse 1 sampleResponse none, SinkCallback.didFinishLoading 1 7]
    [SinkCallback.didReceiveData ['a'] 1] rfl rfl

/-! ## The async bridge -/

/-- A sink call on an async bridge appends its task to the worker queue. -/
theorem MainThreadAsyncBridge.sink_eq (b : MainThreadAsyncBridge) (cb : SinkCallback) :
    b.sink cb =
      ⟨{ b.toMainThreadBridgeBase with
          m_loaderProxy :=
            { b.m_loaderProxy with
              workerTasks := b.m_loaderProxy.workerTasks ++ [cb.clientTask] } }⟩ := by
  rcases ForwardKind.eq_or (MainThreadBridgeBase.sink cb).via with h | h <;>
    simp [MainThreadAsyncBridge.sink, h, MainThreadAsyncBridge.forwardTaskToWorker,
      MainThreadAsyncBridge.forwardTaskToWorkerOnLoaderDone,
      WorkerLoaderProxy.postTaskToWorkerGlobalScope, SinkCallback.clientTask,
      ForwardCall.clientTask]

/-- Sink calls on an async bridge append their tasks to the worker queue in
call order. -/
theorem MainThreadAsyncBridge.sinkAll_eq (cs : List SinkCallback) :
    ∀ (b : MainThreadAsyncBridge),
    b.sinkAll cs =
      ⟨{ b.toMainThreadBridgeBase with
          m_loaderProxy :=
            { b.m_loaderProxy with
              workerTasks := b.m_loaderProxy.workerTasks ++ cs.map SinkCallback.clientTask } }⟩ := by
  induction cs with
  | nil => intro b; simp [MainThreadAsyncBridge.sinkAll]
  | cons c cs ih =>
      intro b
      have := ih (b.sink c)
      simp only [MainThreadAsyncBridge.sinkAll, List.foldl_cons] at this ⊢
      rw [this, MainThreadAsyncBridge.sink_eq]
      simp

/-- C6.  On an async bridge every sink call, terminal or not, posts exactly one
task to the worker context's queue and changes nothing else, so any sequence
of sink calls appends its client tasks to that queue one per call and in call
order, and leaves the loader queue, the wrapper and the loader untouched; for
`didReceiveResponse`, `didReceiveData("abc")`, `didReceiveData("def")`,
`didFinishLoading` the queue gains exactly those four tasks in that order. -/
theorem MainThreadAsyncBridge.sink_posts_one_task_each_in_order (b : MainThreadAsyncBridge)
    (cs : List SinkCallback) (cb : SinkCallback) (identifier finishTime : Nat)
    (response : ResourceResponse) (handle : Option WebDataConsumerHandle) :
    (b.sink cb).m_loaderProxy.workerTasks = b.m_loaderProxy.workerTasks ++ [cb.clientTask] ∧
    (b.sinkAll cs).m_loaderProxy.workerTasks =
      b.m_loaderProxy.workerTasks ++ cs.map SinkCallback.clientTask ∧
    (b.sinkAll cs).m_loaderProxy.loaderTasks = b.m_loaderProxy.loaderTasks ∧
    (b.sinkAll cs).m_workerClientWrapper = b.m_workerClientWrapper ∧
    (b.sinkAll cs).m_mainThreadLoader = b.m_mainThreadLoader ∧
    (b.sinkAll
        [SinkCallback.didReceiveResponse identifier response handle,
          SinkCallback.didReceiveData ['a', 'b', 'c'] 3,
          SinkCallback.didReceiveData ['d', 'e', 'f'] 3,
          SinkCallback.didFinishLoading identifier finishTime]).m_loaderProxy.workerTasks =
      b.m_loaderProxy.workerTasks ++
        [⟨BLINK_FROM_HERE "didReceiveResponse",
            ClientCallback.didReceiveResponse identifier response handle⟩,
          ⟨BLINK_FROM_HERE "didReceiveData", ClientCallback.didReceiveData ['a', 'b', 'c']⟩,
          ⟨BLINK_FROM_HERE "didReceiveData", ClientCallback.didReceiveData ['d', 'e', 'f']⟩,
          ⟨BLINK_FROM_HERE "didFinishLoading",
            ClientCallback.didFinishLoading identifier finishTime⟩] := by
  refine ⟨?_, ?_, ?_, ?_, ?_, ?_⟩
  · rw [MainThreadAsyncBridge.sink_eq]
  · rw [MainThreadAsyncBridge.sinkAll_eq]
  · rw [MainThreadAsyncBridge.sinkAll_eq]
  · rw [MainThreadAsyncBridge.sinkAll_eq]
  · rw [MainThreadAsyncBridge.sinkAll_eq]
  · rw [MainThreadAsyncBridge.sinkAll_eq]
    rfl

/-! ## The client wrapper under worker-thread steps -/

/-- Terminal callbacks of a concatenated trace. -/
theorem terminalCount_append (xs ys : List ClientCallback) :
    terminalCount (xs ++ ys) = terminalCount xs + terminalCount ys := by
  simp [terminalCount, List.filter_append]

/-- Terminal callbacks of a one-call trace. -/
theorem terminalCount_singleton (c : ClientCallback) :
    terminalCount [c] = if c.isTerminal then 1 else 0 := by
  cases h : c.isTerminal <;> simp [terminalCount, h]

/-- What one wrapper call does to the wrapper. -/
theorem ThreadableLoaderClientWrapper.call_effect (w : ThreadableLoaderClientWrapper)
    (c : ClientCallback) :
    (w.call c).delivered = w.delivered ++ (if w.delivers then [c] else []) ∧
    (w.call c).received = w.received ++ [c] ∧
    (w.call c).m_done = (w.m_done || c.isTerminal) ∧
    (w.call c).m_client = w.m_client := by
  cases hd : w.delivers <;> cases ht : c.isTerminal <;>
    simp [ThreadableLoaderClientWrapper.call, ThreadableLoaderClientWrapper.forwardTerminal,
      ThreadableLoaderClientWrapper.forward, hd, ht]

/-- A wrapper call keeps the client's terminal callbacks at one at most, with
none of them before the wrapper is done. -/
theorem ThreadableLoaderClientWrapper.call_terminal_once (w : ThreadableLoaderClientWrapper)
    (c : ClientCallback)
    (h1 : terminalCount w.delivered ≤ 1)
    (h2 : w.m_done = false → terminalCount w.delivered = 0) :
    terminalCount (w.call c).delivered ≤ 1 ∧
    ((w.call c).m_done = false → terminalCount (w.call c).delivered = 0) := by
  obtain ⟨hdel, -, hdone, -⟩ := w.call_effect c
  rw [hdel, hdone, terminalCount_append]
  generalize terminalCount w.delivered = n at h1 h2 ⊢
  cases hd : w.m_done with
  | true =>
      have hw : w.delivers = false := by simp [ThreadableLoaderClientWrapper.delivers, hd]
      rw [hw]
      simpa [terminalCount] using h1
  | false =>
      have h0 := h2 hd
      subst h0
      cases hw : w.delivers <;> cases ht : c.isTerminal <;>
        simp [terminalCount_singleton, ht, terminalCount]

/-- What `cancel` does to the client wrapper. -/
theorem MainThreadBridgeBase.cancel_wrapper (b : MainThreadBridgeBase) :
    b.cancel.m_workerClientWrapper =
      (if b.m_workerClientWrapper.m_done then b.m_workerClientWrapper
        else b.m_workerClientWrapper.call
          (ClientCallback.didFail MainThreadBridgeBase.cancellationError)).clearClient := by
  cases h : b.m_workerClientWrapper.m_done <;>
    simp [MainThreadBridgeBase.cancel, ThreadableLoaderClientWrapper.done, h,
      ThreadableLoaderClientWrapper.didFail]

/-- A worker-thread step keeps the client's terminal callbacks at one at most,
with none of them before the wrapper is done. -/
theorem MainThreadBridgeBase.workerStep_terminal_once (b : MainThreadBridgeBase)
    (step : WorkerStep)
    (h1 : terminalCount b.m_workerClientWrapper.delivered ≤ 1)
    (h2 : b.m_workerClientWrapper.m_done = false →
      terminalCount b.m_workerClientWrapper.delivered = 0) :
    terminalCount (b.workerStep step).m_workerClientWrapper.delivered ≤ 1 ∧
    ((b.workerStep step).m_workerClientWrapper.m_done = false →
      terminalCount (b.workerStep step).m_workerClientWrapper.delivered = 0) := by
  cases step with
  | performTask task =>
      simpa [MainThreadBridgeBase.workerStep, performTask] using
        b.m_workerClientWrapper.call_terminal_once task h1 h2
  | cancel =>
      simp only [MainThreadBridgeBase.workerStep, MainThreadBridgeBase.cancel_wrapper]
      cases hd : b.m_workerClientWrapper.m_done with
      | true => simpa [ThreadableLoaderClientWrapper.clearClient] using h1
      | false =>
          have := b.m_workerClientWrapper.call_terminal_once
            (ClientCallback.didFail MainThreadBridgeBase.cancellationError) h1 h2
          simpa [ThreadableLoaderClientWrapper.clearClient] using this.1

/-- Worker-thread steps keep the client's terminal callbacks at one at most. -/
theorem MainThreadBridgeBase.workerRun_terminal_once (steps : List WorkerStep) :
    ∀ (b : MainThreadBridgeBase),
    terminalCount b.m_workerClientWrapper.delivered ≤ 1 →
    (b.m_workerClientWrapper.m_done = false →
      terminalCount b.m_workerClientWrapper.delivered = 0) →
    terminalCount (b.workerRun steps).m_workerClientWrapper.delivered ≤ 1 := by
  induction steps with
  | nil => intro b h1 _; simpa [MainThreadBridgeBase.workerRun] using h1
  | cons s ss ih =>
      intro b h1 h2
      obtain ⟨k1, k2⟩ := b.workerStep_terminal_once s h1 h2
      simpa [MainThreadBridgeBase.workerRun] using ih (b.workerStep s) k1 k2

/-- Once the wrapper is done, a worker-thread step delivers nothing and leaves
it done. -/
theorem MainThreadBridgeBase.workerStep_done (b : MainThreadBridgeBase) (step : WorkerStep)
    (hd : b.m_workerClientWrapper.m_done = true) :
    (b.workerStep step).m_workerClientWrapper.m_done = true ∧
    (b.workerStep step).m_workerClientWrapper.delivered = b.m_workerClientWrapper.delivered := by
  cases step with
  | performTask task =>
      obtain ⟨hdel, -, hdone, -⟩ := b.m_workerClientWrapper.call_effect task
      simp [MainThreadBridgeBase.workerStep, performTask, hdel, hdone, hd,
        ThreadableLoaderClientWrapper.delivers]
  | cancel =>
      simp [MainThreadBridgeBase.workerStep, MainThreadBridgeBase.cancel_wrapper, hd,
        ThreadableLoaderClientWrapper.clearClient]

/-- Once the wrapper is done, worker-thread steps deliver nothing. -/
theorem MainThreadBridgeBase.workerRun_done (steps : List WorkerStep) :
    ∀ (b : MainThreadBridgeBase), b.m_workerClientWrapper.m_done = true →
    (b.workerRun steps).m_workerClientWrapper.delivered = b.m_workerClientWrapper.delivered := by
  induction steps with
  | nil => intro b _; simp [MainThreadBridgeBase.workerRun]
  | cons s ss ih =>
      intro b hd
      obtain ⟨k1, k2⟩ := b.workerStep_done s hd
      have := ih (b.workerStep s) k1
      simp only [MainThreadBridgeBase.workerRun, List.foldl_cons] at this ⊢
      rw [this, k2]

/-- Performing client tasks one after the other, as worker-thread steps. -/
theorem MainThreadBridgeBase.workerRun_performTask (tasks : List ExecutionContextTask) :
    ∀ (b : MainThreadBridgeBase),
    (b.workerRun (tasks.map WorkerStep.performTask)).m_workerClientWrapper =
      tasks.foldl (fun w task => performTask task w) b.m_workerClientWrapper := by
  induction tasks with
  | nil => intro b; rfl
  | cons t ts ih =>
      intro b
      have := ih (b.workerStep (WorkerStep.performTask t))
      simpa [MainThreadBridgeBase.workerRun, MainThreadBridgeBase.workerStep] using this

/-- After `cancel` the wrapper is done and its client is cleared. -/
theorem MainThreadBridgeBase.cancel_done (b : MainThreadBridgeBase) :
    b.cancel.m_workerClientWrapper.m_done = true ∧
    b.cancel.m_workerClientWrapper.m_client = false := by
  simp [MainThreadBridgeBase.cancel_wrapper, ThreadableLoaderClientWrapper.clearClient]

/-- C7.  From a wrapper whose client has seen no terminal callback unless the
wrapper is done, any sequence of worker-thread steps (client tasks performed
and `cancel()` calls, in any order and number) leaves the client with at most
one terminal callback in total; a second `cancel()` delivers nothing, and so
does a `cancel()` that follows a terminal client task. -/
theorem MainThreadBridgeBase.cancel_never_delivers_second_terminal (b : MainThreadBridgeBase)
    (steps : List WorkerStep) (task : ExecutionContextTask)
    (h1 : terminalCount b.m_workerClientWrapper.delivered ≤ 1)
    (h2 : b.m_workerClientWrapper.m_done = false →
      terminalCount b.m_workerClientWrapper.delivered = 0) :
    terminalCount (b.workerRun steps).m_workerClientWrapper.delivered ≤ 1 ∧
    b.cancel.cancel.m_workerClientWrapper.delivered = b.cancel.m_workerClientWrapper.delivered ∧
    (task.isTerminal = true →
      ((b.workerStep (WorkerStep.performTask task)).cancel).m_workerClientWrapper.delivered =
        (b.workerStep (WorkerStep.performTask task)).m_workerClientWrapper.delivered) := by
  refine ⟨MainThreadBridgeBase.workerRun_terminal_once steps b h1 h2, ?_, ?_⟩
  · exact (b.cancel.workerStep_done WorkerStep.cancel b.cancel_done.1).2
  · intro ht
    have hd : (b.workerStep (WorkerStep.performTask task)).m_workerClientWrapper.m_done = true := by
      obtain ⟨-, -, hdone, -⟩ := b.m_workerClientWrapper.call_effect task
      simp [MainThreadBridgeBase.workerStep, performTask, hdone, ht]
    exact ((b.workerStep (WorkerStep.performTask task)).workerStep_done WorkerStep.cancel hd).2

/-- Witness for C7: the finish is delivered, then `cancel()` is called twice. -/
theorem MainThreadBridgeBase.cancel_never_delivers_second_terminal_witness :
    terminalCount (sampleBridgeBase.workerRun
      [WorkerStep.performTask (ClientCallback.didFinishLoading 1 7), WorkerStep.cancel,
        WorkerStep.cancel]).m_workerClientWrapper.delivered ≤ 1 ∧
    sampleBridgeBase.cancel.cancel.m_workerClientWrapper.delivered =
      sampleBridgeBase.cancel.m_workerClientWrapper.delivered ∧
    ((ClientCallback.didFinishLoading 1 7).isTerminal = true →
      ((sampleBridgeBase.workerStep
          (WorkerStep.performTask (ClientCallback.didFinishLoading 1 7))).cancel
        ).m_workerClientWrapper.delivered =
        (sampleBridgeBase.workerStep
          (WorkerStep.performTask (ClientCallback.didFinishLoading 1 7))
        ).m_workerClientWrapper.delivered) :=
  MainThreadBridgeBase.cancel_never_delivers_second_terminal sampleBridgeBase
    [WorkerStep.performTask (ClientCallback.didFinishLoading 1 7), WorkerStep.cancel,
      WorkerStep.cancel]
    (ClientCallback.didFinishLoading 1 7) (by decide) (by decide)

/-- C8.  `cancel()` posts exactly one task, `mainThreadCancel`, to the loader
context and nothing to the worker context.  On a wrapper that is not done it
then calls the wrapper's `didFail` exactly once, with an error marked as a
cancellation, which reaches the client if the wrapper still delivers; on a
wrapper that is already done it calls and delivers nothing.  Either way the
wrapper is done afterwards. -/
theorem MainThreadBridgeBase.cancel_posts_cancel_and_fails_once (b : MainThreadBridgeBase) :
    b.cancel.m_loaderProxy.loaderTasks = b.m_loaderProxy.loaderTasks ++
      [⟨BLINK_FROM_HERE "cancel", LoaderTask.mainThreadCancel⟩] ∧
    b.cancel.m_loaderProxy.workerTasks = b.m_loaderProxy.workerTasks ∧
    b.cancel.m_mainThreadLoader = b.m_mainThreadLoader ∧
    MainThreadBridgeBase.cancellationError.isCancellation = true ∧
    b.cancel.m_workerClientWrapper.received = b.m_workerClientWrapper.received ++
      (if b.m_workerClientWrapper.done then []
        else [ClientCallback.didFail MainThreadBridgeBase.cancellationError]) ∧
    b.cancel.m_workerClientWrapper.delivered = b.m_workerClientWrapper.delivered ++
      (if b.m_workerClientWrapper.delivers
        then [ClientCallback.didFail MainThreadBridgeBase.cancellationError] else []) ∧
    b.cancel.m_workerClientWrapper.done = true := by
  refine ⟨?_, ?_, ?_, rfl, ?_, ?_, ?_⟩
  · simp [MainThreadBridgeBase.cancel, WorkerLoaderProxy.postTaskToLoader]
  · simp [MainThreadBridgeBase.cancel, WorkerLoaderProxy.postTaskToLoader]
  · simp [MainThreadBridgeBase.cancel]
  · rw [MainThreadBridgeBase.cancel_wrapper]
    obtain ⟨-, hrec, -, -⟩ := b.m_workerClientWrapper.call_effect
      (ClientCallback.didFail MainThreadBridgeBase.cancellationError)
    cases hd : b.m_workerClientWrapper.m_done <;>
      simp [ThreadableLoaderClientWrapper.clearClient, ThreadableLoaderClientWrapper.done, hd,
        hrec]
  · rw [MainThreadBridgeBase.cancel_wrapper]
    obtain ⟨hdel, -, -, -⟩ := b.m_workerClientWrapper.call_effect
      (ClientCallback.didFail MainThreadBridgeBase.cancellationError)
    cases hd : b.m_workerClientWrapper.m_done <;>
      simp [ThreadableLoaderClientWrapper.clearClient, ThreadableLoaderClientWrapper.delivers,
        hd, hdel]
  · exact b.cancel_done.1

/-- C9.  When `cancel()` has returned the wrapper's client is cleared, and
whatever the worker thread does afterwards (performing client tasks that were
posted or buffered before the cancel, calling `cancel()` again) delivers
nothing more to the client. -/
theorem MainThreadBridgeBase.no_delivery_after_cancel (b : MainThreadBridgeBase)
    (steps : List WorkerStep) (tasks : List ExecutionContextTask) :
    b.cancel.m_workerClientWrapper.m_client = false ∧
    b.cancel.m_workerClientWrapper.delivers = false ∧
    (b.cancel.workerRun steps).m_workerClientWrapper.delivered =
      b.cancel.m_workerClientWrapper.delivered ∧
    (tasks.foldl (fun w task => performTask task w) b.cancel.m_workerClientWrapper).delivered =
      b.cancel.m_workerClientWrapper.delivered := by
  refine ⟨b.cancel_done.2, ?_, MainThreadBridgeBase.workerRun_done steps b.cancel
    b.cancel_done.1, ?_⟩
  · simp [ThreadableLoaderClientWrapper.delivers, b.cancel_done.1]
  · rw [← MainThreadBridgeBase.workerRun_performTask tasks b.cancel]
    exact MainThreadBridgeBase.workerRun_done (tasks.map WorkerStep.performTask) b.cancel
      b.cancel_done.1

/-- Counterexample to C10.  On a bridge whose privileged loader was never
created `mainThreadStart` is not a silent no-op: it fails its assertion. -/
theorem MainThreadBridgeBase.mainThreadStart_without_loader_fails :
    sampleBridgeBase.m_mainThreadLoader = none ∧
    (sampleBridgeBase.mainThreadStart sampleRequest).failure = some Fatal.ASSERT ∧
    (sampleBridgeBase.mainThreadStart sampleRequest).failure ≠ none := by
  decide

/-- C10 (amended).  `mainThreadStart` asserts that the privileged loader exists:
without one it aborts on `ASSERT(m_mainThreadLoader)`, having started no
loader and changed nothing; with one it returns, having issued exactly one
`start` with the given request on that loader and changed nothing else. -/
theorem MainThreadBridgeBase.mainThreadStart_asserts_loader (b : MainThreadBridgeBase)
    (request : ResourceRequest) :
    (b.m_mainThreadLoader = none →
      (b.mainThreadStart request).failure = some Fatal.ASSERT ∧
      (b.mainThreadStart request).state = b) ∧
    (∀ loader, b.m_mainThreadLoader = some loader →
      b.mainThreadStart request =
        .ok { b with
              m_mainThreadLoader :=
                some { loader with started := loader.started ++ [request] } }) := by
  constructor
  · intro h
    simp [MainThreadBridgeBase.mainThreadStart, h, Run.failure, Run.state]
  · intro loader h
    simp [MainThreadBridgeBase.mainThreadStart, h, DocumentThreadableLoader.start]

/-! ## Main-thread tasks and sink routing -/

/-- C11.  `overrideTimeout(ms)` posts `mainThreadOverrideTimeout` with the same
`ms` and `cancel()` posts `mainThreadCancel`.  Run without a privileged loader,
both tasks return leaving the bridge as it was; run with one,
`mainThreadOverrideTimeout` calls its `overrideTimeout` with that `ms` and
`mainThreadCancel` calls its `cancel()` once (and lets go of it), and neither
changes anything else. -/
theorem MainThreadBridgeBase.mainThread_tasks_check_loader (b : MainThreadBridgeBase)
    (timeoutMilliseconds : Nat) :
    (b.overrideTimeout timeoutMilliseconds).m_loaderProxy.loaderTasks =
      b.m_loaderProxy.loaderTasks ++
        [⟨BLINK_FROM_HERE "overrideTimeout",
          LoaderTask.mainThreadOverrideTimeout timeoutMilliseconds⟩] ∧
    b.cancel.m_loaderProxy.loaderTasks =
      b.m_loaderProxy.loaderTasks ++ [⟨BLINK_FROM_HERE "cancel", LoaderTask.mainThreadCancel⟩] ∧
    (b.m_mainThreadLoader = none →
      b.mainThreadOverrideTimeout timeoutMilliseconds = b ∧ b.mainThreadCancel = (b, none)) ∧
    (∀ loader, b.m_mainThreadLoader = some loader →
      b.mainThreadOverrideTimeout timeoutMilliseconds =
        { b with
          m_mainThreadLoader :=
            some { loader with timeouts := loader.timeouts ++ [timeoutMilliseconds] } } ∧
      b.mainThreadCancel =
        ({ b with m_mainThreadLoader := none },
          some { loader with cancels := loader.cancels + 1 })) := by
  refine ⟨?_, ?_, ?_, ?_⟩
  · simp [MainThreadBridgeBase.overrideTimeout, WorkerLoaderProxy.postTaskToLoader]
  · simp [MainThreadBridgeBase.cancel, WorkerLoaderProxy.postTaskToLoader]
  · intro h
    simp [MainThreadBridgeBase.mainThreadOverrideTimeout, MainThreadBridgeBase.mainThreadCancel, h]
  · intro loader h
    simp [MainThreadBridgeBase.mainThreadOverrideTimeout, MainThreadBridgeBase.mainThreadCancel, h,
      DocumentThreadableLoader.overrideTimeout, DocumentThreadableLoader.cancel]

/-- A sink method goes through `forwardTaskToWorkerOnLoaderDone` exactly when
the wrapper method it binds is a terminal one. -/
theorem MainThreadBridgeBase.sink_via_iff_terminal (cb : SinkCallback) :
    (MainThreadBridgeBase.sink cb).via = ForwardKind.forwardTaskToWorkerOnLoaderDone ↔
      (MainThreadBridgeBase.sink cb).m_task.isTerminal = true := by
  cases cb <;>
    simp [MainThreadBridgeBase.sink, MainThreadBridgeBase.didSendData,
      MainThreadBridgeBase.didReceiveResponse, MainThreadBridgeBase.didReceiveData,
      MainThreadBridgeBase.didDownloadData, MainThreadBridgeBase.didReceiveCachedMetadata,
      MainThreadBridgeBase.didFinishLoading, MainThreadBridgeBase.didFail,
      MainThreadBridgeBase.didFailAccessControlCheck, MainThreadBridgeBase.didFailRedirectCheck,
      MainThreadBridgeBase.didReceiveResourceTiming, ClientCallback.isTerminal]

/-- C12.  The four terminal sink methods (`didFinishLoading`, `didFail`,
`didFailAccessControlCheck`, `didFailRedirectCheck`) call
`forwardTaskToWorkerOnLoaderDone` and the other six call `forwardTaskToWorker`,
so a sink call takes the first route exactly when it is one of those four;
each call forwards one task, bound to the wrapper method of the same name with
the same arguments (data being passed as a copy of the first `dataLength`
bytes). -/
theorem MainThreadBridgeBase.sink_routes_terminal_through_onLoaderDone
    (bytesSent totalBytesToBeSent identifier finishTime length : Nat)
    (response : ResourceResponse) (handle : Option WebDataConsumerHandle)
    (data : List Char) (dataLength : Int) (error : ResourceError) (info : ResourceTimingInfo)
    (cb : SinkCallback) :
    MainThreadBridgeBase.sink (SinkCallback.didFinishLoading identifier finishTime) =
      ⟨ForwardKind.forwardTaskToWorkerOnLoaderDone, BLINK_FROM_HERE "didFinishLoading",
        ClientCallback.didFinishLoading identifier finishTime⟩ ∧
    MainThreadBridgeBase.sink (SinkCallback.didFail error) =
      ⟨ForwardKind.forwardTaskToWorkerOnLoaderDone, BLINK_FROM_HERE "didFail",
        ClientCallback.didFail error⟩ ∧
    MainThreadBridgeBase.sink (SinkCallback.didFailAccessControlCheck error) =
      ⟨ForwardKind.forwardTaskToWorkerOnLoaderDone, BLINK_FROM_HERE "didFailAccessControlCheck",
        ClientCallback.didFailAccessControlCheck error⟩ ∧
    MainThreadBridgeBase.sink SinkCallback.didFailRedirectCheck =
      ⟨ForwardKind.forwardTaskToWorkerOnLoaderDone, BLINK_FROM_HERE "didFailRedirectCheck",
        ClientCallback.didFailRedirectCheck⟩ ∧
    MainThreadBridgeBase.sink (SinkCallback.didSendData bytesSent totalBytesToBeSent) =
      ⟨ForwardKind.forwardTaskToWorker, BLINK_FROM_HERE "didSendData",
        ClientCallback.didSendData bytesSent totalBytesToBeSent⟩ ∧
    MainThreadBridgeBase.sink (SinkCallback.didReceiveResponse identifier response handle) =
      ⟨ForwardKind.forwardTaskToWorker, BLINK_FROM_HERE "didReceiveResponse",
        ClientCallback.didReceiveResponse identifier response handle⟩ ∧
    MainThreadBridgeBase.sink (SinkCallback.didReceiveData data length) =
      ⟨ForwardKind.forwardTaskToWorker, BLINK_FROM_HERE "didReceiveData",
        ClientCallback.didReceiveData (data.take length)⟩ ∧
    MainThreadBridgeBase.sink (SinkCallback.didDownloadData dataLength) =
      ⟨ForwardKind.forwardTaskToWorker, BLINK_FROM_HERE "didDownloadData",
        ClientCallback.didDownloadData dataLength⟩ ∧
    MainThreadBridgeBase.sink (SinkCallback.didReceiveCachedMetadata data dataLength) =
      ⟨ForwardKind.forwardTaskToWorker, BLINK_FROM_HERE "didReceiveCachedMetadata",
        ClientCallback.didReceiveCachedMetadata (data.take (intToUnsigned dataLength))⟩ ∧
    MainThreadBridgeBase.sink (SinkCallback.didReceiveResourceTiming info) =
      ⟨ForwardKind.forwardTaskToWorker, BLINK_FROM_HERE "didReceiveResourceTiming",
        ClientCallback.didReceiveResourceTiming info⟩ ∧
    ((MainThreadBridgeBase.sink cb).via = ForwardKind.forwardTaskToWorkerOnLoaderDone ↔
      (MainThreadBridgeBase.sink cb).m_task.isTerminal = true) ∧
    ((MainThreadBridgeBase.sink cb).via = ForwardKind.forwardTaskToWorker ↔
      (MainThreadBridgeBase.sink cb).m_task.isTerminal = false) := by
  refine ⟨rfl, rfl, rfl, rfl, rfl, rfl, rfl, rfl, rfl, rfl,
    MainThreadBridgeBase.sink_via_iff_terminal cb, ?_⟩
  have h := MainThreadBridgeBase.sink_via_iff_terminal cb
  rcases ForwardKind.eq_or (MainThreadBridgeBase.sink cb).via with hv | hv
  · rw [hv] at h ⊢
    simpa using h
  · rw [hv] at h ⊢
    simp only [true_iff] at h
    simp [h]

/-! ## The queue of a sync bridge -/

/-- Whether a sink callback is routed as terminal, read off its client task. -/
theorem SinkCallback.onLoaderDone_eq (cb : SinkCallback) :
    cb.onLoaderDone = cb.clientTask.m_task.isTerminal := by
  have h := MainThreadBridgeBase.sink_via_iff_terminal cb
  simp only [SinkCallback.onLoaderDone, SinkCallback.clientTask, ForwardCall.clientTask]
  cases ht : (MainThreadBridgeBase.sink cb).m_task.isTerminal
  · simp only [ht, Bool.false_eq_true, iff_false] at h
    simp [h]
  · simp only [ht, iff_true] at h
    simp [h]

/-- A sequence of sink calls that a sync bridge accepts: the bridge was not
done unless the sequence is empty, every accepted call but the last is
non-terminal, the queue has grown by the calls' tasks, and the done flag tells
whether a terminal call was among them. -/
theorem MainThreadSyncBridge.sinkAll_ok (cs : List SinkCallback) :
    ∀ (b r : MainThreadSyncBridge), b.sinkAll cs = .ok r →
    (b.m_done = true → cs = []) ∧
    (∀ c ∈ cs.dropLast, c.onLoaderDone = false) ∧
    r.m_clientTasks = b.m_clientTasks ++ cs.map SinkCallback.clientTask ∧
    r.m_done = (b.m_done || cs.any SinkCallback.onLoaderDone) := by
  induction cs with
  | nil =>
      intro b r h
      simp only [MainThreadSyncBridge.sinkAll, Except.ok.injEq] at h
      subst h
      simp
  | cons c cs ih =>
      intro b r h
      cases hd : b.m_done with
      | true =>
          simp [MainThreadSyncBridge.sinkAll, MainThreadSyncBridge.sink_done b c hd] at h
      | false =>
          rcases ForwardKind.eq_or (MainThreadBridgeBase.sink c).via with hv | hv
          · have hc : c.onLoaderDone = false := by simp [SinkCallback.onLoaderDone, hv]
            simp only [MainThreadSyncBridge.sinkAll,
              MainThreadSyncBridge.sink_nonterminal b c hd hv] at h
            obtain ⟨-, h2, h3, h4⟩ := ih _ r h
            refine ⟨by simp, ?_, ?_, ?_⟩
            · intro x hx
              cases cs with
              | nil => simp at hx
              | cons c2 cs2 =>
                  simp only [List.dropLast_cons₂, List.mem_cons] at hx
                  rcases hx with rfl | hx
                  · exact hc
                  · exact h2 x hx
            · simpa using h3
            · simpa [hd, hc] using h4
          · have hc : c.onLoaderDone = true := by simp [SinkCallback.onLoaderDone, hv]
            cases he : b.m_loaderDoneEvent with
            | none =>
                simp [MainThreadSyncBridge.sinkAll, MainThreadSyncBridge.sink, hv,
                  MainThreadSyncBridge.forwardTaskToWorkerOnLoaderDone, hd, he] at h
            | some event =>
                simp only [MainThreadSyncBridge.sinkAll,
                  MainThreadSyncBridge.sink_terminal b c event hd he hv] at h
                obtain ⟨h1, -, h3, h4⟩ := ih _ r h
                have hnil : cs = [] := h1 rfl
                subst hnil
                refine ⟨by simp, by simp, ?_, ?_⟩
                · simpa using h3
                · simpa [hc] using h4

/-- C13.  After any sequence `cs` of sink calls that a sync bridge, not done and
with no terminal task queued, accepts without aborting: the queue is the old
queue followed by the tasks of `cs`, it holds at most one terminal task, no
task before its last one is terminal, the bridge is done exactly when the
queue holds a terminal task, and a bridge that is done accepts no further
call, each one aborting on the `RELEASE_ASSERT`. -/
theorem MainThreadSyncBridge.queue_has_one_terminal_task_last (b r : MainThreadSyncBridge)
    (cs : List SinkCallback) (hdone : b.m_done = false)
    (hqueue : ∀ task ∈ b.m_clientTasks, task.m_task.isTerminal = false)
    (hacc : b.sinkAll cs = .ok r) :
    r.m_clientTasks = b.m_clientTasks ++ cs.map SinkCallback.clientTask ∧
    (r.m_clientTasks.filter (fun task => task.m_task.isTerminal)).length ≤ 1 ∧
    (∀ task ∈ r.m_clientTasks.dropLast, task.m_task.isTerminal = false) ∧
    (r.m_done = true ↔ ∃ task ∈ r.m_clientTasks, task.m_task.isTerminal = true) ∧
    (r.m_done = true → ∀ cb, r.sink cb = .error (Fatal.RELEASE_ASSERT, r)) := by
  obtain ⟨-, h2, h3, h4⟩ := MainThreadSyncBridge.sinkAll_ok cs b r hacc
  have hdrop : ∀ task ∈ r.m_clientTasks.dropLast, task.m_task.isTerminal = false := by
    intro task ht
    rw [h3] at ht
    by_cases hcs : cs = []
    · subst hcs
      simp only [List.map_nil, List.append_nil] at ht
      exact hqueue task (List.dropLast_subset _ ht)
    · have hne : cs.map SinkCallback.clientTask ≠ [] := by simpa using hcs
      rw [List.dropLast_append_of_ne_nil _ hne, List.mem_append] at ht
      rcases ht with ht | ht
      · exact hqueue task ht
      · rw [← List.map_dropLast, List.mem_map] at ht
        obtain ⟨c, hc, rfl⟩ := ht
        rw [← SinkCallback.onLoaderDone_eq]
        exact h2 c hc
  refine ⟨h3, ?_, hdrop, ?_, ?_⟩
  · have hsplit : r.m_clientTasks = r.m_clientTasks.dropLast ++
        (r.m_clientTasks.getLast?.toList) := by
      rcases List.eq_nil_or_concat r.m_clientTasks with h | ⟨l, a, h⟩
      · simp [h]
      · simp [h]
    rw [hsplit, List.filter_append, List.length_append]
    have h0 : (r.m_clientTasks.dropLast.filter (fun task => task.m_task.isTerminal)) = [] := by
      rw [List.filter_eq_nil_iff]
      intro task ht
      simp [hdrop task ht]
    rw [h0]
    cases r.m_clientTasks.getLast? with
    | none => simp
    | some a => simpa using List.length_filter_le _ [a]
  · rw [h4, hdone, h3]
    simp only [Bool.false_or, List.any_eq_true, List.mem_append, List.mem_map]
    constructor
    · rintro ⟨c, hc, ht⟩
      exact ⟨c.clientTask, Or.inr ⟨c, hc, rfl⟩, by rwa [← SinkCallback.onLoaderDone_eq]⟩
    · rintro ⟨task, hmem | ⟨c, hc, rfl⟩, ht⟩
      · rw [hqueue task hmem] at ht
        exact absurd ht (by simp)
      · exact ⟨c, hc, by rwa [SinkCallback.onLoaderDone_eq]⟩
  · intro hd cb
    exact MainThreadSyncBridge.sink_done r cb hd

/-- Witness for C13: the sample load on the sample bridge waiting in `start`. -/
theorem MainThreadSyncBridge.queue_has_one_terminal_task_last_witness :
    (sampleWaitingSyncBridge.sinkAll sampleLoad).state.m_clientTasks =
      sampleWaitingSyncBridge.m_clientTasks ++ sampleLoad.map SinkCallback.clientTask ∧
    ((sampleWaitingSyncBridge.sinkAll sampleLoad).state.m_clientTasks.filter
      (fun task => task.m_task.isTerminal)).length ≤ 1 ∧
    (∀ task ∈ (sampleWaitingSyncBridge.sinkAll sampleLoad).state.m_clientTasks.dropLast,
      task.m_task.isTerminal = false) ∧
    ((sampleWaitingSyncBridge.sinkAll sampleLoad).state.m_done = true ↔
      ∃ task ∈ (sampleWaitingSyncBridge.sinkAll sampleLoad).state.m_clientTasks,
        task.m_task.isTerminal = true) ∧
    ((sampleWaitingSyncBridge.sinkAll sampleLoad).state.m_done = true →
      ∀ cb, (sampleWaitingSyncBridge.sinkAll sampleLoad).state.sink cb =
        .error (Fatal.RELEASE_ASSERT, (sampleWaitingSyncBridge.sinkAll sampleLoad).state)) :=
  MainThreadSyncBridge.queue_has_one_terminal_task_last sampleWaitingSyncBridge
    (sampleWaitingSyncBridge.sinkAll sampleLoad).state sampleLoad rfl (by decide) rfl

/-! ## The loader -/

/-- Performing client tasks the last of which is terminal leaves the wrapper
done. -/
theorem performTask_foldl_done (tasks : List ClientTask) (task : ClientTask)
    (w : ThreadableLoaderClientWrapper) (ht : task.m_task.isTerminal = true) :
    ((tasks ++ [task]).foldl (fun w (t : ClientTask) => performTask t.m_task w) w).m_done =
      true := by
  rw [List.foldl_append]
  simp only [List.foldl_cons, List.foldl_nil, performTask]
  obtain ⟨-, -, hdone, -⟩ :=
    (tasks.foldl (fun w (t : ClientTask) => performTask t.m_task w) w).call_effect task.m_task
  unfold performTask at hdone
  rw [hdone, ht]
  simp

/-- The state `start` returns when the loader-done event wins after
non-terminal sink calls and one terminal call. -/
theorem MainThreadSyncBridge.start_loaderDone_ok (b : MainThreadSyncBridge)
    (request : ResourceRequest) (ns : List SinkCallback) (t : SinkCallback)
    (signaledIndex : Nat) (hdone : b.m_done = false)
    (hns : ∀ c ∈ ns, (MainThreadBridgeBase.sink c).via = ForwardKind.forwardTaskToWorker)
    (ht : (MainThreadBridgeBase.sink t).via = ForwardKind.forwardTaskToWorkerOnLoaderDone)
    (hidx : signaledIndex ≠ 0) :
    ∃ r, b.start request (ns ++ [t]) signaledIndex = .ok r ∧
      r.m_workerClientWrapper =
        ((b.m_clientTasks ++ ns.map SinkCallback.clientTask) ++ [t.clientTask]).foldl
          (fun w (task : ClientTask) => performTask task.m_task w) b.m_workerClientWrapper := by
  simp only [MainThreadSyncBridge.start, MainThreadSyncBridge.sinkAll_append]
  rw [MainThreadSyncBridge.sinkAll_nonterminal ns
    (MainThreadSyncBridge.mk (b.toMainThreadBridgeBase.startInMainThread request) b.m_done
      (some WaitableEvent.create) b.m_clientTasks b.performed) hdone hns]
  simp [MainThreadSyncBridge.sinkAll, MainThreadSyncBridge.sink, ht,
    MainThreadSyncBridge.forwardTaskToWorkerOnLoaderDone, hdone, hidx,
    MainThreadSyncBridge.foldl_performClientTask, SinkCallback.clientTask,
    ForwardCall.clientTask, MainThreadSyncBridge.performClientTask,
    MainThreadBridgeBase.startInMainThread]

/-- The state `start` returns when the termination event wins: the bridge as
the accepted sink calls left it, after `cancel()`. -/
theorem MainThreadSyncBridge.start_termination_ok (b : MainThreadSyncBridge)
    (request : ResourceRequest) (ns tl : List SinkCallback) (hdone : b.m_done = false)
    (hns : ∀ c ∈ ns, (MainThreadBridgeBase.sink c).via = ForwardKind.forwardTaskToWorker)
    (htl : tl.length ≤ 1) :
    ∃ r : MainThreadSyncBridge, b.start request (ns ++ tl) 0 = .ok r.cancel := by
  obtain ⟨r, hr, -⟩ := MainThreadSyncBridge.sinkAll_accepted
    (MainThreadSyncBridge.mk (b.toMainThreadBridgeBase.startInMainThread request) b.m_done
      (some WaitableEvent.create) b.m_clientTasks b.performed)
    ns tl WaitableEvent.create hdone rfl hns htl
  refine ⟨r, ?_⟩
  simp only [MainThreadSyncBridge.start]
  rw [hr]
  simp

/-- Whichever event wins, the sync bridge returns from `start` with the
wrapper done. -/
theorem MainThreadSyncBridge.start_wrapper_done (b : MainThreadSyncBridge)
    (request : ResourceRequest) (ns tl : List SinkCallback) (signaledIndex : Nat)
    (hdone : b.m_done = false)
    (hns : ∀ c ∈ ns, (MainThreadBridgeBase.sink c).via = ForwardKind.forwardTaskToWorker)
    (htl : tl.length ≤ 1)
    (hwin : signaledIndex ≠ 0 →
      ∃ t, tl = [t] ∧
        (MainThreadBridgeBase.sink t).via = ForwardKind.forwardTaskToWorkerOnLoaderDone) :
    ∃ r, b.start request (ns ++ tl) signaledIndex = .ok r ∧
      r.m_workerClientWrapper.m_done = true := by
  by_cases hidx : signaledIndex = 0
  · subst hidx
    obtain ⟨r, hr⟩ := MainThreadSyncBridge.start_termination_ok b request ns tl hdone hns htl
    exact ⟨r.cancel, hr, r.toMainThreadBridgeBase.cancel_done.1⟩
  · obtain ⟨t, rfl, ht⟩ := hwin hidx
    obtain ⟨r, hr, hw⟩ :=
      MainThreadSyncBridge.start_loaderDone_ok b request ns t signaledIndex hdone hns ht hidx
    refine ⟨r, hr, ?_⟩
    rw [hw]
    apply performTask_foldl_done
    rw [← SinkCallback.onLoaderDone_eq]
    simp [SinkCallback.onLoaderDone, ht]

/-- C14.  In `loadResourceSynchronously`, whichever event wins the wait (the
termination event after any accepted sink calls, or the loader-done event
after non-terminal calls and the terminal one), `start` returns with the
client wrapper done, so the destructor that runs next passes its
done-assertion and completes, having destroyed the bridge. -/
theorem WorkerThreadableLoader.loadResourceSynchronously_wrapper_done
    (generateReferrer : GenerateReferrer) (workerGlobalScope : WorkerGlobalScope)
    (request : ResourceRequest) (options : ThreadableLoaderOptions)
    (resourceLoaderOptions : ResourceLoaderOptions) (ns tl : List SinkCallback)
    (signaledIndex : Nat)
    (hns : ∀ c ∈ ns, (MainThreadBridgeBase.sink c).via = ForwardKind.forwardTaskToWorker)
    (htl : tl.length ≤ 1)
    (hwin : signaledIndex ≠ 0 →
      ∃ t, tl = [t] ∧
        (MainThreadBridgeBase.sink t).via = ForwardKind.forwardTaskToWorkerOnLoaderDone) :
    ∃ loader,
      (WorkerThreadableLoader.create workerGlobalScope options resourceLoaderOptions
        BlockingBehavior.LoadSynchronously).start generateReferrer request (ns ++ tl)
        signaledIndex = .ok loader ∧
      loader.m_workerClientWrapper.done = true ∧
      WorkerThreadableLoader.loadResourceSynchronously generateReferrer workerGlobalScope
        request options resourceLoaderOptions (ns ++ tl) signaledIndex =
        .ok { loader with bridge := loader.bridge.destroy, m_bridge := false } := by
  have hcreate : WorkerThreadableLoader.create workerGlobalScope options resourceLoaderOptions
      BlockingBehavior.LoadSynchronously =
      ⟨workerGlobalScope,
        Bridge.sync (MainThreadSyncBridge.create workerGlobalScope.m_workerLoaderProxy
          ThreadableLoaderClientWrapper.create options resourceLoaderOptions), true⟩ := rfl
  obtain ⟨r, hr, hw⟩ := MainThreadSyncBridge.start_wrapper_done
    (MainThreadSyncBridge.create workerGlobalScope.m_workerLoaderProxy
      ThreadableLoaderClientWrapper.create options resourceLoaderOptions)
    ((WorkerThreadableLoader.mk workerGlobalScope
        (Bridge.sync (MainThreadSyncBridge.create workerGlobalScope.m_workerLoaderProxy
          ThreadableLoaderClientWrapper.create options resourceLoaderOptions))
        true).requestToPass generateReferrer request)
    ns tl signaledIndex rfl hns htl hwin
  have hstart : (WorkerThreadableLoader.create workerGlobalScope options resourceLoaderOptions
        BlockingBehavior.LoadSynchronously).start generateReferrer request (ns ++ tl)
        signaledIndex = .ok ⟨workerGlobalScope, Bridge.sync r, true⟩ := by
    rw [hcreate]
    simp only [WorkerThreadableLoader.start, Bridge.start]
    rw [hr]
  refine ⟨⟨workerGlobalScope, Bridge.sync r, true⟩, hstart, ?_, ?_⟩
  · simpa [WorkerThreadableLoader.m_workerClientWrapper, Bridge.base,
      ThreadableLoaderClientWrapper.done] using hw
  · simp only [WorkerThreadableLoader.loadResourceSynchronously, hstart]
    simp [WorkerThreadableLoader.destructor, WorkerThreadableLoader.m_workerClientWrapper,
      Bridge.base, ThreadableLoaderClientWrapper.done, hw]

/-- Witness for C14: the sample load has arrived and the loader-done event
wins. -/
theorem WorkerThreadableLoader.loadResourceSynchronously_wrapper_done_witness :
    ∃ loader,
      (WorkerThreadableLoader.create sampleWorkerGlobalScope ⟨0, []⟩
        ⟨RequestInitiatorContext.DocumentContext, []⟩
        BlockingBehavior.LoadSynchronously).start sampleGenerateReferrer sampleRequest
        ([SinkCallback.didReceiveResponse 1 sampleResponse none] ++
          [SinkCallback.didFinishLoading 1 7]) 1 = .ok loader ∧
      loader.m_workerClientWrapper.done = true ∧
      WorkerThreadableLoader.loadResourceSynchronously sampleGenerateReferrer
        sampleWorkerGlobalScope sampleRequest ⟨0, []⟩
        ⟨RequestInitiatorContext.DocumentContext, []⟩
        ([SinkCallback.didReceiveResponse 1 sampleResponse none] ++
          [SinkCallback.didFinishLoading 1 7]) 1 =
        .ok { loader with bridge := loader.bridge.destroy, m_bridge := false } :=
  WorkerThreadableLoader.loadResourceSynchronously_wrapper_done sampleGenerateReferrer
    sampleWorkerGlobalScope sampleRequest ⟨0, []⟩ ⟨RequestInitiatorContext.DocumentContext, []⟩
    [SinkCallback.didReceiveResponse 1 sampleResponse none] [SinkCallback.didFinishLoading 1 7]
    1 (by decide) (by decide) (fun _ => ⟨_, rfl, rfl⟩)

/-- C15.  The destructor of a loader whose client wrapper is not done fails its
`DCHECK` and goes no further, leaving the loader and its bridge as they were;
when the wrapper is done it returns, having called `destroy()` on the bridge
once (one `mainThreadDestroy` task more in the loader queue) and having set
`m_bridge` to null. -/
theorem WorkerThreadableLoader.destructor_requires_done (l : WorkerThreadableLoader) :
    (l.m_workerClientWrapper.done = false → l.destructor = .error (Fatal.DCHECK, l)) ∧
    (l.m_workerClientWrapper.done = true →
      l.destructor = .ok { l with bridge := l.bridge.destroy, m_bridge := false } ∧
      l.destructor.state.m_bridge = false ∧
      l.destructor.state.bridge.base = l.bridge.base.destroy ∧
      l.destructor.state.bridge.base.m_loaderProxy.loaderTasks =
        l.bridge.base.m_loaderProxy.loaderTasks ++
          [⟨BLINK_FROM_HERE "destroy", LoaderTask.mainThreadDestroy⟩]) := by
  constructor
  · intro h
    simp [WorkerThreadableLoader.destructor, h]
  · intro h
    have hd : l.destructor = .ok { l with bridge := l.bridge.destroy, m_bridge := false } := by
      simp [WorkerThreadableLoader.destructor, h]
    have hb : l.bridge.destroy.base = l.bridge.base.destroy := by
      cases hl : l.bridge <;> simp [Bridge.destroy, Bridge.onBase, Bridge.base]
    refine ⟨hd, ?_, ?_, ?_⟩
    · simp [hd, Run.state]
    · simp [hd, Run.state, hb]
    · simp [hd, Run.state, hb, MainThreadBridgeBase.destroy, WorkerLoaderProxy.postTaskToLoader]

/-- Sink calls on a sync bridge leave its base-class part alone, also when one
of them aborts. -/
theorem MainThreadSyncBridge.sinkAll_state_base (cs : List SinkCallback) :
    ∀ (b : MainThreadSyncBridge),
    (b.sinkAll cs).state.toMainThreadBridgeBase = b.toMainThreadBridgeBase := by
  induction cs with
  | nil => intro b; rfl
  | cons c cs ih =>
      intro b
      cases hd : b.m_done with
      | true => simp [MainThreadSyncBridge.sinkAll, MainThreadSyncBridge.sink_done b c hd, Run.state]
      | false =>
          rcases ForwardKind.eq_or (MainThreadBridgeBase.sink c).via with hv | hv
          · simp only [MainThreadSyncBridge.sinkAll,
              MainThreadSyncBridge.sink_nonterminal b c hd hv]
            exact ih _
          · cases he : b.m_loaderDoneEvent with
            | none =>
                simp [MainThreadSyncBridge.sinkAll, MainThreadSyncBridge.sink, hv,
                  MainThreadSyncBridge.forwardTaskToWorkerOnLoaderDone, hd, he, Run.state]
            | some event =>
                simp only [MainThreadSyncBridge.sinkAll,
                  MainThreadSyncBridge.sink_terminal b c event hd he hv]
                exact ih _

/-- Whatever happens in the wait, the loader queue of a sync bridge after
`start` is the old queue, the start task with the request, and whatever was
posted after it. -/
theorem MainThreadSyncBridge.start_posts_request (b : MainThreadSyncBridge)
    (request : ResourceRequest) (arrivals : List SinkCallback) (signaledIndex : Nat) :
    ∃ later, (b.start request arrivals signaledIndex).state.m_loaderProxy.loaderTasks =
      b.m_loaderProxy.loaderTasks ++
        ⟨BLINK_FROM_HERE "startInMainThread", LoaderTask.mainThreadStart request⟩ :: later := by
  have hbase := MainThreadSyncBridge.sinkAll_state_base arrivals
    (MainThreadSyncBridge.mk (b.toMainThreadBridgeBase.startInMainThread request) b.m_done
      (some WaitableEvent.create) b.m_clientTasks b.performed)
  simp only [MainThreadSyncBridge.start]
  cases hs : (MainThreadSyncBridge.mk (b.toMainThreadBridgeBase.startInMainThread request)
      b.m_done (some WaitableEvent.create) b.m_clientTasks b.performed).sinkAll arrivals with
  | error e =>
      rw [hs] at hbase
      refine ⟨[], ?_⟩
      obtain ⟨f, s⟩ := e
      simp only [Run.state] at hbase ⊢
      simp [hbase, MainThreadBridgeBase.startInMainThread, WorkerLoaderProxy.postTaskToLoader]
  | ok b3 =>
      rw [hs] at hbase
      simp only [Run.state] at hbase
      by_cases hidx : signaledIndex = 0
      · refine ⟨[⟨BLINK_FROM_HERE "cancel", LoaderTask.mainThreadCancel⟩], ?_⟩
        simp [hidx, Run.state, MainThreadSyncBridge.cancel, MainThreadBridgeBase.cancel, hbase,
          MainThreadBridgeBase.startInMainThread, WorkerLoaderProxy.postTaskToLoader]
      · refine ⟨[], ?_⟩
        cases hd : b3.m_done <;>
          simp [hidx, hd, Run.state, hbase, MainThreadSyncBridge.foldl_performClientTask,
            MainThreadBridgeBase.startInMainThread, WorkerLoaderProxy.postTaskToLoader]

/-- C16.  `start` hands the bridge `requestToPass`: the request itself when its
referrer was already set, and otherwise the request with its referrer (string,
policy and the mark that it is set) taken from
`generateReferrer(getReferrerPolicy(), request.url(), outgoingReferrer())` and
with its URL and every other field unchanged.  The start task the bridge posts
carries exactly that request. -/
theorem WorkerThreadableLoader.start_passes_request_with_referrer
    (generateReferrer : GenerateReferrer) (l : WorkerThreadableLoader)
    (request : ResourceRequest) (arrivals : List SinkCallback) (signaledIndex : Nat) :
    (request.didSetHTTPReferrer = true → l.requestToPass generateReferrer request = request) ∧
    (request.didSetHTTPReferrer = false →
      l.requestToPass generateReferrer request =
        { request with
          m_httpReferrer :=
            (generateReferrer l.m_workerGlobalScope.m_referrerPolicy request.m_url
              l.m_workerGlobalScope.m_outgoingReferrer).referrer
          m_referrerPolicy :=
            (generateReferrer l.m_workerGlobalScope.m_referrerPolicy request.m_url
              l.m_workerGlobalScope.m_outgoingReferrer).referrerPolicy
          m_didSetHTTPReferrer := true }) ∧
    (l.requestToPass generateReferrer request).m_url = request.m_url ∧
    (l.requestToPass generateReferrer request).m_rest = request.m_rest ∧
    (∃ later,
      (l.start generateReferrer request arrivals signaledIndex).state.bridge.base.m_loaderProxy.loaderTasks =
        l.bridge.base.m_loaderProxy.loaderTasks ++
          ⟨BLINK_FROM_HERE "startInMainThread",
            LoaderTask.mainThreadStart (l.requestToPass generateReferrer request)⟩ :: later) := by
  refine ⟨?_, ?_, ?_, ?_, ?_⟩
  · intro h
    simp [WorkerThreadableLoader.requestToPass, h]
  · intro h
    simp [WorkerThreadableLoader.requestToPass, h, ResourceRequest.setHTTPReferrer,
      WorkerGlobalScope.getReferrerPolicy, WorkerGlobalScope.outgoingReferrer,
      ResourceRequest.url]
  · cases h : request.didSetHTTPReferrer <;>
      simp [WorkerThreadableLoader.requestToPass, h, ResourceRequest.setHTTPReferrer]
  · cases h : request.didSetHTTPReferrer <;>
      simp [WorkerThreadableLoader.requestToPass, h, ResourceRequest.setHTTPReferrer]
  · cases hb : l.bridge with
    | async b =>
        refine ⟨[], ?_⟩
        simp [WorkerThreadableLoader.start, hb, Bridge.start, Run.state, Bridge.base,
          MainThreadAsyncBridge.start, MainThreadBridgeBase.startInMainThread,
          WorkerLoaderProxy.postTaskToLoader]
    | sync b =>
        obtain ⟨later, hl⟩ := MainThreadSyncBridge.start_posts_request b
          (l.requestToPass generateReferrer request) arrivals signaledIndex
        refine ⟨later, ?_⟩
        simp only [WorkerThreadableLoader.start, hb, Bridge.start]
        cases hs : b.start (l.requestToPass generateReferrer request) arrivals signaledIndex with
        | ok r =>
            rw [hs] at hl
            simpa [Run.state, Bridge.base] using hl
        | error e =>
            obtain ⟨f, r⟩ := e
            rw [hs] at hl
            simpa [Run.state, Bridge.base] using hl

/-- C17.  The constructor makes one bridge: a `MainThreadAsyncBridge` exactly
when the blocking behaviour is `LoadAsynchronously` and a
`MainThreadSyncBridge` exactly when it is not.  Either way the bridge has
posted one task to the loader context, `mainThreadCreateLoader` with the
options given, and nothing to the worker context.  The loader of
`loadResourceSynchronously` has a sync bridge. -/
theorem WorkerThreadableLoader.create_chooses_bridge (workerGlobalScope : WorkerGlobalScope)
    (options : ThreadableLoaderOptions) (resourceLoaderOptions : ResourceLoaderOptions)
    (blockingBehavior : BlockingBehavior) (generateReferrer : GenerateReferrer)
    (request : ResourceRequest) (arrivals : List SinkCallback) (signaledIndex : Nat) :
    ((∃ b, (WorkerThreadableLoader.create workerGlobalScope options resourceLoaderOptions
        blockingBehavior).bridge = Bridge.async b) ↔
      blockingBehavior = BlockingBehavior.LoadAsynchronously) ∧
    ((∃ b, (WorkerThreadableLoader.create workerGlobalScope options resourceLoaderOptions
        blockingBehavior).bridge = Bridge.sync b) ↔
      blockingBehavior ≠ BlockingBehavior.LoadAsynchronously) ∧
    (WorkerThreadableLoader.create workerGlobalScope options resourceLoaderOptions
        blockingBehavior).m_bridge = true ∧
    (WorkerThreadableLoader.create workerGlobalScope options resourceLoaderOptions
        blockingBehavior).bridge.base.m_loaderProxy.loaderTasks =
      workerGlobalScope.m_workerLoaderProxy.loaderTasks ++
        [⟨BLINK_FROM_HERE "createLoaderInMainThread",
          LoaderTask.mainThreadCreateLoader options resourceLoaderOptions⟩] ∧
    (WorkerThreadableLoader.create workerGlobalScope options resourceLoaderOptions
        blockingBehavior).bridge.base.m_loaderProxy.workerTasks =
      workerGlobalScope.m_workerLoaderProxy.workerTasks ∧
    (∃ b, (WorkerThreadableLoader.loadResourceSynchronously generateReferrer workerGlobalScope
        request options resourceLoaderOptions arrivals signaledIndex).state.bridge =
      Bridge.sync b) := by
  refine ⟨?_, ?_, ?_, ?_, ?_, ?_⟩
  · cases blockingBehavior <;> simp [WorkerThreadableLoader.create]
  · cases blockingBehavior <;> simp [WorkerThreadableLoader.create]
  · cases blockingBehavior <;> simp [WorkerThreadableLoader.create]
  · cases blockingBehavior <;>
      simp [WorkerThreadableLoader.create, Bridge.base, MainThreadSyncBridge.create,
        MainThreadAsyncBridge.create, MainThreadBridgeBase.create,
        MainThreadBridgeBase.createLoaderInMainThread, WorkerLoaderProxy.postTaskToLoader]
  · cases blockingBehavior <;>
      simp [WorkerThreadableLoader.create, Bridge.base, MainThreadSyncBridge.create,
        MainThreadAsyncBridge.create, MainThreadBridgeBase.create,
        MainThreadBridgeBase.createLoaderInMainThread, WorkerLoaderProxy.postTaskToLoader]
  · have hcreate : WorkerThreadableLoader.create workerGlobalScope options resourceLoaderOptions
        BlockingBehavior.LoadSynchronously =
        ⟨workerGlobalScope,
          Bridge.sync (MainThreadSyncBridge.create workerGlobalScope.m_workerLoaderProxy
            ThreadableLoaderClientWrapper.create options resourceLoaderOptions), true⟩ := rfl
    simp only [WorkerThreadableLoader.loadResourceSynchronously, hcreate,
      WorkerThreadableLoader.start, Bridge.start]
    cases (MainThreadSyncBridge.create workerGlobalScope.m_workerLoaderProxy
        ThreadableLoaderClientWrapper.create options resourceLoaderOptions).start
        ((WorkerThreadableLoader.mk workerGlobalScope
          (Bridge.sync (MainThreadSyncBridge.create workerGlobalScope.m_workerLoaderProxy
            ThreadableLoaderClientWrapper.create options resourceLoaderOptions))
          true).requestToPass generateReferrer request) arrivals signaledIndex with
    | error e =>
        obtain ⟨f, r⟩ := e
        exact ⟨r, rfl⟩
    | ok r =>
        simp only [WorkerThreadableLoader.destructor]
        split
        · exact ⟨r, rfl⟩
        · exact ⟨_, rfl⟩

/-- C18.  `destroy()` first clears the wrapper's client and only then posts
the self-deletion task.  Run statement by statement, the body of `destroy`
passes through exactly two states: after the first statement the client is
cleared, the wrapper delivers nothing and the loader proxy is as it was
(nothing has been posted yet); the second state is the result of `destroy`.
At whatever point of the run the loader proxy differs from the initial one,
the client is already cleared.  In the result no client task that is performed
delivers anything, exactly one task, `mainThreadDestroy`, has been added to
the loader context, nothing has been posted to the worker context, and the
bridge keeps its privileged loader: nothing is deleted on the calling
thread. -/
theorem MainThreadBridgeBase.destroy_clears_client_and_posts_destroy (b : MainThreadBridgeBase)
    (tasks : List ExecutionContextTask) :
    b.runStatements MainThreadBridgeBase.destroyStatements =
      [{ b with m_workerClientWrapper := b.m_workerClientWrapper.clearClient }, b.destroy] ∧
    (∃ s ∈ b.runStatements MainThreadBridgeBase.destroyStatements,
      s.m_workerClientWrapper.m_client = false ∧ s.m_workerClientWrapper.delivers = false ∧
        s.m_loaderProxy = b.m_loaderProxy) ∧
    (∀ s ∈ b :: b.runStatements MainThreadBridgeBase.destroyStatements,
      s.m_loaderProxy ≠ b.m_loaderProxy →
        s.m_workerClientWrapper.m_client = false ∧ s.m_workerClientWrapper.delivers = false) ∧
    b.destroy.m_workerClientWrapper = b.m_workerClientWrapper.clearClient ∧
    b.destroy.m_workerClientWrapper.m_client = false ∧
    b.destroy.m_workerClientWrapper.delivers = false ∧
    (tasks.foldl (fun w task => performTask task w) b.destroy.m_workerClientWrapper).delivered =
      b.m_workerClientWrapper.delivered ∧
    b.destroy.m_loaderProxy.loaderTasks =
      b.m_loaderProxy.loaderTasks ++ [⟨BLINK_FROM_HERE "destroy", LoaderTask.mainThreadDestroy⟩] ∧
    b.destroy.m_loaderProxy.workerTasks = b.m_loaderProxy.workerTasks ∧
    b.destroy.m_mainThreadLoader = b.m_mainThreadLoader := by
  have hdelivers : b.m_workerClientWrapper.clearClient.delivers = false := by
    simp [ThreadableLoaderClientWrapper.clearClient, ThreadableLoaderClientWrapper.delivers]
  have htrace : b.runStatements MainThreadBridgeBase.destroyStatements =
      [{ b with m_workerClientWrapper := b.m_workerClientWrapper.clearClient }, b.destroy] := rfl
  refine ⟨htrace, ?_, ?_, rfl, rfl, hdelivers, ?_, ?_, ?_, rfl⟩
  · rw [htrace]
    exact ⟨_, List.mem_cons_self _ _, rfl, hdelivers, rfl⟩
  · intro s hs hproxy
    rw [htrace] at hs
    simp only [List.mem_cons, List.mem_singleton, List.not_mem_nil, or_false] at hs
    rcases hs with hs | hs | hs
    · exact absurd (by rw [hs]) hproxy
    · exact absurd (by rw [hs]) hproxy
    · rw [hs]
      exact ⟨rfl, hdelivers⟩
  · have hd : b.destroy.m_workerClientWrapper.m_done = true := rfl
    rw [← MainThreadBridgeBase.workerRun_performTask tasks b.destroy,
      MainThreadBridgeBase.workerRun_done (tasks.map WorkerStep.performTask) b.destroy hd]
    rfl
  · simp [MainThreadBridgeBase.destroy, WorkerLoaderProxy.postTaskToLoader]
  · simp [MainThreadBridgeBase.destroy, WorkerLoaderProxy.postTaskToLoader]

end WorkerThreadableLoader

namespace autofill

namespace data_util

/-! ## Lemmas on the string helpers and the token loops -/

/-- The pieces `SplitString` returns, with a piece under way. -/
theorem SplitStringFrom_eq (separators : string16) (input : string16) :
    ∀ piece : string16,
    SplitStringFrom separators input piece =
      (List.splitOnP.go (fun c => separators.contains c) input piece.reverse).filter
        (fun p => !p.isEmpty) := by
  induction input with
  | nil =>
      intro piece
      cases piece <;> simp [SplitStringFrom, List.splitOnP.go]
  | cons c rest ih =>
      intro piece
      by_cases hc : c ∈ separators
      · cases piece with
        | nil => simp [SplitStringFrom, List.splitOnP.go, hc, ih]
        | cons a as => simp [SplitStringFrom, List.splitOnP.go, hc, ih]
      · simp [SplitStringFrom, List.splitOnP.go, hc, ih]

/-- `SplitString` on `" ,"` gives the non-empty pieces between spaces and
commas. -/
theorem SplitString_space_comma (input : string16) :
    SplitString input (ASCIIToUTF16 " ,") =
      (input.splitOnP (fun c => c == 32 || c == 44)).filter (fun piece => !piece.isEmpty) := by
  have hsep : (fun c : char16 => (ASCIIToUTF16 " ,").contains c) =
      (fun c => c == 32 || c == 44) := by
    funext c
    have : ASCIIToUTF16 " ," = [32, 44] := by decide
    rw [this, Bool.eq_iff_iff]
    simp
  simp only [SplitString, SplitStringFrom_eq, List.reverse_nil, List.splitOnP, hsep]

/-- `StripPrefixes` drops the leading tokens that are name prefixes. -/
theorem StripPrefixes_eq (name_tokens : List string16) :
    StripPrefixes name_tokens = name_tokens.dropWhile (ContainsString name_prefixes) := by
  induction name_tokens with
  | nil => rfl
  | cons token rest ih =>
      by_cases h : ContainsString name_prefixes token = true
      · simp [StripPrefixes, List.dropWhile, h, ih]
      · simp [StripPrefixes, List.dropWhile, h]

/-- The last element of a vector that ends in `token`. -/
theorem back_concat (init : List string16) (token : string16) :
    back (init ++ [token]) = token := by
  simp [back, List.getLastD_eq_getLast?]

/-- Popping the last element of a vector that ends in `token`. -/
theorem pop_back_concat (init : List string16) (token : string16) :
    pop_back (init ++ [token]) = init := by
  simp [pop_back]

/-- With a round per token, the loop of `StripSuffixes` drops the trailing
tokens that are name suffixes. -/
theorem StripSuffixesLoop_eq (fuel : Nat) :
    ∀ name_tokens : List string16, name_tokens.length ≤ fuel →
    StripSuffixesLoop fuel name_tokens =
      name_tokens.rdropWhile (ContainsString name_suffixes) := by
  induction fuel with
  | zero =>
      intro name_tokens h
      have : name_tokens = [] := List.length_eq_zero.mp (Nat.le_zero.mp h)
      subst this
      simp [StripSuffixesLoop]
  | succ fuel ih =>
      intro name_tokens h
      rcases List.eq_nil_or_concat name_tokens with rfl | ⟨init, token, rfl⟩
      · simp [StripSuffixesLoop]
      · have hlen : init.length ≤ fuel := by simpa using h
        by_cases hs : ContainsString name_suffixes token = true
        · simp [StripSuffixesLoop, back_concat, pop_back_concat, hs, ih init hlen,
            List.rdropWhile_concat]
        · simp [StripSuffixesLoop, back_concat, hs, List.rdropWhile_concat]

/-- `StripSuffixes` drops the trailing tokens that are name suffixes. -/
theorem StripSuffixes_eq (name_tokens : List string16) :
    StripSuffixes name_tokens = name_tokens.rdropWhile (ContainsString name_suffixes) :=
  StripSuffixesLoop_eq name_tokens.length name_tokens (Nat.le_refl _)

/-- With a round per token, the family loop moves the trailing run of
family-name prefixes, last one first, to `reverse_family_tokens`. -/
theorem FamilyTokensLoop_eq (fuel : Nat) :
    ∀ name_tokens reverse_family_tokens : List string16, name_tokens.length ≤ fuel →
    FamilyTokensLoop fuel name_tokens reverse_family_tokens =
      (name_tokens.rdropWhile (ContainsString family_name_prefixes),
        reverse_family_tokens ++
          (name_tokens.rtakeWhile (ContainsString family_name_prefixes)).reverse) := by
  induction fuel with
  | zero =>
      intro name_tokens reverse_family_tokens h
      have : name_tokens = [] := List.length_eq_zero.mp (Nat.le_zero.mp h)
      subst this
      simp [FamilyTokensLoop]
  | succ fuel ih =>
      intro name_tokens reverse_family_tokens h
      rcases List.eq_nil_or_concat name_tokens with rfl | ⟨init, token, rfl⟩
      · simp [FamilyTokensLoop]
      · have hlen : init.length ≤ fuel := by simpa using h
        by_cases hs : ContainsString family_name_prefixes token = true
        · simp [FamilyTokensLoop, back_concat, pop_back_concat, hs, ih _ _ hlen,
            List.rdropWhile_concat, List.rtakeWhile_concat]
        · simp [FamilyTokensLoop, back_concat, hs, List.rdropWhile_concat,
            List.rtakeWhile_concat]

/-! ## SplitName and ProfileMatchesFullName -/

/-- C19.  For every name that is not treated as a CJK name (it is no CJK name,
or `SplitCJKName` gives up on its tokens), `SplitName` returns the parts as
described: the name is cut at spaces and commas, leading name prefixes are
dropped, and trailing name suffixes too if more than two tokens are left; with
no token left the whole name is the given name; with one token it is the given
name; otherwise the family name is the last token preceded by the longest run
of family-name prefixes right before it, the middle name is the last of the
tokens before those if there are at least two, and the given name is the
others, tokens being joined by single spaces. -/
theorem SplitName_eq_described (u : UnicodeData) (name : string16)
    (hcjk : IsCJKName u name = false ∨
      SplitCJKName u (StripPrefixes (SplitString name (ASCIIToUTF16 " ,"))) ⟨[], [], []⟩ =
        none) :
    SplitName u name = describedSplitName name := by
  have hnone : (if IsCJKName u name = true then
      SplitCJKName u (StripPrefixes (SplitString name (ASCIIToUTF16 " ,"))) ⟨[], [], []⟩
      else none) = none := by
    rcases hcjk with h | h
    · simp [h]
    · split
      · exact h
      · rfl
  have hspace : ASCIIToUTF16 " " = [32] := by decide
  unfold SplitName
  simp only [hnone]
  simp only [StripPrefixes_eq, SplitString_space_comma, StripSuffixes_eq, hspace]
  unfold describedSplitName describedTokens
  simp only []
  generalize (if (List.dropWhile (ContainsString name_prefixes)
      (List.filter (fun piece => !piece.isEmpty)
        (List.splitOnP (fun c => c == 32 || c == 44) name))).length > 2 then
      List.rdropWhile (ContainsString name_suffixes)
        (List.dropWhile (ContainsString name_prefixes)
          (List.filter (fun piece => !piece.isEmpty)
            (List.splitOnP (fun c => c == 32 || c == 44) name)))
    else List.dropWhile (ContainsString name_prefixes)
      (List.filter (fun piece => !piece.isEmpty)
        (List.splitOnP (fun c => c == 32 || c == 44) name))) = tokens
  match tokens with
  | [] => simp
  | [token] => simp
  | first :: second :: rest =>
      simp only [List.isEmpty_cons, Bool.false_eq_true, if_false, List.length_cons]
      rw [if_neg (by omega)]
      simp only [back, pop_back]
      rw [FamilyTokensLoop_eq _ _ _ (Nat.le_refl _)]
      simp only [List.reverse_append, List.reverse_reverse, List.reverse_cons, List.reverse_nil,
        List.nil_append, List.singleton_append]
      split <;> simp_all

/-- Witness for C19: a name with a prefix, a middle initial and a suffix. -/
theorem SplitName_eq_described_witness :
    SplitName sampleUnicodeData (ASCIIToUTF16 "Mr. John Q. Public Jr.") =
      describedSplitName (ASCIIToUTF16 "Mr. John Q. Public Jr.") :=
  SplitName_eq_described sampleUnicodeData (ASCIIToUTF16 "Mr. John Q. Public Jr.")
    (Or.inl (by decide))

/-- `compare` is zero exactly for equal strings. -/
theorem compare_eq_zero_iff (a : string16) : ∀ b : string16, compare a b = 0 ↔ a = b := by
  induction a with
  | nil => intro b; cases b <;> simp [compare]
  | cons x xs ih =>
      intro b
      cases b with
      | nil => simp [compare]
      | cons y ys =>
          simp only [compare]
          by_cases h1 : x < y
          · have hne : x ≠ y := Nat.ne_of_lt h1
            simp [h1, hne]
          · by_cases h2 : y < x
            · have hne : x ≠ y := (Nat.ne_of_lt h2).symm
              simp [h1, h2, hne]
            · have heq : x = y := Nat.le_antisymm (Nat.not_lt.mp h2) (Nat.not_lt.mp h1)
              simp [h1, heq, ih]

/-- C20.  `ProfileMatchesFullName(full_name, profile)` is true exactly when
`full_name` equals one of the four strings built from the profile with single
spaces between the parts: first and last name; first, middle and last name;
first name, middle initial and last name; or first name, middle initial with a
period, and last name. -/
theorem ProfileMatchesFullName_iff (full_name : string16) (profile : AutofillProfile) :
    ProfileMatchesFullName full_name profile = true ↔
      full_name = profile.GetRawInfo ServerFieldType.NAME_FIRST ++ ASCIIToUTF16 " " ++
          profile.GetRawInfo ServerFieldType.NAME_LAST ∨
      full_name = profile.GetRawInfo ServerFieldType.NAME_FIRST ++ ASCIIToUTF16 " " ++
          profile.GetRawInfo ServerFieldType.NAME_MIDDLE ++ ASCIIToUTF16 " " ++
          profile.GetRawInfo ServerFieldType.NAME_LAST ∨
      full_name = profile.GetRawInfo ServerFieldType.NAME_FIRST ++ ASCIIToUTF16 " " ++
          profile.GetRawInfo ServerFieldType.NAME_MIDDLE_INITIAL ++ ASCIIToUTF16 " " ++
          profile.GetRawInfo ServerFieldType.NAME_LAST ∨
      full_name = profile.GetRawInfo ServerFieldType.NAME_FIRST ++ ASCIIToUTF16 " " ++
          profile.GetRawInfo ServerFieldType.NAME_MIDDLE_INITIAL ++ ASCIIToUTF16 ". " ++
          profile.GetRawInfo ServerFieldType.NAME_LAST := by
  unfold ProfileMatchesFullName
  simp only [beq_iff_eq, compare_eq_zero_iff]
  constructor
  · intro h
    split at h
    · left; assumption
    · split at h
      · right; left; assumption
      · split at h
        · right; right; left; assumption
        · split at h
          · right; right; right; assumption
          · exact absurd h (by simp)
  · intro h
    split
    · rfl
    · split
      · rfl
      · split
        · rfl
        · split
          · rfl
          · rcases h with h | h | h | h <;> contradiction

end data_util

end autofill

namespace WorkerThreadableLoader

/-! ## Cancel and timeout tasks on the main thread -/

/-- What one main-thread task does, by cases on whether the bridge holds a
loader. -/
theorem PrivilegedState.runTask_cases (s : PrivilegedState) (task : PrivilegedTask) :
    (s.bridge.m_mainThreadLoader = none → s.runTask task = s) ∧
    (∀ loader, s.bridge.m_mainThreadLoader = some loader →
      s.runTask PrivilegedTask.mainThreadCancel =
        ⟨{ s.bridge with m_mainThreadLoader := none },
          s.released ++ [{ loader with cancels := loader.cancels + 1 }]⟩) ∧
    (∀ loader timeoutMilliseconds, s.bridge.m_mainThreadLoader = some loader →
      s.runTask (PrivilegedTask.mainThreadOverrideTimeout timeoutMilliseconds) =
        ⟨{ s.bridge with
            m_mainThreadLoader :=
              some { loader with timeouts := loader.timeouts ++ [timeoutMilliseconds] } },
          s.released⟩) := by
  refine ⟨?_, ?_, ?_⟩
  · intro h
    cases task <;>
      simp [PrivilegedState.runTask, MainThreadBridgeBase.mainThreadCancel,
        MainThreadBridgeBase.mainThreadOverrideTimeout, h]
  · intro loader h
    simp [PrivilegedState.runTask, MainThreadBridgeBase.mainThreadCancel, h,
      DocumentThreadableLoader.cancel]
  · intro loader timeoutMilliseconds h
    simp [PrivilegedState.runTask, MainThreadBridgeBase.mainThreadOverrideTimeout, h,
      DocumentThreadableLoader.overrideTimeout]

/-- Once the bridge holds no loader, main-thread tasks change nothing. -/
theorem PrivilegedState.runTasks_without_loader (tasks : List PrivilegedTask) :
    ∀ s : PrivilegedState, s.bridge.m_mainThreadLoader = none → s.runTasks tasks = s := by
  induction tasks with
  | nil => intro s _; rfl
  | cons task rest ih =>
      intro s h
      have h1 := (s.runTask_cases task).1 h
      simp only [PrivilegedState.runTasks, List.foldl_cons, h1]
      exact ih s h

/-- Tasks run one batch after the other. -/
theorem PrivilegedState.runTasks_append (s : PrivilegedState) (xs ys : List PrivilegedTask) :
    s.runTasks (xs ++ ys) = (s.runTasks xs).runTasks ys := by
  simp [PrivilegedState.runTasks, List.foldl_append]

/-- After a cancel task the bridge holds no loader. -/
theorem PrivilegedState.runTask_cancel_clears (s : PrivilegedState) :
    (s.runTask PrivilegedTask.mainThreadCancel).bridge.m_mainThreadLoader = none := by
  cases h : s.bridge.m_mainThreadLoader with
  | none => rw [(s.runTask_cases _).1 h]; exact h
  | some loader => rw [(s.runTask_cases PrivilegedTask.mainThreadCancel).2.1 loader h]

/-- Main-thread tasks add at most one `cancel()` call, and none when the bridge
holds no loader. -/
theorem PrivilegedState.runTasks_cancelCalls (tasks : List PrivilegedTask) :
    ∀ s : PrivilegedState,
    (s.runTasks tasks).cancelCalls ≤ s.cancelCalls + 1 ∧
    (s.bridge.m_mainThreadLoader = none → (s.runTasks tasks).cancelCalls = s.cancelCalls) := by
  induction tasks with
  | nil => intro s; simp [PrivilegedState.runTasks]
  | cons task rest ih =>
      intro s
      constructor
      · cases h : s.bridge.m_mainThreadLoader with
        | none =>
            rw [PrivilegedState.runTasks_without_loader _ s h]
            exact Nat.le_succ _
        | some loader =>
            cases task with
            | mainThreadCancel =>
                have hstep := (s.runTask_cases PrivilegedTask.mainThreadCancel).2.1 loader h
                have hnone := s.runTask_cancel_clears
                have hrest := PrivilegedState.runTasks_without_loader rest _ hnone
                simp only [PrivilegedState.runTasks, List.foldl_cons] at hrest ⊢
                rw [hrest, hstep]
                simp [PrivilegedState.cancelCalls, h]
                omega
            | mainThreadOverrideTimeout timeoutMilliseconds =>
                have hstep := (s.runTask_cases
                  (PrivilegedTask.mainThreadOverrideTimeout timeoutMilliseconds)).2.2 loader
                  timeoutMilliseconds h
                have hle := (ih (s.runTask
                  (PrivilegedTask.mainThreadOverrideTimeout timeoutMilliseconds))).1
                simp only [PrivilegedState.runTasks, List.foldl_cons] at hle ⊢
                refine Nat.le_trans hle ?_
                rw [hstep]
                simp [PrivilegedState.cancelCalls, h]
      · intro h
        rw [PrivilegedState.runTasks_without_loader _ s h]

/-- C27.  `mainThreadCancel` calls the loader's `cancel()` and then sets
`m_mainThreadLoader` to null.  So over any sequence of cancel and
override-timeout tasks run on the main thread the loaders receive at most one
`cancel()` call more than they had, and whatever is run after a cancel task,
override-timeout tasks included, changes nothing. -/
theorem PrivilegedState.cancel_at_most_once_and_timeout_ignored_after (s : PrivilegedState)
    (before after tasks : List PrivilegedTask) (timeoutMilliseconds : Nat) :
    (s.runTask PrivilegedTask.mainThreadCancel).bridge.m_mainThreadLoader = none ∧
    (∀ loader, s.bridge.m_mainThreadLoader = some loader →
      (s.runTask PrivilegedTask.mainThreadCancel).released =
        s.released ++ [{ loader with cancels := loader.cancels + 1 }]) ∧
    (s.runTasks tasks).cancelCalls ≤ s.cancelCalls + 1 ∧
    (s.runTasks (before ++ [PrivilegedTask.mainThreadCancel])).runTask
        (PrivilegedTask.mainThreadOverrideTimeout timeoutMilliseconds) =
      s.runTasks (before ++ [PrivilegedTask.mainThreadCancel]) ∧
    s.runTasks (before ++ [PrivilegedTask.mainThreadCancel] ++ after) =
      s.runTasks (before ++ [PrivilegedTask.mainThreadCancel]) := by
  have hnone : (s.runTasks (before ++ [PrivilegedTask.mainThreadCancel])
      ).bridge.m_mainThreadLoader = none := by
    rw [PrivilegedState.runTasks_append]
    exact (s.runTasks before).runTask_cancel_clears
  refine ⟨s.runTask_cancel_clears, ?_, (PrivilegedState.runTasks_cancelCalls tasks s).1, ?_, ?_⟩
  · intro loader h
    rw [(s.runTask_cases PrivilegedTask.mainThreadCancel).2.1 loader h]
  · exact ((s.runTasks (before ++ [PrivilegedTask.mainThreadCancel])).runTask_cases _).1 hnone
  · rw [PrivilegedState.runTasks_append _ (before ++ [PrivilegedTask.mainThreadCancel]) after]
    exact PrivilegedState.runTasks_without_loader after _ hnone

end WorkerThreadableLoader

namespace autofill

namespace data_util

/-! ## Two tokens, CJK names and ContainsString -/

/-- Counterexample to C22.  "van Gogh" is no CJK name and has exactly two tokens
after prefix stripping, yet its family name is not the second token: the first
token is a family-name prefix and goes into the family name, leaving the given
name empty. -/
theorem SplitName_two_tokens_family_is_not_second_token :
    IsCJKName sampleUnicodeData (ASCIIToUTF16 "van Gogh") = false ∧
    StripPrefixes (SplitString (ASCIIToUTF16 "van Gogh") (ASCIIToUTF16 " ,")) =
      [ASCIIToUTF16 "van", ASCIIToUTF16 "Gogh"] ∧
    SplitName sampleUnicodeData (ASCIIToUTF16 "van Gogh") =
      ⟨[], [], ASCIIToUTF16 "van Gogh"⟩ ∧
    (SplitName sampleUnicodeData (ASCIIToUTF16 "van Gogh")).family ≠ ASCIIToUTF16 "Gogh" := by
  decide

/-- C22 (amended).  For a name that is no CJK name and has exactly two tokens
after prefix stripping, `SplitName` strips no suffix, whether or not the second
token is in the suffix list: the first token is the given name and the second
the family name, with no middle name, unless the first token is a family-name
prefix, in which case the family name is both tokens joined by a space and the
given name is empty.  "Ma" is in the suffix list, and "John Ma" gives given
"John" and family "Ma". -/
theorem SplitName_two_tokens_strips_no_suffix (u : UnicodeData) (name first second : string16)
    (hcjk : IsCJKName u name = false)
    (htokens : StripPrefixes (SplitString name (ASCIIToUTF16 " ,")) = [first, second]) :
    SplitName u name =
      (if ContainsString family_name_prefixes first then
        ⟨[], [], first ++ ASCIIToUTF16 " " ++ second⟩
      else ⟨first, [], second⟩) ∧
    ContainsString name_suffixes (ASCIIToUTF16 "Ma") = true ∧
    SplitName sampleUnicodeData (ASCIIToUTF16 "John Ma") =
      ⟨ASCIIToUTF16 "John", [], ASCIIToUTF16 "Ma"⟩ := by
  refine ⟨?_, by decide, by decide⟩
  have hspace : ASCIIToUTF16 " " = [32] := by decide
  unfold SplitName
  simp only [hcjk, htokens, hspace]
  by_cases hp : ContainsString family_name_prefixes first = true
  · simp [FamilyTokensLoop, back, pop_back, hp, JoinString, List.intercalate]
  · simp [FamilyTokensLoop, back, pop_back, hp, JoinString, List.intercalate]

/-- Witness for C22 (amended): "John Ma". -/
theorem SplitName_two_tokens_strips_no_suffix_witness :
    SplitName sampleUnicodeData (ASCIIToUTF16 "John Ma") =
      (if ContainsString family_name_prefixes (ASCIIToUTF16 "John") then
        ⟨[], [], ASCIIToUTF16 "John" ++ ASCIIToUTF16 " " ++ ASCIIToUTF16 "Ma"⟩
      else ⟨ASCIIToUTF16 "John", [], ASCIIToUTF16 "Ma"⟩) ∧
    ContainsString name_suffixes (ASCIIToUTF16 "Ma") = true ∧
    SplitName sampleUnicodeData (ASCIIToUTF16 "John Ma") =
      ⟨ASCIIToUTF16 "John", [], ASCIIToUTF16 "Ma"⟩ :=
  SplitName_two_tokens_strips_no_suffix sampleUnicodeData (ASCIIToUTF16 "John Ma")
    (ASCIIToUTF16 "John") (ASCIIToUTF16 "Ma") (by decide) (by decide)

/-- `StartsWithAny` returns the length of the first entry the name starts
with, or 0. -/
theorem StartsWithAny_eq (name : string16) (entries : List String) :
    StartsWithAny name entries =
      match entries.find? (fun entry => StartsWith name (UTF8ToUTF16 entry)) with
      | some entry => (UTF8ToUTF16 entry).length
      | none => 0 := by
  induction entries with
  | nil => rfl
  | cons entry rest ih =>
      by_cases h : StartsWith name (UTF8ToUTF16 entry) = true
      · simp [StartsWithAny, List.find?, h]
      · simp [StartsWithAny, List.find?, h, ih]

/-- With no empty entry in the list, the surname length the code computes is
the described one. -/
theorem surname_length_eq_described (name : string16) (entries : List String)
    (hentries : ∀ entry ∈ entries, 1 ≤ (UTF8ToUTF16 entry).length) :
    max 1 (StartsWithAny name entries) = describedSurnameLength name entries := by
  rw [StartsWithAny_eq, describedSurnameLength]
  cases h : entries.find? (fun entry => StartsWith name (UTF8ToUTF16 entry)) with
  | none => simp
  | some entry =>
      have := hentries entry (List.mem_of_find?_eq_some h)
      simp only
      omega

/-- Every listed common CJK surname has two characters. -/
theorem common_cjk_multi_char_surnames_length :
    ∀ entry ∈ common_cjk_multi_char_surnames, (UTF8ToUTF16 entry).length = 2 := by
  decide

/-- Every listed Korean surname has two characters. -/
theorem korean_multi_char_surnames_length :
    ∀ entry ∈ korean_multi_char_surnames, (UTF8ToUTF16 entry).length = 2 := by
  decide

end data_util

end autofill
namespace autofill

namespace data_util

/-- What `SplitName` returns for a CJK name with one token. -/
theorem SplitName_cjk_one_token (u : UnicodeData) (name token : string16)
    (hcjk : IsCJKName u name = true)
    (htokens : StripPrefixes (SplitString name (ASCIIToUTF16 " ,")) = [token]) :
    SplitName u name =
      ⟨token.drop (describedSurnameLength token
          (if IsHangulName u token && decide (token.length > 3) then korean_multi_char_surnames
            else common_cjk_multi_char_surnames)),
        [],
        token.take (describedSurnameLength token
          (if IsHangulName u token && decide (token.length > 3) then korean_multi_char_surnames
            else common_cjk_multi_char_surnames))⟩ := by
  have hk := surname_length_eq_described token korean_multi_char_surnames
    (fun entry h => by rw [korean_multi_char_surnames_length entry h]; decide)
  have hc := surname_length_eq_described token common_cjk_multi_char_surnames
    (fun entry h => by rw [common_cjk_multi_char_surnames_length entry h]; decide)
  unfold SplitName
  simp only [hcjk, htokens, SplitCJKName, if_true]
  cases hcond : (IsHangulName u token && decide (token.length > 3))
  · simp [hc]
  · simp [hk]

/-- C23.  For a CJK name (only CJK characters and whitespace) `SplitName` puts
the family name first, the given name second and leaves the middle name empty.
With two tokens the family name is the first and the given name the second.
With one token the family name is its first `k` characters and the given name
the rest, so that family followed by given is the token, where `k` is the
length of the first listed multi-character surname the token starts with, or
1 if it starts with none. -/
theorem SplitName_cjk_family_first (u : UnicodeData) (name : string16)
    (hcjk : IsCJKName u name = true) :
    (∀ first second,
      StripPrefixes (SplitString name (ASCIIToUTF16 " ,")) = [first, second] →
      SplitName u name = ⟨second, [], first⟩) ∧
    (∀ token,
      StripPrefixes (SplitString name (ASCIIToUTF16 " ,")) = [token] →
      (SplitName u name).family =
        token.take (describedSurnameLength token
          (if IsHangulName u token && decide (token.length > 3) then korean_multi_char_surnames
            else common_cjk_multi_char_surnames)) ∧
      (SplitName u name).given =
        token.drop (describedSurnameLength token
          (if IsHangulName u token && decide (token.length > 3) then korean_multi_char_surnames
            else common_cjk_multi_char_surnames)) ∧
      (SplitName u name).middle = [] ∧
      (SplitName u name).family ++ (SplitName u name).given = token) := by
  constructor
  · intro first second htokens
    unfold SplitName
    simp [hcjk, htokens, SplitCJKName]
  · intro token htokens
    rw [SplitName_cjk_one_token u name token hcjk htokens]
    exact ⟨rfl, rfl, rfl, List.take_append_drop _ _⟩

/-- Witness for C23: a Chinese name written without a space. -/
theorem SplitName_cjk_family_first_witness :
    (∀ first second,
      StripPrefixes (SplitString (UTF8ToUTF16 "欧阳锋") (ASCIIToUTF16 " ,")) = [first, second] →
      SplitName sampleUnicodeData (UTF8ToUTF16 "欧阳锋") = ⟨second, [], first⟩) ∧
    (∀ token,
      StripPrefixes (SplitString (UTF8ToUTF16 "欧阳锋") (ASCIIToUTF16 " ,")) = [token] →
      (SplitName sampleUnicodeData (UTF8ToUTF16 "欧阳锋")).family =
        token.take (describedSurnameLength token
          (if IsHangulName sampleUnicodeData token && decide (token.length > 3) then
            korean_multi_char_surnames
            else common_cjk_multi_char_surnames)) ∧
      (SplitName sampleUnicodeData (UTF8ToUTF16 "欧阳锋")).given =
        token.drop (describedSurnameLength token
          (if IsHangulName sampleUnicodeData token && decide (token.length > 3) then
            korean_multi_char_surnames
            else common_cjk_multi_char_surnames)) ∧
      (SplitName sampleUnicodeData (UTF8ToUTF16 "欧阳锋")).middle = [] ∧
      (SplitName sampleUnicodeData (UTF8ToUTF16 "欧阳锋")).family ++
        (SplitName sampleUnicodeData (UTF8ToUTF16 "欧阳锋")).given = token) :=
  SplitName_cjk_family_first sampleUnicodeData (UTF8ToUTF16 "欧阳锋") (by decide)

/-- C24.  For a CJK name with one token, the surname is looked up in
`korean_multi_char_surnames` only when the token is a Hangul name of more than
3 characters; for a Hangul name of 3 characters or fewer and for every token
that is no Hangul name it is looked up in `common_cjk_multi_char_surnames`
only; and when the token starts with no entry of the list used the surname is
its first character.  So "강전민수" has the surname "강전", which only the
Korean list holds, and "강전민" the surname "강". -/
theorem SplitName_korean_list_only_above_three (u : UnicodeData) (name token : string16)
    (hcjk : IsCJKName u name = true)
    (htokens : StripPrefixes (SplitString name (ASCIIToUTF16 " ,")) = [token]) :
    (IsHangulName u token = true → 3 < token.length →
      (SplitName u name).family =
        token.take (describedSurnameLength token korean_multi_char_surnames)) ∧
    (IsHangulName u token = true → token.length ≤ 3 →
      (SplitName u name).family =
        token.take (describedSurnameLength token common_cjk_multi_char_surnames)) ∧
    (IsHangulName u token = false →
      (SplitName u name).family =
        token.take (describedSurnameLength token common_cjk_multi_char_surnames)) ∧
    ((∀ entry ∈ (if IsHangulName u token && decide (token.length > 3) then
          korean_multi_char_surnames else common_cjk_multi_char_surnames),
        StartsWith token (UTF8ToUTF16 entry) = false) →
      (SplitName u name).family = token.take 1) ∧
    (SplitName sampleUnicodeData (UTF8ToUTF16 "강전민수")).family = UTF8ToUTF16 "강전" ∧
    (SplitName sampleUnicodeData (UTF8ToUTF16 "강전민")).family = UTF8ToUTF16 "강" ∧
    common_cjk_multi_char_surnames.contains "강전" = false ∧
    korean_multi_char_surnames.contains "강전" = true := by
  rw [SplitName_cjk_one_token u name token hcjk htokens]
  refine ⟨?_, ?_, ?_, ?_, by decide, by decide, by decide, by decide⟩
  · intro hh hlen
    simp [hh, hlen]
  · intro hh hlen
    have : ¬ token.length > 3 := by omega
    simp [this]
  · intro hh
    simp [hh]
  · intro hnone
    have : describedSurnameLength token
        (if IsHangulName u token && decide (token.length > 3) then korean_multi_char_surnames
          else common_cjk_multi_char_surnames) = 1 := by
      unfold describedSurnameLength
      rw [List.find?_eq_none.mpr (by simpa using hnone)]
    rw [this]

/-- Witness for C24: a Hangul name of four characters. -/
theorem SplitName_korean_list_only_above_three_witness :
    (IsHangulName sampleUnicodeData (UTF8ToUTF16 "강전민수") = true →
      3 < (UTF8ToUTF16 "강전민수").length →
      (SplitName sampleUnicodeData (UTF8ToUTF16 "강전민수")).family =
        (UTF8ToUTF16 "강전민수").take
          (describedSurnameLength (UTF8ToUTF16 "강전민수") korean_multi_char_surnames)) ∧
    (IsHangulName sampleUnicodeData (UTF8ToUTF16 "강전민수") = true →
      (UTF8ToUTF16 "강전민수").length ≤ 3 →
      (SplitName sampleUnicodeData (UTF8ToUTF16 "강전민수")).family =
        (UTF8ToUTF16 "강전민수").take
          (describedSurnameLength (UTF8ToUTF16 "강전민수") common_cjk_multi_char_surnames)) ∧
    (IsHangulName sampleUnicodeData (UTF8ToUTF16 "강전민수") = false →
      (SplitName sampleUnicodeData (UTF8ToUTF16 "강전민수")).family =
        (UTF8ToUTF16 "강전민수").take
          (describedSurnameLength (UTF8ToUTF16 "강전민수") common_cjk_multi_char_surnames)) ∧
    ((∀ entry ∈ (if IsHangulName sampleUnicodeData (UTF8ToUTF16 "강전민수") &&
          decide ((UTF8ToUTF16 "강전민수").length > 3) then
          korean_multi_char_surnames else common_cjk_multi_char_surnames),
        StartsWith (UTF8ToUTF16 "강전민수") (UTF8ToUTF16 entry) = false) →
      (SplitName sampleUnicodeData (UTF8ToUTF16 "강전민수")).family =
        (UTF8ToUTF16 "강전민수").take 1) ∧
    (SplitName sampleUnicodeData (UTF8ToUTF16 "강전민수")).family = UTF8ToUTF16 "강전" ∧
    (SplitName sampleUnicodeData (UTF8ToUTF16 "강전민")).family = UTF8ToUTF16 "강" ∧
    common_cjk_multi_char_surnames.contains "강전" = false ∧
    korean_multi_char_surnames.contains "강전" = true :=
  SplitName_korean_list_only_above_three sampleUnicodeData (UTF8ToUTF16 "강전민수")
    (UTF8ToUTF16 "강전민수") (by decide) (by decide)

/-- C25 (the code at the failing inputs).  `ContainsString` takes every period
off both ends of the element before it compares: "jr.." with two final
periods and ".jr" with a leading period are found in the suffix list, as
"jr." and "jr" are. -/
theorem ContainsString_ignores_all_outer_periods :
    ContainsString name_suffixes (ASCIIToUTF16 "jr..") = true ∧
    ContainsString name_suffixes (ASCIIToUTF16 ".jr") = true ∧
    ContainsString name_suffixes (ASCIIToUTF16 "jr.") = true ∧
    ContainsString name_suffixes (ASCIIToUTF16 "jr") = true ∧
    TrimString (ASCIIToUTF16 "..jr...") (ASCIIToUTF16 ".") = ASCIIToUTF16 "jr" := by
  decide

end data_util

end autofill

namespace autofill

namespace data_util

/-! ## The tokens of the parts -/

/-- One step of `SplitString` on a separator. -/
theorem SplitStringFrom_separator (separators : string16) (c : char16) (rest piece : string16)
    (hc : c ∈ separators) :
    SplitStringFrom separators (c :: rest) piece =
      (if piece.isEmpty then [] else [piece]) ++ SplitStringFrom separators rest [] := by
  cases piece <;> simp [SplitStringFrom, hc]

/-- One step of `SplitString` on a character that is no separator. -/
theorem SplitStringFrom_other (separators : string16) (c : char16) (rest piece : string16)
    (hc : c ∉ separators) :
    SplitStringFrom separators (c :: rest) piece =
      SplitStringFrom separators rest (piece ++ [c]) := by
  simp [SplitStringFrom, hc]

/-- Reading a separator-free stretch of the input adds it to the piece under
way. -/
theorem SplitStringFrom_token (separators : string16) (token : string16)
    (htoken : ∀ c ∈ token, c ∉ separators) :
    ∀ rest piece : string16,
    SplitStringFrom separators (token ++ rest) piece =
      SplitStringFrom separators rest (piece ++ token) := by
  induction token with
  | nil => intro rest piece; simp
  | cons c cs ih =>
      intro rest piece
      have hc : c ∉ separators := htoken c (List.mem_cons_self _ _)
      have hcs : ∀ x ∈ cs, x ∉ separators := fun x hx => htoken x (List.mem_cons_of_mem _ hx)
      rw [List.cons_append, SplitStringFrom_other _ _ _ _ hc, ih hcs]
      simp

/-- Every piece `SplitString` returns is non-empty and holds no separator. -/
theorem SplitStringFrom_pieces (separators : string16) (input : string16) :
    ∀ piece : string16, (∀ c ∈ piece, c ∉ separators) →
    ∀ token ∈ SplitStringFrom separators input piece,
      token ≠ [] ∧ ∀ c ∈ token, c ∉ separators := by
  induction input with
  | nil =>
      intro piece hpiece token htoken
      cases piece with
      | nil => simp [SplitStringFrom] at htoken
      | cons a as =>
          simp only [SplitStringFrom, List.isEmpty_cons, Bool.false_eq_true, if_false,
            List.mem_singleton] at htoken
          subst htoken
          exact ⟨by simp, hpiece⟩
  | cons c rest ih =>
      intro piece hpiece token htoken
      by_cases hc : c ∈ separators
      · rw [SplitStringFrom_separator _ _ _ _ hc, List.mem_append] at htoken
        rcases htoken with htoken | htoken
        · cases piece with
          | nil => simp at htoken
          | cons a as =>
              simp only [List.isEmpty_cons, Bool.false_eq_true, if_false,
                List.mem_singleton] at htoken
              subst htoken
              exact ⟨by simp, hpiece⟩
        · exact ih [] (by simp) token htoken
      · rw [SplitStringFrom_other _ _ _ _ hc] at htoken
        refine ih (piece ++ [c]) ?_ token htoken
        intro x hx
        rcases List.mem_append.mp hx with hx | hx
        · exact hpiece x hx
        · simp only [List.mem_singleton] at hx
          subst hx
          exact hc

/-- Tokens joined by single spaces split back into the same tokens. -/
theorem SplitString_JoinString (tokens : List string16)
    (htokens : ∀ token ∈ tokens, token ≠ [] ∧ ∀ c ∈ token, c ∉ ASCIIToUTF16 " ,") :
    SplitString (JoinString tokens (ASCIIToUTF16 " ")) (ASCIIToUTF16 " ,") = tokens := by
  have hspace : ASCIIToUTF16 " " = [32] := by decide
  have hsep : (32 : char16) ∈ ASCIIToUTF16 " ," := by decide
  rw [hspace]
  induction tokens with
  | nil => simp [JoinString, List.intercalate, SplitString, SplitStringFrom]
  | cons token rest ih =>
      obtain ⟨hne, hfree⟩ := htokens token (List.mem_cons_self _ _)
      have hrest : ∀ t ∈ rest, t ≠ [] ∧ ∀ c ∈ t, c ∉ ASCIIToUTF16 " ," :=
        fun t ht => htokens t (List.mem_cons_of_mem _ ht)
      cases rest with
      | nil =>
          have h := SplitStringFrom_token (ASCIIToUTF16 " ,") token hfree [] []
          simp only [List.append_nil, List.nil_append] at h
          have hjoin : JoinString [token] [32] = token := by
            simp [JoinString, List.intercalate]
          rw [hjoin, SplitString, h]
          cases token with
          | nil => exact absurd rfl hne
          | cons a as => simp [SplitStringFrom]
      | cons second others =>
          have hjoin : JoinString (token :: second :: others) [32] =
              token ++ (32 :: JoinString (second :: others) [32]) := by
            simp [JoinString, List.intercalate]
          have h := SplitStringFrom_token (ASCIIToUTF16 " ,") token hfree
            (32 :: JoinString (second :: others) [32]) []
          simp only [List.nil_append] at h
          have ih2 := ih hrest
          simp only [SplitString] at ih2 ⊢
          rw [hjoin, h, SplitStringFrom_separator _ _ _ _ hsep, ih2]
          cases token with
          | nil => exact absurd rfl hne
          | cons a as => simp

/-- A single token splits into itself. -/
theorem SplitString_token (token : string16)
    (htoken : token ≠ [] ∧ ∀ c ∈ token, c ∉ ASCIIToUTF16 " ,") :
    SplitString token (ASCIIToUTF16 " ,") = [token] := by
  have h := SplitString_JoinString [token] (by simpa using htoken)
  simpa [JoinString, List.intercalate] using h

/-- The tokens `SplitName` assigns are non-empty and hold no space or comma. -/
theorem strippedTokens_pieces (name : string16) :
    ∀ token ∈ strippedTokens name, token ≠ [] ∧ ∀ c ∈ token, c ∉ ASCIIToUTF16 " ," := by
  intro token htoken
  have hsplit : token ∈ SplitString name (ASCIIToUTF16 " ,") := by
    unfold strippedTokens at htoken
    simp only [StripPrefixes_eq, StripSuffixes_eq] at htoken
    split at htoken
    · rw [List.rdropWhile, List.mem_reverse] at htoken
      have h1 := (List.dropWhile_sublist _).subset htoken
      rw [List.mem_reverse] at h1
      exact (List.dropWhile_sublist _).subset h1
    · exact (List.dropWhile_sublist _).subset htoken
  exact SplitStringFrom_pieces _ _ [] (by simp) token hsplit

/-- What `SplitName` returns for a name that is not treated as a CJK name, in
terms of the tokens left after stripping. -/
theorem SplitName_of_strippedTokens (u : UnicodeData) (name : string16)
    (hcjk : IsCJKName u name = false ∨
      SplitCJKName u (StripPrefixes (SplitString name (ASCIIToUTF16 " ,"))) ⟨[], [], []⟩ =
        none) :
    SplitName u name =
      match strippedTokens name with
      | [] => ⟨name, [], []⟩
      | [token] => ⟨token, [], []⟩
      | tokens =>
          { family := JoinString
              (tokens.dropLast.rtakeWhile (ContainsString family_name_prefixes) ++
                [tokens.getLastD []]) (ASCIIToUTF16 " ")
            middle :=
              if (tokens.dropLast.rdropWhile (ContainsString family_name_prefixes)).length ≥ 2
              then (tokens.dropLast.rdropWhile (ContainsString family_name_prefixes)).getLastD []
              else []
            given := JoinString
              (if (tokens.dropLast.rdropWhile (ContainsString family_name_prefixes)).length ≥ 2
                then (tokens.dropLast.rdropWhile (ContainsString family_name_prefixes)).dropLast
                else tokens.dropLast.rdropWhile (ContainsString family_name_prefixes))
              (ASCIIToUTF16 " ") } := by
  have hnone : (if IsCJKName u name = true then
      SplitCJKName u (StripPrefixes (SplitString name (ASCIIToUTF16 " ,"))) ⟨[], [], []⟩
      else none) = none := by
    rcases hcjk with h | h
    · simp [h]
    · split
      · exact h
      · rfl
  unfold SplitName
  simp only [hnone]
  unfold strippedTokens
  simp only []
  generalize (if (StripPrefixes (SplitString name (ASCIIToUTF16 " ,"))).length > 2 then
      StripSuffixes (StripPrefixes (SplitString name (ASCIIToUTF16 " ,")))
    else StripPrefixes (SplitString name (ASCIIToUTF16 " ,"))) = tokens
  match tokens with
  | [] => simp
  | [token] => simp
  | first :: second :: rest =>
      simp only [List.isEmpty_cons, Bool.false_eq_true, if_false, List.length_cons]
      rw [if_neg (by omega)]
      simp only [back, pop_back]
      rw [FamilyTokensLoop_eq _ _ _ (Nat.le_refl _)]
      simp only [List.reverse_append, List.reverse_reverse, List.reverse_cons, List.reverse_nil,
        List.nil_append, List.singleton_append]
      split <;> simp_all

end data_util

end autofill
namespace autofill

namespace data_util

/-- The trailing run a right-drop leaves out is the right-take. -/
theorem rdropWhile_append_rtakeWhile (p : string16 → Bool) (l : List string16) :
    l.rdropWhile p ++ l.rtakeWhile p = l := by
  rw [List.rdropWhile, List.rtakeWhile, ← List.reverse_append,
    List.takeWhile_append_dropWhile, List.reverse_reverse]

/-- C26.  For a name that is not treated as a CJK name and keeps at least one
token after prefix and suffix stripping, `SplitName` loses and reorders
nothing: the tokens of the given name, then those of the middle name, then
those of the family name are exactly the tokens that were left after
stripping, in their order. -/
theorem SplitName_keeps_tokens_in_order (u : UnicodeData) (name : string16)
    (hcjk : IsCJKName u name = false ∨
      SplitCJKName u (StripPrefixes (SplitString name (ASCIIToUTF16 " ,"))) ⟨[], [], []⟩ =
        none)
    (hleft : strippedTokens name ≠ []) :
    SplitString (SplitName u name).given (ASCIIToUTF16 " ,") ++
      SplitString (SplitName u name).middle (ASCIIToUTF16 " ,") ++
      SplitString (SplitName u name).family (ASCIIToUTF16 " ,") = strippedTokens name := by
  have hempty : SplitString [] (ASCIIToUTF16 " ,") = [] := rfl
  have hpieces := strippedTokens_pieces name
  rw [SplitName_of_strippedTokens u name hcjk]
  generalize strippedTokens name = tokens at hleft hpieces ⊢
  match tokens, hleft, hpieces with
  | [], hleft, _ => exact absurd rfl hleft
  | [token], _, hpieces =>
      simp only [hempty, List.append_nil]
      exact SplitString_token token (hpieces token (List.mem_singleton_self _))
  | first :: second :: rest, _, hpieces =>
      simp only []
      obtain ⟨init, last, hconcat⟩ : ∃ init last, first :: second :: rest = init ++ [last] := by
        rcases List.eq_nil_or_concat (first :: second :: rest) with h | h
        · exact absurd h (by simp)
        · simpa [List.concat_eq_append] using h
      rw [hconcat] at hpieces ⊢
      simp only [List.dropLast_concat, List.getLastD_concat]
      have hsplit := rdropWhile_append_rtakeWhile (ContainsString family_name_prefixes) init
      generalize init.rdropWhile (ContainsString family_name_prefixes) = remaining at hsplit ⊢
      generalize init.rtakeWhile (ContainsString family_name_prefixes) = familyPrefixes
        at hsplit ⊢
      subst hsplit
      have hrem : ∀ t ∈ remaining, t ≠ [] ∧ ∀ c ∈ t, c ∉ ASCIIToUTF16 " ," :=
        fun t ht => hpieces t (by simp [ht])
      have hfam : ∀ t ∈ familyPrefixes ++ [last], t ≠ [] ∧ ∀ c ∈ t, c ∉ ASCIIToUTF16 " ," := by
        intro t ht
        apply hpieces t
        simp only [List.mem_append, List.mem_singleton] at ht ⊢
        tauto
      rw [SplitString_JoinString _ hfam]
      by_cases hlen : remaining.length ≥ 2
      · simp only [hlen, if_true]
        obtain ⟨front, middle, hrconcat⟩ : ∃ front middle, remaining = front ++ [middle] := by
          rcases List.eq_nil_or_concat remaining with h | h
          · subst h
            simp at hlen
          · simpa [List.concat_eq_append] using h
        subst hrconcat
        simp only [List.dropLast_concat, List.getLastD_concat]
        have hfront : ∀ t ∈ front, t ≠ [] ∧ ∀ c ∈ t, c ∉ ASCIIToUTF16 " ," :=
          fun t ht => hrem t (by simp [ht])
        rw [SplitString_JoinString _ hfront,
          SplitString_token middle (hrem middle (by simp))]
        simp
      · simp only [hlen, if_false, hempty, List.append_nil]
        rw [SplitString_JoinString _ hrem]
        simp

/-- Witness for C26: a name with a prefix, a middle initial and a suffix. -/
theorem SplitName_keeps_tokens_in_order_witness :
    SplitString (SplitName sampleUnicodeData (ASCIIToUTF16 "Mr. John Q. Public Jr.")).given
        (ASCIIToUTF16 " ,") ++
      SplitString (SplitName sampleUnicodeData (ASCIIToUTF16 "Mr. John Q. Public Jr.")).middle
        (ASCIIToUTF16 " ,") ++
      SplitString (SplitName sampleUnicodeData (ASCIIToUTF16 "Mr. John Q. Public Jr.")).family
        (ASCIIToUTF16 " ,") =
      strippedTokens (ASCIIToUTF16 "Mr. John Q. Public Jr.") :=
  SplitName_keeps_tokens_in_order sampleUnicodeData (ASCIIToUTF16 "Mr. John Q. Public Jr.")
    (Or.inl (by decide)) (by decide)

end data_util

end autofill

namespace network_session_configurator

/-- The part of `ConfigureQuicParams` guarded by `params->enable_quic` does not
write `enable_quic`. -/
theorem ConfigureEnabledQuicParams_enable_quic (lib : NetLibrary) (command_line : CommandLine)
    (quic_trial_params : VariationParameters) (params : Params) :
    (ConfigureEnabledQuicParams lib command_line quic_trial_params params).enable_quic =
      params.enable_quic := by
  unfold ConfigureEnabledQuicParams
  simp only []
  split_ifs <;> rfl

/-- `ConfigureQuicParams` leaves in `enable_quic` what its first statement
stored there. -/
theorem ConfigureQuicParams_enable_quic (lib : NetLibrary) (command_line : CommandLine)
    (quic_trial_group : String) (quic_trial_params : VariationParameters)
    (is_quic_allowed_by_policy : Bool) (quic_user_agent_id : String) (params : Params) :
    (ConfigureQuicParams lib command_line quic_trial_group quic_trial_params
        is_quic_allowed_by_policy quic_user_agent_id params).enable_quic =
      ShouldEnableQuic command_line quic_trial_group is_quic_allowed_by_policy := by
  unfold ConfigureQuicParams
  simp only []
  split_ifs <;> simp only [ConfigureEnabledQuicParams_enable_quic]

/-- C21. `ShouldEnableQuic` returns false whenever the disable-quic switch is
present or QUIC is not allowed by policy, whatever the enable-quic switch and
the field-trial group are; otherwise it returns true exactly when the
enable-quic switch is present or the field-trial group name starts with
"Enabled" or with "HttpsEnabled"; and `ConfigureQuicParams` hands back
`params` with that value in `enable_quic`. -/
theorem ShouldEnableQuic_decides_enable_quic (lib : NetLibrary) (command_line : CommandLine)
    (quic_trial_group : String) (quic_trial_params : VariationParameters)
    (is_quic_allowed_by_policy : Bool) (quic_user_agent_id : String) (params : Params) :
    ((command_line.HasSwitch Switch.kDisableQuic = true ∨ is_quic_allowed_by_policy = false) →
        ShouldEnableQuic command_line quic_trial_group is_quic_allowed_by_policy = false) ∧
      (command_line.HasSwitch Switch.kDisableQuic = false → is_quic_allowed_by_policy = true →
        (ShouldEnableQuic command_line quic_trial_group is_quic_allowed_by_policy = true ↔
          command_line.HasSwitch Switch.kEnableQuic = true ∨
            "Enabled".toList <+: quic_trial_group.toList ∨
            "HttpsEnabled".toList <+: quic_trial_group.toList)) ∧
      (ConfigureQuicParams lib command_line quic_trial_group quic_trial_params
          is_quic_allowed_by_policy quic_user_agent_id params).enable_quic =
        ShouldEnableQuic command_line quic_trial_group is_quic_allowed_by_policy := by
  refine ⟨?_, ?_, ?_⟩
  · intro h
    unfold ShouldEnableQuic
    rcases h with h | h <;> simp [h]
  · intro hdisable hallowed
    unfold ShouldEnableQuic starts_with kQuicFieldTrialEnabledGroupName
      kQuicFieldTrialHttpsEnabledGroupName
    rw [hdisable, hallowed]
    cases henable : command_line.HasSwitch Switch.kEnableQuic
    · simp [List.isPrefixOf_iff_prefix]
    · simp
  · exact ConfigureQuicParams_enable_quic lib command_line quic_trial_group quic_trial_params
      is_quic_allowed_by_policy quic_user_agent_id params

end network_session_configurator
